import Mathlib

/-!
# RF Link Planner: towers, links and the Fresnel engine

A shallow embedding of `js/towers.js`, `js/links.js`, `js/fresnel.js` and the
distance utility of `js/app.js`.

Modelling conventions.

* JavaScript objects are mutable and shared by reference: a link holds its two
  tower objects, the tower list, the selection and the pending link hold the
  same objects. The session state therefore carries two stores (`towerObj`,
  `linkObj`) mapping an object reference to the object's current fields; lists
  and selections hold references.
* `Date.now()` is an input: every operation that reads the clock takes the
  value read as the argument `now`.
* A JavaScript number that is only parsed, copied and compared (a frequency, a
  height) is a `JSNumber`: `NaN`, the two infinities, or a finite value. Latitude,
  longitude, distances and radii are real numbers; arithmetic on them is real
  arithmetic. The section `FresnelCalculator.Double` repeats the Fresnel engine
  with the overflow of double arithmetic.
* DOM updates, `alert` and the optional map hooks do not touch the state of the
  managers and are left out; a thrown `Error` is an `Except.error`.
-/

namespace RFLinkPlanner

/-! ## Values -/

/-- A JavaScript number held in a `frequency` or `height` field. -/
inductive JSNumber where
  | nan
  | negInf
  | posInf
  | fin (x : ℚ)
  deriving DecidableEq

namespace JSNumber

/-- The global `isNaN(x)` on a number. -/
def isNaN : JSNumber → Bool
  | nan => true
  | _ => false

/-- The strict equality `a === b` of two numbers: `NaN` equals nothing. -/
def strictEq (a b : JSNumber) : Bool :=
  !a.isNaN && !b.isNaN && decide (a = b)

/-- The comparison `x <= 0`. -/
def leZero : JSNumber → Bool
  | nan => false
  | negInf => true
  | posInf => false
  | fin x => decide (x ≤ 0)

/-- Truthiness of a number: every number but `NaN` and `0` is truthy. -/
def truthy : JSNumber → Bool
  | nan => false
  | fin x => decide (x ≠ 0)
  | _ => true

/-- The function `parseInt(x)` on a number: `NaN` for `NaN` and the infinities,
and for a finite number its integer part, truncated towards zero. (A number is
first printed; the integer part is what is read back for every number printed in
plain decimal notation, that is of magnitude below `1e21` and not below `1e-6`
unless it is 0.) -/
def parseInt : JSNumber → JSNumber
  | fin x => fin (if 0 ≤ x then (Int.floor x : ℚ) else (Int.ceil x : ℚ))
  | _ => nan

/-- The operand chosen by `a || b` on numbers. -/
def orElse (a b : JSNumber) : JSNumber :=
  if a.truthy then a else b

end JSNumber

/-- An identifier string. `tower ms` is the string a tower is given at creation,
the text "tower_" followed by the decimal timestamp `ms`; `link ms` is the text
"link_" followed by `ms`; `other s` is any string of neither form (an import
blob may hold one). -/
inductive Ident where
  | tower (ms : Nat)
  | link (ms : Nat)
  | other (s : String)
  deriving DecidableEq

/-- An optional JavaScript argument or property: left out (`undefined`), `null`,
or a value. -/
inductive Arg (α : Type) where
  | undefined
  | null
  | value (a : α)

/-- A reference to an object of a store. -/
abbrev Ref := Nat

/-- The fields of a tower object (`createdAt` is never read and is left out). -/
structure Tower where
  id : Ident
  lat : ℝ
  lng : ℝ
  name : String
  frequency : JSNumber
  height : JSNumber

/-- The fields of a link object; the two towers are held by reference. -/
structure Link where
  id : Ident
  fromTower : Ref
  toTower : Ref
  frequency : JSNumber
  distance : ℝ

/-! ## Geodesy -/

/-- The function `Math.atan2(y, x)`: the angle of the point `(x, y)`, which is
`0` at the origin. -/
noncomputable def atan2 (y x : ℝ) : ℝ :=
  Complex.arg ⟨x, y⟩

/-- The method `deg2rad` of `app.js`. -/
noncomputable def deg2rad (deg : ℝ) : ℝ :=
  deg * (Real.pi / 180)

/-- The method `calculateDistance` of `app.js`: haversine distance in km. -/
noncomputable def calculateDistance (tower1 tower2 : Tower) : ℝ :=
  let R : ℝ := 6371
  let dLat := deg2rad (tower2.lat - tower1.lat)
  let dLng := deg2rad (tower2.lng - tower1.lng)
  let a :=
    Real.sin (dLat / 2) * Real.sin (dLat / 2) +
      Real.cos (deg2rad tower1.lat) * Real.cos (deg2rad tower2.lat) *
        Real.sin (dLng / 2) * Real.sin (dLng / 2)
  let c := 2 * atan2 (Real.sqrt a) (Real.sqrt (1 - a))
  R * c

end RFLinkPlanner

/-! ## The Fresnel engine (`js/fresnel.js`) -/

namespace FresnelCalculator

open RFLinkPlanner (Tower JSNumber atan2)

/-- The constant `SPEED_OF_LIGHT`, in m/s. -/
def SPEED_OF_LIGHT : ℝ := 3e8

/-- The method `deg2rad` of `fresnel.js`. -/
noncomputable def deg2rad (deg : ℝ) : ℝ :=
  deg * (Real.pi / 180)

/-- The method `calculateDistance` of `fresnel.js`. -/
noncomputable def calculateDistance (t1 t2 : Tower) : ℝ :=
  let R : ℝ := 6371
  let dLat := deg2rad (t2.lat - t1.lat)
  let dLng := deg2rad (t2.lng - t1.lng)
  let a :=
    Real.sin (dLat / 2) * Real.sin (dLat / 2) +
      Real.cos (deg2rad t1.lat) * Real.cos (deg2rad t2.lat) *
        Real.sin (dLng / 2) * Real.sin (dLng / 2)
  let c := 2 * atan2 (Real.sqrt a) (Real.sqrt (1 - a))
  R * c

/-- The method `calculateFresnelRadius`. -/
noncomputable def calculateFresnelRadius (wavelength d1 d2 : ℝ) : ℝ :=
  if d1 + d2 = 0 then 0
  else Real.sqrt ((wavelength * d1 * d2) / (d1 + d2))

/-- The link object as `analyzeLink` reads it: its two tower objects, either of
which may be missing, and its own frequency. -/
structure LinkArg where
  fromTower : Option Tower
  toTower : Option Tower
  frequency : JSNumber

/-- One sample of the profile returned by `calculateFresnelPoints`. -/
structure Point where
  lat : ℝ
  lng : ℝ
  radius : ℝ
  distanceFromStart : ℝ

/-- The method `calculateFresnelPoints`, on the two tower objects of the link:
the loop `for (i = 0; i <= 24; i++)` pushes one sample per `i`. -/
noncomputable def calculateFresnelPoints (fromTower toTower : Tower)
    (wavelength totalDistance : ℝ) : List Point :=
  let steps : ℕ := 24
  (List.range (steps + 1)).map fun (i : ℕ) =>
    let f : ℝ := (i : ℝ) / (steps : ℝ)
    let d1 := totalDistance * f
    let d2 := totalDistance * (1 - f)
    let r := calculateFresnelRadius wavelength d1 d2
    let lat := fromTower.lat + (toTower.lat - fromTower.lat) * f
    let lng := fromTower.lng + (toTower.lng - fromTower.lng) * f
    { lat := lat, lng := lng, radius := r, distanceFromStart := d1 }

/-- The object returned by `analyzeLink`. -/
structure Analysis where
  frequency : JSNumber
  wavelength : ℝ
  distance : ℝ
  distanceKm : ℝ
  maxRadius : ℝ
  midpoint : ℝ × ℝ
  points : List Point

/-- The errors `analyzeLink` throws. -/
inductive AnalysisError where
  | invalidLink
  | invalidFrequency
  deriving DecidableEq

/-- The quotient `SPEED_OF_LIGHT / (frequencyGHz * 1e9)` for a frequency that
passed the guard of `analyzeLink`: a real quotient for a finite frequency, and
`0` for `Infinity` (a finite number divided by `Infinity`). The quotient never
overflows here; `FresnelCalculator.Double.analyzeLink` has the overflow. -/
noncomputable def wavelengthOf : JSNumber → ℝ
  | JSNumber.fin x => SPEED_OF_LIGHT / ((x : ℝ) * 1e9)
  | _ => 0

/-- The method `analyzeLink`. `parseFloat` of a number is that number. -/
noncomputable def analyzeLink (link : Option LinkArg) : Except AnalysisError Analysis :=
  match link with
  | none => .error .invalidLink
  | some l =>
    match l.fromTower, l.toTower with
    | some fromTower, some toTower =>
      let frequencyGHz := l.frequency.orElse fromTower.frequency
      if frequencyGHz.isNaN || frequencyGHz.leZero then .error .invalidFrequency
      else
        let wavelength := wavelengthOf frequencyGHz
        let totalDistanceMeters := calculateDistance fromTower toTower * 1000
        let midpoint : ℝ × ℝ :=
          ((fromTower.lat + toTower.lat) / 2, (fromTower.lng + toTower.lng) / 2)
        let D := totalDistanceMeters
        let maxRadius : ℝ := if D ≤ 0 then 0 else 0.5 * Real.sqrt (wavelength * D)
        let points := calculateFresnelPoints fromTower toTower wavelength totalDistanceMeters
        .ok { frequency := frequencyGHz, wavelength := wavelength,
              distance := totalDistanceMeters, distanceKm := totalDistanceMeters / 1000,
              maxRadius := maxRadius, midpoint := midpoint, points := points }
    | _, _ => .error .invalidLink

end FresnelCalculator

/-! ## The session state -/

namespace RFLinkPlanner

/-- The mutable state of one planner: the two object stores, the next free
reference of each, and the fields of `TowerManager` (`towers`, `selectedTower`)
and `LinkManager` (`links`, `selectedLink`, `tempLink`). The pending link
`tempLink` is `null` or an object holding the tower `fromTower`. -/
structure State where
  towerObj : Ref → Tower
  linkObj : Ref → Link
  nextTower : Ref
  nextLink : Ref
  towers : List Ref
  links : List Ref
  selectedTower : Option Ref
  selectedLink : Option Ref
  tempLink : Option Ref

/-- The reason carried by a failed validation. -/
inductive Reason where
  | invalidTowers
  | selfConnection
  | invalidFrequency (name : String)
  | frequencyMismatch (f1 f2 : JSNumber)
  | alreadyExists
  deriving DecidableEq

/-- The object returned by `validateTowerConnection`. -/
inductive Validation where
  | valid
  | invalid (reason : Reason)
  deriving DecidableEq

/-- The errors thrown by the link manager: `new Error(validation.reason)` and
`new Error('No temp link active')`. -/
inductive LinkError where
  | validation (reason : Reason)
  | noTempLinkActive
  deriving DecidableEq

/-- An entry of the `towers` array of an import blob. -/
structure TowerData where
  id : Ident
  lat : ℝ
  lng : ℝ
  name : Arg String
  frequency : Arg JSNumber
  height : Arg JSNumber

/-- An entry of the `links` array of an import blob. -/
structure LinkData where
  id : Ident
  fromTowerId : Ident
  toTowerId : Ident
  frequency : JSNumber

/-- The state `s` with the pending link holding the tower `f`. -/
def State.withTempLink (s : State) (f : Ref) : State :=
  { s with tempLink := some f }

/-- The state of a freshly constructed planner. -/
def State.init : State where
  towerObj := fun _ =>
    { id := .other "", lat := 0, lng := 0, name := "", frequency := .nan, height := .nan }
  linkObj := fun _ =>
    { id := .other "", fromTower := 0, toTower := 0, frequency := .nan, distance := 0 }
  nextTower := 0
  nextLink := 0
  towers := []
  links := []
  selectedTower := none
  selectedLink := none
  tempLink := none

end RFLinkPlanner

/-! ## The link manager: lookup, selection, deletion and resync (`js/links.js`) -/

namespace LinkManager

open RFLinkPlanner

/-- The method `findLink`. -/
def findLink (s : State) (tower1 tower2 : Ref) : Option Ref :=
  s.links.find? fun l =>
    ((s.towerObj (s.linkObj l).fromTower).id = (s.towerObj tower1).id &&
        (s.towerObj (s.linkObj l).toTower).id = (s.towerObj tower2).id) ||
      ((s.towerObj (s.linkObj l).fromTower).id = (s.towerObj tower2).id &&
        (s.towerObj (s.linkObj l).toTower).id = (s.towerObj tower1).id)

/-- The method `getLinksForTower`. -/
def getLinksForTower (s : State) (tower : Ref) : List Ref :=
  s.links.filter fun l =>
    (s.towerObj (s.linkObj l).fromTower).id = (s.towerObj tower).id ||
      (s.towerObj (s.linkObj l).toTower).id = (s.towerObj tower).id

/-- The method `deselectLink`. -/
def deselectLink (s : State) : State :=
  match s.selectedLink with
  | none => s
  | some _ => { s with selectedLink := none }

/-- The method `selectLink`. -/
def selectLink (s : State) (link : Option Ref) : State :=
  match link with
  | none => s
  | some l =>
    match s.selectedLink with
    | some cur =>
      if (s.linkObj cur).id = (s.linkObj l).id then s
      else { deselectLink s with selectedLink := some l }
    | none => { s with selectedLink := some l }

/-- The method `cancelTempLink`. -/
def cancelTempLink (s : State) : State :=
  { s with tempLink := none }

/-- The link `l` touches the id `towerId`: one of its two towers has that id. -/
def touches (s : State) (towerId : Ident) (l : Ref) : Prop :=
  (s.towerObj (s.linkObj l).fromTower).id = towerId ∨
    (s.towerObj (s.linkObj l).toTower).id = towerId

/-- The method `deleteLink`: the first link with that id is spliced out of the
list, and the selection is dropped when the selected link has that id. -/
def deleteLink (s : State) (linkId : Ident) : Bool × State :=
  match s.links.findIdx? (fun l => (s.linkObj l).id = linkId) with
  | none => (false, s)
  | some idx =>
    let s1 : State := { s with links := s.links.eraseIdx idx }
    match s1.selectedLink with
    | some cur => if (s1.linkObj cur).id = linkId then (true, deselectLink s1) else (true, s1)
    | none => (true, s1)

/-- The method `removeLinksForTower`: the links touching the tower are collected
first, then `deleteLink` runs on the id of each. -/
def removeLinksForTower (s : State) (tower : Ref) : State :=
  (getLinksForTower s tower).foldl (fun st l => (deleteLink st (st.linkObj l).id).2) s

/-- The assignments `updateLinksForTower` makes to one link object: the
frequency of the tower (the link is touched, so one of the two id tests holds) and
the recomputed distance. -/
noncomputable def syncLink (s : State) (tower : Ref) (link : Link) : Link :=
  { link with
    frequency := (s.towerObj tower).frequency,
    distance := calculateDistance (s.towerObj link.fromTower) (s.towerObj link.toTower) }

/-- The callback of the `forEach` in `updateLinksForTower`, on the link `l`. -/
noncomputable def syncStep (tower : Ref) (s : State) (l : Ref) : State :=
  { s with linkObj := Function.update s.linkObj l (syncLink s tower (s.linkObj l)) }

/-- The method `updateLinksForTower`: every link touching the tower takes the
frequency of the tower and a recomputed distance. -/
noncomputable def updateLinksForTower (s : State) (tower : Ref) : State :=
  (getLinksForTower s tower).foldl (syncStep tower) s

end LinkManager

/-! ## The tower manager (`js/towers.js`) -/

namespace TowerManager

open RFLinkPlanner

/-- The method `deselectTower`. -/
def deselectTower (s : State) : State :=
  match s.selectedTower with
  | none => s
  | some _ => { s with selectedTower := none }

/-- The method `selectTower`. -/
def selectTower (s : State) (tower : Option Ref) : State :=
  match tower with
  | none => s
  | some t =>
    match s.selectedTower with
    | some cur =>
      if (s.towerObj cur).id = (s.towerObj t).id then s
      else { deselectTower s with selectedTower := some t }
    | none => { s with selectedTower := some t }

/-- The name expression of `createTower`: the given name, or for a
missing, `null` or empty one the label "Tower k" with `k` the registry length
plus one. -/
def towerName (s : State) : Arg String → String
  | .value n => if n = "" then "Tower " ++ toString (s.towers.length + 1) else n
  | _ => "Tower " ++ toString (s.towers.length + 1)

/-- The frequency expression of `createTower`: a left-out argument takes the
default `5.0`, `null` gives `NaN`, and a number `x` gives `parseFloat(x)`, which
is `x` itself. -/
def towerFrequency : Arg JSNumber → JSNumber
  | .undefined => .fin 5
  | .null => .nan
  | .value x => x

/-- The height expression of `createTower`: a left-out argument takes the
default `30`, whose `parseInt` is 30, `null` gives `30`, and a number `x` gives
`parseInt(x)`. -/
def towerHeight : Arg JSNumber → JSNumber
  | .undefined => .fin 30
  | .null => .fin 30
  | .value x => x.parseInt

/-- The method `createTower`; `now` is the value of `Date.now()`. The new object
is stored under the next free reference, pushed on `towers` and selected. -/
def createTower (s : State) (lat lng : ℝ) (name : Arg String) (frequency : Arg JSNumber)
    (height : Arg JSNumber) (now : Nat) : Ref × State :=
  let tower : Tower :=
    { id := .tower now, lat := lat, lng := lng, name := towerName s name,
      frequency := towerFrequency frequency, height := towerHeight height }
  let r := s.nextTower
  let s1 : State :=
    { s with towerObj := Function.update s.towerObj r tower,
             nextTower := r + 1,
             towers := s.towers ++ [r] }
  (r, selectTower s1 (some r))

/-- The method `validateTowerConnection`. A tower argument is `null` or a tower
object; the `frequency` field of a tower object is always a number. -/
def validateTowerConnection (s : State) (tower1 tower2 : Option Ref) : Validation :=
  match tower1, tower2 with
  | some r1, some r2 =>
    let t1 := s.towerObj r1
    let t2 := s.towerObj r2
    if t1.id = t2.id then .invalid .selfConnection
    else if t1.frequency.isNaN then .invalid (.invalidFrequency t1.name)
    else if t2.frequency.isNaN then .invalid (.invalidFrequency t2.name)
    else if !(t1.frequency.strictEq t2.frequency) then
      .invalid (.frequencyMismatch t1.frequency t2.frequency)
    else if (LinkManager.findLink s r1 r2).isSome then .invalid .alreadyExists
    else .valid
  | _, _ => .invalid .invalidTowers

/-- The method `importTowers`: the list is emptied, then every entry is
recreated by `createTower` from its `lat`, `lng`, `name`, `frequency` and
`height`. Each entry comes with the value `Date.now()` returns at its turn. -/
def importTowers (s : State) (towerData : List (TowerData × Nat)) : State :=
  towerData.foldl
    (fun st td =>
      (createTower st td.1.lat td.1.lng td.1.name td.1.frequency td.1.height td.2).2)
    { s with towers := [] }

/-- The object `updates` passed to `updateTower`. A field may be left out
(`none`, `undefined`). For `frequency` and `height`, `null` stands for the empty
string or `null`, and `value x` for the number `x`. The id is never among the
updates. -/
structure Updates where
  name : Option String
  frequency : Arg JSNumber
  height : Arg JSNumber
  lat : Option ℝ
  lng : Option ℝ

/-- The object `{frequency: g}` for a number `g`. -/
def Updates.frequencyOnly (g : JSNumber) : Updates :=
  { name := none, frequency := .value g, height := .undefined, lat := none, lng := none }

/-- The object `{lat: x, lng: y}`. -/
def Updates.positionOnly (x y : ℝ) : Updates :=
  { name := none, frequency := .undefined, height := .undefined, lat := some x, lng := some y }

/-- The frequency `updateTower` assigns, if any: `NaN` for a blank input, and
`parseFloat(x)`, which is `x` itself, for a number `x`. -/
def updateFrequency : Arg JSNumber → Option JSNumber
  | .undefined => none
  | .null => some .nan
  | .value x => some x

/-- The height `updateTower` assigns, if any: the previous height for a blank
input, and `parseInt(x)` for a number `x`. -/
def updateHeight (tower : Tower) : Arg JSNumber → Option JSNumber
  | .undefined => none
  | .null => some tower.height
  | .value x => some x.parseInt

/-- The tower object after the two normalisations and `Object.assign(tower,
updates)` of `updateTower`: every field that was given is overwritten. -/
def assign (tower : Tower) (updates : Updates) : Tower :=
  { tower with
    name := updates.name.getD tower.name,
    frequency := (updateFrequency updates.frequency).getD tower.frequency,
    height := (updateHeight tower updates.height).getD tower.height,
    lat := updates.lat.getD tower.lat,
    lng := updates.lng.getD tower.lng }

/-- The state in which the tower object `r` has the fields `tower`. -/
def storeTower (s : State) (r : Ref) (tower : Tower) : State :=
  { s with towerObj := Function.update s.towerObj r tower }

/-- The method `updateTower`: the first tower with that id takes the given
fields, and its links are resynchronised when a frequency was given. It returns
`null` (`none`) for an unknown id, else the tower. -/
noncomputable def updateTower (s : State) (towerId : Ident) (updates : Updates) :
    Option Ref × State :=
  match s.towers.find? (fun t => (s.towerObj t).id = towerId) with
  | none => (none, s)
  | some r =>
    let s1 := storeTower s r (assign (s.towerObj r) updates)
    if (updateFrequency updates.frequency).isSome then
      (some r, LinkManager.updateLinksForTower s1 r)
    else (some r, s1)

/-- The method `deleteTower`: for the first tower with that id, its links are
removed, the tower is spliced out of the list, and the selection is dropped when
the selected tower has that id. It returns `false` for an unknown id. -/
def deleteTower (s : State) (towerId : Ident) : Bool × State :=
  match s.towers.findIdx? (fun t => (s.towerObj t).id = towerId),
        s.towers.find? (fun t => (s.towerObj t).id = towerId) with
  | some idx, some tower =>
    let s1 := LinkManager.removeLinksForTower s tower
    let s2 : State := { s1 with towers := s1.towers.eraseIdx idx }
    match s2.selectedTower with
    | some cur =>
      if (s2.towerObj cur).id = towerId then (true, deselectTower s2) else (true, s2)
    | none => (true, s2)
  | _, _ => (false, s)

/-- The method `clearAllTowers`. -/
def clearAllTowers (s : State) : State :=
  { s with towers := [], selectedTower := none }

/-- One call of `createTower`: its arguments and the clock value it reads. -/
structure CreateTowerCall where
  lat : ℝ
  lng : ℝ
  name : Arg String
  frequency : Arg JSNumber
  height : Arg JSNumber
  now : Nat

/-- A sequence of `createTower` calls, run one after the other. -/
def createTowers (s : State) (calls : List CreateTowerCall) : State :=
  calls.foldl
    (fun st c => (createTower st c.lat c.lng c.name c.frequency c.height c.now).2) s

/-- The ids of the towers of the registry, in order. -/
def towerIds (s : State) : List Ident :=
  s.towers.map fun r => (s.towerObj r).id

end TowerManager

/-! ## The link manager: creation, pending link and import (`js/links.js`) -/

namespace LinkManager

open RFLinkPlanner

/-- The object literal `newLink` of `createLink`; `now` is the value of
`Date.now()`. -/
noncomputable def newLink (s : State) (f t : Ref) (now : Nat) : Link :=
  { id := .link now, fromTower := f, toTower := t, frequency := (s.towerObj f).frequency,
    distance := calculateDistance (s.towerObj f) (s.towerObj t) }

/-- The statement `this.links.push(newLink)` of `createLink`: the new object is
stored under the next free reference and pushed on `links`. -/
noncomputable def pushLink (s : State) (f t : Ref) (now : Nat) : State :=
  { s with linkObj := Function.update s.linkObj s.nextLink (newLink s f t now),
           nextLink := s.nextLink + 1,
           links := s.links ++ [s.nextLink] }

/-- The method `createLink`. The tower manager and its `validateTowerConnection`
always exist, so the validation always runs; it fails unless both towers are
objects. A failed validation throws before anything is changed; otherwise the new
link is pushed, selected and returned. -/
noncomputable def createLink (s : State) (fromTower toTower : Option Ref) (now : Nat) :
    Except LinkError Ref × State :=
  match TowerManager.validateTowerConnection s fromTower toTower, fromTower, toTower with
  | .valid, some f, some t =>
    (.ok s.nextLink, selectLink (pushLink s f t now) (some s.nextLink))
  | .invalid reason, _, _ => (.error (.validation reason), s)
  | .valid, _, _ => (.error (.validation .invalidTowers), s)

/-- The method `startTempLink`. -/
def startTempLink (s : State) (fromTower : Option Ref) : State :=
  match fromTower with
  | none => s
  | some f =>
    if (s.towerObj f).frequency.isNaN then TowerManager.selectTower s (some f)
    else { s with tempLink := some f }

/-- The method `completeTempLink`: it throws, or returns `undefined` (`none`)
or the new link. -/
noncomputable def completeTempLink (s : State) (toTower : Option Ref) (now : Nat) :
    Except LinkError (Option Ref) × State :=
  match s.tempLink with
  | none => (.error .noTempLinkActive, s)
  | some fromTower =>
    match toTower with
    | none => (.ok none, s)
    | some t =>
      if (s.towerObj t).frequency.isNaN then (.ok none, TowerManager.selectTower s (some t))
      else if (s.towerObj fromTower).id = (s.towerObj t).id then (.ok none, s)
      else
        match createLink s (some fromTower) (some t) now with
        | (.ok link, s1) => (.ok (some link), cancelTempLink s1)
        | (.error err, s1) => (.error err, s1)

/-- The method `importLinks`: the list is emptied, then every entry whose two
tower ids are found in `towers` is passed to `createLink`, whose error is caught.
Each entry comes with the value `Date.now()` returns at its turn. -/
noncomputable def importLinks (s : State) (linkData : List (LinkData × Nat))
    (towers : List Ref) : State :=
  linkData.foldl
    (fun st ld =>
      match towers.find? (fun t => (st.towerObj t).id = ld.1.fromTowerId),
            towers.find? (fun t => (st.towerObj t).id = ld.1.toTowerId) with
      | some f, some t => (createLink st (some f) (some t) ld.2).2
      | _, _ => st)
    { s with links := [] }

/-- The method `clearAllLinks`. -/
def clearAllLinks (s : State) : State :=
  { s with links := [], selectedLink := none }

end LinkManager

/-! ## The import of a project (`js/app.js`) -/

namespace RFLinkPlanner

/-- The body of the confirmed import in `importProject`: `importTowers` on the
towers of the blob, then `importLinks` on its links and the new tower list. -/
noncomputable def importProject (s : State) (towers : List (TowerData × Nat))
    (links : List (LinkData × Nat)) : State :=
  let s1 := TowerManager.importTowers s towers
  LinkManager.importLinks s1 links s1.towers

end RFLinkPlanner

/-! ## Sessions as sequences of operations -/

namespace RFLinkPlanner

/-- The confirmed `clearAll` of `app.js`: `clearAllTowers`, then `clearAllLinks`,
then `setMode('navigation')`, which cancels the pending link. -/
def clearAll (s : State) : State :=
  LinkManager.cancelTempLink (LinkManager.clearAllLinks (TowerManager.clearAllTowers s))

/-- One operation of a session, with its arguments and the clock values it
reads. -/
inductive Action where
  | createTower (lat lng : ℝ) (name : Arg String) (frequency height : Arg JSNumber)
      (now : Nat)
  | updateTower (towerId : Ident) (updates : TowerManager.Updates)
  | deleteTower (towerId : Ident)
  | createLink (fromTower toTower : Option Ref) (now : Nat)
  | deleteLink (linkId : Ident)
  | startTempLink (fromTower : Option Ref)
  | completeTempLink (toTower : Option Ref) (now : Nat)
  | cancelTempLink
  | selectTower (tower : Option Ref)
  | selectLink (link : Option Ref)
  | importProject (towers : List (TowerData × Nat)) (links : List (LinkData × Nat))
  | clearAll

/-- An argument that is a tower object is an object that exists. -/
def towerArg (s : State) (t : Option Ref) : Prop :=
  ∀ r, t = some r → r < s.nextTower

/-- An argument that is a link object is an object that exists. -/
def linkArg (s : State) (l : Option Ref) : Prop :=
  ∀ r, l = some r → r < s.nextLink

/-- The object arguments of an operation exist when it is called. -/
def Action.wellFormed (s : State) : Action → Prop
  | .createLink fromTower toTower _ => towerArg s fromTower ∧ towerArg s toTower
  | .startTempLink fromTower => towerArg s fromTower
  | .completeTempLink toTower _ => towerArg s toTower
  | .selectTower tower => towerArg s tower
  | .selectLink link => linkArg s link
  | _ => True

/-- The state after an operation; a returned value is dropped and a thrown error
is caught by the caller, as `completeLinkCreation` does. -/
noncomputable def run (s : State) : Action → State
  | .createTower lat lng name frequency height now =>
    (TowerManager.createTower s lat lng name frequency height now).2
  | .updateTower towerId updates => (TowerManager.updateTower s towerId updates).2
  | .deleteTower towerId => (TowerManager.deleteTower s towerId).2
  | .createLink fromTower toTower now => (LinkManager.createLink s fromTower toTower now).2
  | .deleteLink linkId => (LinkManager.deleteLink s linkId).2
  | .startTempLink fromTower => LinkManager.startTempLink s fromTower
  | .completeTempLink toTower now => (LinkManager.completeTempLink s toTower now).2
  | .cancelTempLink => LinkManager.cancelTempLink s
  | .selectTower tower => TowerManager.selectTower s tower
  | .selectLink link => LinkManager.selectLink s link
  | .importProject towers links => importProject s towers links
  | .clearAll => clearAll s

/-- The states reached from a fresh planner by operations taken from `allowed`. -/
inductive ReachableBy (allowed : Action → Prop) : State → Prop where
  | init : ReachableBy allowed State.init
  | step (s : State) (a : Action) : ReachableBy allowed s → allowed a → a.wellFormed s →
      ReachableBy allowed (run s a)

/-- The operations named by the invariant on link pairs: tower creation, update
and deletion, link creation and deletion, and the three pending-link
operations. -/
def Action.isLinkEditing : Action → Prop
  | .createTower .. => True
  | .updateTower .. => True
  | .deleteTower .. => True
  | .createLink .. => True
  | .deleteLink .. => True
  | .startTempLink .. => True
  | .completeTempLink .. => True
  | .cancelTempLink => True
  | _ => False

/-- The operations `createTower`, `updateTower`, `deleteTower`, `createLink` and
`deleteLink`. -/
def Action.isRegistryEditing : Action → Prop
  | .createTower .. => True
  | .updateTower .. => True
  | .deleteTower .. => True
  | .createLink .. => True
  | .deleteLink .. => True
  | _ => False

/-- The operations of `isRegistryEditing`, with every `updateTower` leaving the
frequency out of its updates. -/
def Action.keepsFrequency : Action → Prop
  | .createTower .. => True
  | .updateTower _ updates => TowerManager.updateFrequency updates.frequency = none
  | .deleteTower .. => True
  | .createLink .. => True
  | .deleteLink .. => True
  | _ => False

/-- The ids of the two towers of a link. -/
def linkPair (s : State) (l : Ref) : Ident × Ident :=
  ((s.towerObj (s.linkObj l).fromTower).id, (s.towerObj (s.linkObj l).toTower).id)

/-- Two pairs of ids are the same unordered pair. -/
def samePair (p q : Ident × Ident) : Prop :=
  (p.1 = q.1 ∧ p.2 = q.2) ∨ (p.1 = q.2 ∧ p.2 = q.1)

/-- No two links of the list join the same unordered pair of tower ids. -/
def NoDuplicateLink (s : State) : Prop :=
  s.links.Pairwise fun a b => ¬ samePair (linkPair s a) (linkPair s b)

/-- Every link of the list joins two towers whose frequencies are strictly
equal. -/
def CommonFrequency (s : State) : Prop :=
  ∀ l ∈ s.links,
    (s.towerObj (s.linkObj l).fromTower).frequency.strictEq
      (s.towerObj (s.linkObj l).toTower).frequency = true

/-- Every listed link, its two towers and the pending tower are objects that
exist. -/
def State.WellFormed (s : State) : Prop :=
  (∀ l ∈ s.links, l < s.nextLink ∧ (s.linkObj l).fromTower < s.nextTower ∧
      (s.linkObj l).toTower < s.nextTower) ∧
    ∀ f, s.tempLink = some f → f < s.nextTower

/-- The step from `s` to `s1` allocates nothing and changes no stored object. -/
def SameStores (s s1 : State) : Prop :=
  s1.towerObj = s.towerObj ∧ s1.linkObj = s.linkObj ∧ s1.nextTower = s.nextTower ∧
    s1.nextLink = s.nextLink

/-- The step from `s` to `s1` keeps every object that existed, the id of every
tower and the two towers of every link. -/
def Frame (s s1 : State) : Prop :=
  s.nextTower ≤ s1.nextTower ∧ s.nextLink ≤ s1.nextLink ∧
    (∀ r, r < s.nextTower → (s1.towerObj r).id = (s.towerObj r).id) ∧
    (∀ l, l < s.nextLink → (s1.linkObj l).fromTower = (s.linkObj l).fromTower ∧
      (s1.linkObj l).toTower = (s.linkObj l).toTower)

/-- The step from `s` to `s1` keeps the frequency of every tower that existed. -/
def FrameFrequency (s s1 : State) : Prop :=
  ∀ r, r < s.nextTower → (s1.towerObj r).frequency = (s.towerObj r).frequency

/-- The pending tower of `s1` is the pending tower of `s` or an existing tower. -/
def PendingKept (s s1 : State) : Prop :=
  ∀ f, s1.tempLink = some f → s.tempLink = some f ∨ f < s.nextTower

/-- The step from `s` to `s1` removes links from the list or leaves it alone. -/
def Shrinks (s s1 : State) : Prop :=
  s1.links.Sublist s.links

/-- The step from `s` to `s1` appends one freshly stored link whose two towers
exist and passed the validation in `s`. -/
def Pushes (s s1 : State) : Prop :=
  ∃ a b, a < s.nextTower ∧ b < s.nextTower ∧
    TowerManager.validateTowerConnection s (some a) (some b) = .valid ∧
    s1.links = s.links ++ [s.nextLink] ∧ s.nextLink < s1.nextLink ∧
    (s1.linkObj s.nextLink).fromTower = a ∧ (s1.linkObj s.nextLink).toTower = b

end RFLinkPlanner

/-! ## Words of the specification -/

namespace RFLinkPlanner

/-- A finite positive number, in the words of the specification. -/
def JSNumber.isFinitePositive : JSNumber → Bool
  | .fin x => decide (0 < x)
  | _ => false

end RFLinkPlanner

/-! ## Sample data -/

namespace Sample

open RFLinkPlanner

/-- A tower at 5 GHz. -/
noncomputable def towerA : Tower :=
  { id := .tower 1000, lat := 12.97, lng := 77.59, name := "A",
    frequency := .fin 5, height := .fin 30 }

/-- A tower at 5 GHz, due north of `towerA`. -/
noncomputable def towerB : Tower :=
  { id := .tower 2000, lat := 12.98, lng := 77.59, name := "B",
    frequency := .fin 5, height := .fin 30 }

/-- A link object from `towerA` to `towerB` at 5 GHz. -/
noncomputable def linkAB : FresnelCalculator.LinkArg :=
  { fromTower := some towerA, toTower := some towerB, frequency := .fin 5 }

/-- A link object from `towerA` to `towerB` whose frequency is `Infinity`. -/
noncomputable def linkInfinity : FresnelCalculator.LinkArg :=
  { fromTower := some towerA, toTower := some towerB, frequency := .posInf }

/-- A tower at 6 GHz. -/
noncomputable def towerC : Tower :=
  { id := .tower 3000, lat := 13.05, lng := 77.65, name := "C",
    frequency := .fin 6, height := .fin 30 }

/-- A tower whose frequency is 0. -/
noncomputable def towerD : Tower :=
  { id := .tower 4000, lat := 13.10, lng := 77.70, name := "D",
    frequency := .fin 0, height := .fin 30 }

/-- A second tower whose frequency is 0. -/
noncomputable def towerE : Tower :=
  { id := .tower 5000, lat := 13.15, lng := 77.75, name := "E",
    frequency := .fin 0, height := .fin 30 }

/-- A tower store holding the five sample towers under the references 0 to 4. -/
noncomputable def towerStore : Ref → Tower
  | 0 => towerA
  | 1 => towerB
  | 2 => towerC
  | 3 => towerD
  | _ => towerE

/-- A session with the five sample towers, no link and nothing pending. -/
noncomputable def session : State :=
  { towerObj := towerStore, linkObj := State.init.linkObj, nextTower := 5, nextLink := 0,
    towers := [0, 1, 2, 3, 4], links := [], selectedTower := some 4, selectedLink := none,
    tempLink := none }

/-- The sample session with a pending link from `towerA`. -/
noncomputable def pendingA : State :=
  { session with tempLink := some 0 }

/-- The towers of a project blob: two towers at 5 GHz. -/
noncomputable def blobTowers : List TowerData :=
  [ { id := .tower 1000, lat := 12.97, lng := 77.59, name := .value "A",
      frequency := .value (.fin 5), height := .value (.fin 30) },
    { id := .tower 2000, lat := 12.98, lng := 77.60, name := .value "B",
      frequency := .value (.fin 5), height := .value (.fin 30) } ]

/-- The links of a project blob: one link between its two towers, and one link
naming a tower id that the blob does not hold. -/
def blobLinks : List LinkData :=
  [ { id := .link 3000, fromTowerId := .tower 1000, toTowerId := .tower 2000,
      frequency := .fin 5 },
    { id := .link 3001, fromTowerId := .tower 1000, toTowerId := .tower 9999,
      frequency := .fin 5 } ]

/-- Two `createTower` calls that read the same clock value. -/
noncomputable def sameMillisecond : List TowerManager.CreateTowerCall :=
  [ { lat := 12.97, lng := 77.59, name := .undefined, frequency := .undefined,
      height := .undefined, now := 1000 },
    { lat := 12.98, lng := 77.60, name := .undefined, frequency := .undefined,
      height := .undefined, now := 1000 } ]

/-- Two `createTower` calls that read different clock values. -/
noncomputable def twoMilliseconds : List TowerManager.CreateTowerCall :=
  [ { lat := 12.97, lng := 77.59, name := .undefined, frequency := .undefined,
      height := .undefined, now := 1000 },
    { lat := 12.98, lng := 77.60, name := .undefined, frequency := .undefined,
      height := .undefined, now := 1001 } ]

/-- Three `createTower` calls: a tower at 5 GHz, then two towers without
frequency that read the same clock value 8000. -/
noncomputable def twinCalls : List TowerManager.CreateTowerCall :=
  [ { lat := 12.97, lng := 77.59, name := .value "A", frequency := .value (.fin 5),
      height := .undefined, now := 1000 },
    { lat := 13.20, lng := 77.80, name := .value "U", frequency := .null,
      height := .undefined, now := 8000 },
    { lat := 13.25, lng := 77.85, name := .value "V", frequency := .null,
      height := .undefined, now := 8000 } ]

/-- The session after the three calls of `twinCalls` and `startTempLink` on the
first tower: the towers are stored under the references 0, 1 and 2. -/
noncomputable def twinSession : State :=
  LinkManager.startTempLink (TowerManager.createTowers State.init twinCalls) (some 0)

/-- The sample session with the link from `towerA` to `towerB` created at the
clock value 7000; the link is stored under the reference 0. -/
noncomputable def linkedAB : State :=
  (LinkManager.createLink session (some 0) (some 1) 7000).2

/-- The creation of a tower `A` at 5 GHz. -/
noncomputable def createA : Action :=
  .createTower 12.97 77.59 (.value "A") (.value (.fin 5)) .undefined 1000

/-- The creation of a tower `B` at 5 GHz. -/
noncomputable def createB : Action :=
  .createTower 12.98 77.59 (.value "B") (.value (.fin 5)) .undefined 2000

/-- The creation of the link between the first two towers created. -/
def linkFirstTwo : Action :=
  .createLink (some 0) (some 1) 7000

/-- The update `{frequency: 6}` of the tower created at the clock value 1000. -/
def retuneA : Action :=
  .updateTower (.tower 1000) (.frequencyOnly (.fin 6))

/-- The session in which `A` and `B` are created and linked. -/
noncomputable def linkedSession : State :=
  run (run (run State.init createA) createB) linkFirstTwo

/-- The session `linkedSession` after `A` is set to 6 GHz. -/
noncomputable def retunedSession : State :=
  run linkedSession retuneA

end Sample


/-! ## Further operations, objects and sample data -/

namespace TowerManager

open RFLinkPlanner

/-- The object `{frequency: ''}` (or `{frequency: null}`). -/
def Updates.blankFrequency : Updates :=
  { name := none, frequency := .null, height := .undefined, lat := none, lng := none }

end TowerManager

namespace RFLinkPlanner

/-- The operations named by the invariant on selections: `createTower`,
`updateTower`, `deleteTower`, `createLink`, `deleteLink`, the import of a
project and `clearAll`. -/
def Action.isSessionOperation : Action → Prop
  | .createTower .. => True
  | .updateTower .. => True
  | .deleteTower .. => True
  | .createLink .. => True
  | .deleteLink .. => True
  | .importProject .. => True
  | .clearAll => True
  | _ => False

/-- The selected tower, if any, is in the tower list, and the selected link, if
any, is in the link list. -/
def SelectionsListed (s : State) : Prop :=
  (∀ r, s.selectedTower = some r → r ∈ s.towers) ∧
    (∀ l, s.selectedLink = some l → l ∈ s.links)

end RFLinkPlanner

namespace Sample

open RFLinkPlanner

/-- The session after the two `createTower` calls of `sameMillisecond`: two towers
at the default 5 GHz with the same id, stored under the references 0 and 1. -/
noncomputable def twinTuned : State :=
  TowerManager.createTowers State.init sameMillisecond

/-- The two calls of `sameMillisecond`, then the creation of a third tower at the
clock value 2000. -/
noncomputable def twinLinkedCalls : List TowerManager.CreateTowerCall :=
  sameMillisecond ++
    [ { lat := 13.05, lng := 77.65, name := .undefined, frequency := .undefined,
        height := .undefined, now := 2000 } ]

/-- The session after the three calls of `twinLinkedCalls` and the creation of
the link from the second tower to the third: the towers are stored under the
references 0, 1 and 2, the first two with the same id, and the link under the
reference 0. -/
noncomputable def twinLinked : State :=
  (LinkManager.createLink (TowerManager.createTowers State.init twinLinkedCalls)
    (some 1) (some 2) 7000).2

/-- The updates `{name: 'A', frequency: 5, height: 30, lat: 12.98, lng: 77.59}`:
a frequency is given and the tower is moved to the position of `towerB`. -/
noncomputable def moveAndSave : TowerManager.Updates :=
  { name := some "A", frequency := .value (.fin 5), height := .value (.fin 30),
    lat := some 12.98, lng := some 77.59 }

/-- The update the tower form sends for tower `A`: its name, its frequency of
5 GHz unchanged, and its height. -/
def saveA : Action :=
  .updateTower (.tower 1000)
    { name := some "A", frequency := .value (.fin 5), height := .value (.fin 30),
      lat := none, lng := none }

/-- The session `linkedSession` after tower `A` is saved with the same
frequency. -/
noncomputable def savedSession : State :=
  run linkedSession saveA

/-- The import of a project blob with the two towers of `blobTowers` and no
link. -/
noncomputable def importTowersOnly : Action :=
  .importProject (blobTowers.zip [5000, 5001]) []

/-- The import of a project blob with no tower and no link. -/
def importEmpty : Action :=
  .importProject [] []

end Sample

namespace RFLinkPlanner

/-- The operations `createTower`, `deleteTower`, `createLink` and `deleteLink`,
and every `updateTower` that, on the tower it finds, leaves the frequency as it
is or finds a tower that no listed link has as one of its two towers. -/
def Action.keepsLinkedFrequency (s : State) : Action → Prop
  | .createTower .. => True
  | .updateTower towerId updates =>
    ∀ r, s.towers.find? (fun t => (s.towerObj t).id = towerId) = some r →
      (TowerManager.assign (s.towerObj r) updates).frequency = (s.towerObj r).frequency ∨
        ∀ l ∈ s.links, (s.linkObj l).fromTower ≠ r ∧ (s.linkObj l).toTower ≠ r
  | .deleteTower .. => True
  | .createLink .. => True
  | .deleteLink .. => True
  | _ => False

/-- The states reached from a fresh planner by operations that `allowed` admits
in the state they are called in. -/
inductive ReachableWhen (allowed : State → Action → Prop) : State → Prop where
  | init : ReachableWhen allowed State.init
  | step (s : State) (a : Action) : ReachableWhen allowed s → allowed s a →
      a.wellFormed s → ReachableWhen allowed (run s a)

/-- The operations of `isSessionOperation` other than the import of a project. -/
def Action.isLocalOperation : Action → Prop
  | .createTower .. => True
  | .updateTower .. => True
  | .deleteTower .. => True
  | .createLink .. => True
  | .deleteLink .. => True
  | .clearAll => True
  | _ => False

end RFLinkPlanner

/-! ## The Fresnel engine with the overflow of doubles

The definitions of `FresnelCalculator` above compute over the real numbers. The
ones below follow the same source lines with the two effects of double arithmetic
that change an outcome: a result whose magnitude exceeds `Number.MAX_VALUE` is an
infinity, and the arithmetic of `NaN` and the infinities is that of IEEE 754.
Finite results are kept exact (rounding is not modelled), the sign of a zero is
not distinguished, and the distance of `calculateDistance` is taken from the
real-valued definition. -/

namespace FresnelCalculator.Double

open RFLinkPlanner (Tower JSNumber)

/-- A number in a computation: `NaN`, an infinity with its sign, or a finite
value. -/
inductive Num where
  | nan
  | inf (negative : Bool)
  | fin (x : ℝ)

/-- The constant `Number.MAX_VALUE`. -/
def MAX_VALUE : ℝ := 1.7976931348623157e308

/-- The number an operation returns when its exact result is the real `x`. -/
noncomputable def ofReal (x : ℝ) : Num :=
  if MAX_VALUE < x then .inf false
  else if x < -MAX_VALUE then .inf true
  else .fin x

/-- The number held in a `frequency` field, in a computation. -/
def ofJSNumber : JSNumber → Num
  | .nan => .nan
  | .posInf => .inf false
  | .negInf => .inf true
  | .fin x => .fin (x : ℝ)

/-- The product `a * b`; an infinity times 0 is `NaN`. -/
noncomputable def mul : Num → Num → Num
  | .fin x, .fin y => ofReal (x * y)
  | .inf a, .inf b => .inf (a != b)
  | .inf a, .fin y => if y = 0 then .nan else .inf (a != decide (y < 0))
  | .fin x, .inf b => if x = 0 then .nan else .inf (decide (x < 0) != b)
  | _, _ => .nan

/-- The quotient `a / b`; 0 / 0 and an infinity over an infinity are `NaN`. -/
noncomputable def div : Num → Num → Num
  | .fin x, .fin y =>
    if y = 0 then (if x = 0 then .nan else .inf (decide (x < 0)))
    else ofReal (x / y)
  | .fin _, .inf _ => .fin 0
  | .inf a, .fin y => .inf (a != decide (y < 0))
  | _, _ => .nan

/-- The sum `a + b`; the sum of two opposite infinities is `NaN`. -/
noncomputable def add : Num → Num → Num
  | .fin x, .fin y => ofReal (x + y)
  | .inf a, .fin _ => .inf a
  | .fin _, .inf b => .inf b
  | .inf a, .inf b => if a = b then .inf a else .nan
  | _, _ => .nan

/-- The function `Math.sqrt`. -/
noncomputable def sqrt : Num → Num
  | .fin x => if x < 0 then .nan else .fin (Real.sqrt x)
  | .inf false => .inf false
  | _ => .nan

/-- The test `x === 0`. -/
def isZero : Num → Prop
  | .fin x => x = 0
  | _ => False

/-- The test `x <= 0`. -/
def leZero : Num → Prop
  | .fin x => x ≤ 0
  | .inf negative => negative = true
  | .nan => False

/-- The method `calculateFresnelRadius`. -/
noncomputable def calculateFresnelRadius (wavelength d1 d2 : Num) : Num :=
  open Classical in
  if isZero (add d1 d2) then .fin 0
  else sqrt (div (mul (mul wavelength d1) d2) (add d1 d2))

/-- One sample of the profile. -/
structure Point where
  lat : ℝ
  lng : ℝ
  radius : Num
  distanceFromStart : Num

/-- The method `calculateFresnelPoints`; the fraction `f = i / 24` is exact. -/
noncomputable def calculateFresnelPoints (fromTower toTower : Tower)
    (wavelength totalDistance : Num) : List Point :=
  let steps : ℕ := 24
  (List.range (steps + 1)).map fun (i : ℕ) =>
    let f : ℝ := (i : ℝ) / (steps : ℝ)
    let d1 := mul totalDistance (.fin f)
    let d2 := mul totalDistance (.fin (1 - f))
    let r := calculateFresnelRadius wavelength d1 d2
    let lat := fromTower.lat + (toTower.lat - fromTower.lat) * f
    let lng := fromTower.lng + (toTower.lng - fromTower.lng) * f
    { lat := lat, lng := lng, radius := r, distanceFromStart := d1 }

/-- The object returned by `analyzeLink`. -/
structure Analysis where
  frequency : JSNumber
  wavelength : Num
  distance : Num
  distanceKm : Num
  maxRadius : Num
  midpoint : ℝ × ℝ
  points : List Point

/-- The method `analyzeLink`. -/
noncomputable def analyzeLink (link : Option LinkArg) : Except AnalysisError Analysis :=
  open Classical in
  match link with
  | none => .error .invalidLink
  | some l =>
    match l.fromTower, l.toTower with
    | some fromTower, some toTower =>
      let frequencyGHz := l.frequency.orElse fromTower.frequency
      if frequencyGHz.isNaN || frequencyGHz.leZero then .error .invalidFrequency
      else
        let frequencyHz := mul (ofJSNumber frequencyGHz) (.fin 1e9)
        let wavelength := div (.fin SPEED_OF_LIGHT) frequencyHz
        let totalDistanceMeters :=
          mul (.fin (FresnelCalculator.calculateDistance fromTower toTower)) (.fin 1000)
        let midpoint : ℝ × ℝ :=
          ((fromTower.lat + toTower.lat) / 2, (fromTower.lng + toTower.lng) / 2)
        let D := totalDistanceMeters
        let maxRadius : Num :=
          if leZero D then .fin 0 else mul (.fin 0.5) (sqrt (mul wavelength D))
        let points := calculateFresnelPoints fromTower toTower wavelength totalDistanceMeters
        .ok { frequency := frequencyGHz, wavelength := wavelength,
              distance := totalDistanceMeters,
              distanceKm := div totalDistanceMeters (.fin 1000),
              maxRadius := maxRadius, midpoint := midpoint, points := points }
    | _, _ => .error .invalidLink

end FresnelCalculator.Double

namespace Sample

open RFLinkPlanner

/-- A link object from `towerA` to `towerB` whose frequency is `1e-320` GHz. -/
noncomputable def linkTiny : FresnelCalculator.LinkArg :=
  { fromTower := some towerA, toTower := some towerB, frequency := .fin (1 / 10 ^ 320) }

end Sample
/-! ## Geodesy: properties -/

namespace RFLinkPlanner

/-- The value of `Math.atan2(0, 1)`. -/
theorem atan2_zero_one : atan2 0 1 = 0 := by
  have h : (⟨1, 0⟩ : ℂ) = 1 := by
    apply Complex.ext <;> simp
  simp [atan2, h]

/-- The haversine term is unchanged when the sign of the angle is flipped. -/
theorem sin_half_neg_sq (x : ℝ) :
    Real.sin (-x * (Real.pi / 180) / 2) * Real.sin (-x * (Real.pi / 180) / 2) =
      Real.sin (x * (Real.pi / 180) / 2) * Real.sin (x * (Real.pi / 180) / 2) := by
  have h : -x * (Real.pi / 180) / 2 = -(x * (Real.pi / 180) / 2) := by ring
  rw [h, Real.sin_neg]
  ring

end RFLinkPlanner

namespace RFLinkPlanner

/-- The distance of `app.js` between two towers at the same coordinates is 0. -/
theorem calculateDistance_of_eq (t1 t2 : Tower) (hlat : t1.lat = t2.lat)
    (hlng : t1.lng = t2.lng) : calculateDistance t1 t2 = 0 := by
  simp [calculateDistance, deg2rad, hlat, hlng, atan2_zero_one]

end RFLinkPlanner

namespace FresnelCalculator

/-- The distance of `fresnel.js` between two towers at the same coordinates is 0. -/
theorem fresnelDistance_of_eq (t1 t2 : RFLinkPlanner.Tower) (hlat : t1.lat = t2.lat)
    (hlng : t1.lng = t2.lng) : calculateDistance t1 t2 = 0 := by
  simp [calculateDistance, deg2rad, hlat, hlng, RFLinkPlanner.atan2_zero_one]

end FresnelCalculator

/-- Claim C15: the haversine distance of `app.js` and of `fresnel.js` between two
towers with the same latitude and the same longitude is exactly zero. -/
theorem calculateDistance_coincident (t1 t2 : RFLinkPlanner.Tower)
    (hlat : t1.lat = t2.lat) (hlng : t1.lng = t2.lng) :
    RFLinkPlanner.calculateDistance t1 t2 = 0 ∧
      FresnelCalculator.calculateDistance t1 t2 = 0 :=
  ⟨RFLinkPlanner.calculateDistance_of_eq t1 t2 hlat hlng,
    FresnelCalculator.fresnelDistance_of_eq t1 t2 hlat hlng⟩

/-- Claim C16: the haversine distance of `app.js` and of `fresnel.js` does not
depend on the order of its two arguments. -/
theorem calculateDistance_symm (a b : RFLinkPlanner.Tower) :
    RFLinkPlanner.calculateDistance a b = RFLinkPlanner.calculateDistance b a ∧
      FresnelCalculator.calculateDistance a b = FresnelCalculator.calculateDistance b a := by
  have e1 : b.lat - a.lat = -(a.lat - b.lat) := by ring
  have e2 : b.lng - a.lng = -(a.lng - b.lng) := by ring
  constructor
  · simp only [RFLinkPlanner.calculateDistance, RFLinkPlanner.deg2rad]
    rw [e1, e2, mul_assoc _ (Real.sin _) (Real.sin _), mul_assoc _ (Real.sin _) (Real.sin _),
      RFLinkPlanner.sin_half_neg_sq, RFLinkPlanner.sin_half_neg_sq,
      mul_comm (Real.cos (a.lat * _)) (Real.cos (b.lat * _))]
  · simp only [FresnelCalculator.calculateDistance, FresnelCalculator.deg2rad]
    rw [e1, e2, mul_assoc _ (Real.sin _) (Real.sin _), mul_assoc _ (Real.sin _) (Real.sin _),
      RFLinkPlanner.sin_half_neg_sq, RFLinkPlanner.sin_half_neg_sq,
      mul_comm (Real.cos (a.lat * _)) (Real.cos (b.lat * _))]

/-! ## The Fresnel engine: properties -/

namespace FresnelCalculator

open RFLinkPlanner (Tower JSNumber)

/-- The shape of every successful `analyzeLink`. -/
theorem analyzeLink_ok_inv {link : Option LinkArg} {res : Analysis}
    (h : analyzeLink link = .ok res) :
    ∃ l f t, link = some l ∧ l.fromTower = some f ∧ l.toTower = some t ∧
      (l.frequency.orElse f.frequency).isNaN = false ∧
      (l.frequency.orElse f.frequency).leZero = false ∧
      res.frequency = l.frequency.orElse f.frequency ∧
      res.wavelength = wavelengthOf (l.frequency.orElse f.frequency) ∧
      res.distance = calculateDistance f t * 1000 ∧
      res.maxRadius = (if res.distance ≤ 0 then 0
        else 0.5 * Real.sqrt (res.wavelength * res.distance)) ∧
      res.points = calculateFresnelPoints f t res.wavelength res.distance := by
  cases link with
  | none => simp [analyzeLink] at h
  | some l =>
    rcases l with ⟨fo, tt, fr⟩
    cases fo with
    | none => simp [analyzeLink] at h
    | some f =>
      cases tt with
      | none => simp [analyzeLink] at h
      | some t =>
        simp only [analyzeLink] at h
        split at h
        · simp at h
        · rename_i hg
          simp only [Bool.or_eq_true, not_or, Bool.not_eq_true] at hg
          injection h with h
          subst h
          exact ⟨_, f, t, rfl, rfl, rfl, hg.1, hg.2, rfl, rfl, rfl, rfl, rfl⟩

/-- The wavelength computed for a frequency is never negative. -/
theorem wavelengthOf_nonneg (fr : JSNumber) (h : fr.leZero = false) :
    0 ≤ wavelengthOf fr := by
  cases fr with
  | fin x =>
    simp only [JSNumber.leZero, decide_eq_false_iff_not, not_le] at h
    have hx : (0 : ℝ) < (x : ℝ) := by exact_mod_cast h
    simp only [wavelengthOf, SPEED_OF_LIGHT]
    positivity
  | nan => simp [wavelengthOf]
  | negInf => simp [wavelengthOf]
  | posInf => simp [wavelengthOf]

/-- The sample of index `i` of the profile. -/
theorem calculateFresnelPoints_getElem? (f t : Tower) (w D : ℝ) (i : ℕ) (hi : i ≤ 24) :
    ∃ p, (calculateFresnelPoints f t w D)[i]? = some p ∧
      p.radius = calculateFresnelRadius w (D * ((i : ℝ) / 24)) (D * (1 - (i : ℝ) / 24)) ∧
      p.distanceFromStart = D * ((i : ℝ) / 24) ∧
      p.lat = f.lat + (t.lat - f.lat) * ((i : ℝ) / 24) ∧
      p.lng = f.lng + (t.lng - f.lng) * ((i : ℝ) / 24) := by
  have hlt : i < 25 := by omega
  refine ⟨{ lat := f.lat + (t.lat - f.lat) * ((i : ℝ) / 24),
             lng := f.lng + (t.lng - f.lng) * ((i : ℝ) / 24),
             radius := calculateFresnelRadius w (D * ((i : ℝ) / 24)) (D * (1 - (i : ℝ) / 24)),
             distanceFromStart := D * ((i : ℝ) / 24) }, ?_, rfl, rfl, rfl, rfl⟩
  unfold calculateFresnelPoints
  rw [List.getElem?_map, List.getElem?_range hlt]
  simp only [Option.map_some', Nat.cast_ofNat]

/-- The radius at the middle of a path of positive length. -/
theorem calculateFresnelRadius_half (w D : ℝ) (hD : 0 < D) :
    calculateFresnelRadius w (D / 2) (D / 2) = 0.5 * Real.sqrt (w * D) := by
  have hne : D / 2 + D / 2 ≠ 0 := by
    have : D / 2 + D / 2 = D := by ring
    rw [this]; exact ne_of_gt hD
  have harg : w * (D / 2) * (D / 2) / (D / 2 + D / 2) = (0.5 : ℝ) ^ 2 * (w * D) := by
    have hD0 : D ≠ 0 := ne_of_gt hD
    field_simp
    ring
  rw [calculateFresnelRadius, if_neg hne, harg,
    Real.sqrt_mul (by positivity), Real.sqrt_sq (by norm_num)]

/-- The radius along a path of positive length, in closed form. -/
theorem calculateFresnelRadius_fraction (w D f : ℝ) (hD : 0 < D) :
    calculateFresnelRadius w (D * f) (D * (1 - f)) = Real.sqrt (w * D * (f * (1 - f))) := by
  have hsum : D * f + D * (1 - f) = D := by ring
  have hD0 : D ≠ 0 := ne_of_gt hD
  have harg : w * (D * f) * (D * (1 - f)) / (D * f + D * (1 - f)) = w * D * (f * (1 - f)) := by
    rw [hsum]
    field_simp
    ring
  rw [calculateFresnelRadius, if_neg (by rw [hsum]; exact hD0), harg]

end FresnelCalculator

namespace FresnelCalculator

open RFLinkPlanner (Tower JSNumber)

/-- The radius of a sample never exceeds the radius of the middle sample. -/
theorem calculateFresnelRadius_le_half (w D f : ℝ) (hD : 0 < D) (hw : 0 ≤ w) :
    calculateFresnelRadius w (D * f) (D * (1 - f)) ≤
      calculateFresnelRadius w (D * (1 / 2)) (D * (1 - 1 / 2)) := by
  rw [calculateFresnelRadius_fraction w D f hD, calculateFresnelRadius_fraction w D (1 / 2) hD]
  apply Real.sqrt_le_sqrt
  have hwD : 0 ≤ w * D := mul_nonneg hw hD.le
  have hf : f * (1 - f) ≤ 1 / 2 * (1 - 1 / 2) := by nlinarith [sq_nonneg (f - 1 / 2)]
  exact mul_le_mul_of_nonneg_left hf hwD

end FresnelCalculator

/-- Claim C17: for a wavelength `w > 0` and a total distance `D > 0`,
`calculateFresnelRadius(w, D/2, D/2)` is `0.5 * sqrt(w * D)`, and it is the
`maxRadius` of every analysis `analyzeLink` returns with that wavelength and that
distance. -/
theorem fresnelRadius_midpoint_eq_maxRadius (w D : ℝ) (hw : 0 < w) (hD : 0 < D) :
    FresnelCalculator.calculateFresnelRadius w (D / 2) (D / 2) = 0.5 * Real.sqrt (w * D) ∧
      ∀ link res, FresnelCalculator.analyzeLink link = .ok res →
        res.wavelength = w → res.distance = D →
        res.maxRadius = FresnelCalculator.calculateFresnelRadius w (D / 2) (D / 2) := by
  have _ := hw
  refine ⟨FresnelCalculator.calculateFresnelRadius_half w D hD, ?_⟩
  intro link res h hwl hdist
  obtain ⟨l, f, t, -, -, -, -, -, -, -, -, hmax, -⟩ := FresnelCalculator.analyzeLink_ok_inv h
  rw [hmax, hwl, hdist, if_neg (not_le.mpr hD),
    FresnelCalculator.calculateFresnelRadius_half w D hD]

/-- Over the real numbers, in the profile of every successful `analyzeLink` the
sample of index 0 and the sample of index 24 exist and have radius 0. -/
theorem analyzeLink_real_profile_endpoints (link : Option FresnelCalculator.LinkArg)
    (res : FresnelCalculator.Analysis) (h : FresnelCalculator.analyzeLink link = .ok res) :
    res.points.length = 25 ∧
      ∃ p0 p24, res.points[0]? = some p0 ∧ res.points[24]? = some p24 ∧
        p0.radius = 0 ∧ p24.radius = 0 := by
  obtain ⟨l, f, t, -, -, -, -, -, -, -, -, -, hpts⟩ := FresnelCalculator.analyzeLink_ok_inv h
  obtain ⟨p0, h0, r0, -⟩ :=
    FresnelCalculator.calculateFresnelPoints_getElem? f t res.wavelength res.distance 0
      (by norm_num)
  obtain ⟨p24, h24, r24, -⟩ :=
    FresnelCalculator.calculateFresnelPoints_getElem? f t res.wavelength res.distance 24
      (by norm_num)
  refine ⟨?_, p0, p24, hpts ▸ h0, hpts ▸ h24, ?_, ?_⟩
  · rw [hpts]; simp [FresnelCalculator.calculateFresnelPoints]
  · rw [r0]; simp [FresnelCalculator.calculateFresnelRadius]
  · rw [r24]; simp [FresnelCalculator.calculateFresnelRadius]

/-- Claim C19: in the profile of every successful `analyzeLink` over a positive
distance, no sample has a larger radius than the sample of index 12, whose radius
is the reported `maxRadius`. -/
theorem analyzeLink_profile_max_at_midpoint (link : Option FresnelCalculator.LinkArg)
    (res : FresnelCalculator.Analysis) (h : FresnelCalculator.analyzeLink link = .ok res)
    (hD : 0 < res.distance) (i : ℕ) (hi : i ≤ 24) :
    ∃ p12 pi, res.points[12]? = some p12 ∧ res.points[i]? = some pi ∧
      pi.radius ≤ p12.radius ∧ p12.radius = res.maxRadius := by
  obtain ⟨l, f, t, -, -, -, -, hle, -, hwl, -, hmax, hpts⟩ :=
    FresnelCalculator.analyzeLink_ok_inv h
  have hw : 0 ≤ res.wavelength := hwl ▸ FresnelCalculator.wavelengthOf_nonneg _ hle
  obtain ⟨p12, h12, r12, -⟩ :=
    FresnelCalculator.calculateFresnelPoints_getElem? f t res.wavelength res.distance 12
      (by norm_num)
  obtain ⟨pi, hpi, ri, -⟩ :=
    FresnelCalculator.calculateFresnelPoints_getElem? f t res.wavelength res.distance i hi
  have e12 : ((12 : ℕ) : ℝ) / 24 = 1 / 2 := by norm_num
  rw [e12] at r12
  refine ⟨p12, pi, hpts ▸ h12, hpts ▸ hpi, ?_, ?_⟩
  · rw [ri, r12]
    exact FresnelCalculator.calculateFresnelRadius_le_half _ _ _ hD hw
  · rw [r12, hmax, if_neg (not_le.mpr hD),
      ← FresnelCalculator.calculateFresnelRadius_half res.wavelength res.distance hD]
    congr 1 <;> ring

namespace FresnelCalculator

open RFLinkPlanner (Tower JSNumber atan2)

/-- Two towers on one meridian, the second north of the first, are at a positive
distance. -/
theorem calculateDistance_pos_of_north (t1 t2 : Tower) (hlng : t1.lng = t2.lng)
    (h1 : t1.lat < t2.lat) (h2 : t2.lat - t1.lat < 360) :
    0 < calculateDistance t1 t2 := by
  have hx0 : 0 < (t2.lat - t1.lat) * (Real.pi / 180) / 2 := by
    have := Real.pi_pos
    have : 0 < t2.lat - t1.lat := sub_pos.mpr h1
    positivity
  have hx1 : (t2.lat - t1.lat) * (Real.pi / 180) / 2 < Real.pi := by
    have := Real.pi_pos
    nlinarith
  have hsin := Real.sin_pos_of_pos_of_lt_pi hx0 hx1
  have ha : 0 < Real.sqrt (Real.sin ((t2.lat - t1.lat) * (Real.pi / 180) / 2) *
      Real.sin ((t2.lat - t1.lat) * (Real.pi / 180) / 2)) :=
    Real.sqrt_pos.mpr (mul_pos hsin hsin)
  simp only [calculateDistance, deg2rad, hlng, sub_self, zero_mul, zero_div, Real.sin_zero,
    mul_zero, add_zero]
  have harg : 0 < atan2
      (Real.sqrt (Real.sin ((t2.lat - t1.lat) * (Real.pi / 180) / 2) *
        Real.sin ((t2.lat - t1.lat) * (Real.pi / 180) / 2)))
      (Real.sqrt (1 - Real.sin ((t2.lat - t1.lat) * (Real.pi / 180) / 2) *
        Real.sin ((t2.lat - t1.lat) * (Real.pi / 180) / 2))) := by
    unfold atan2
    apply lt_of_le_of_ne
    · exact Complex.arg_nonneg_iff.mpr ha.le
    · intro h0
      have := (Complex.arg_eq_zero_iff.mp h0.symm).2
      simp only at this
      exact absurd this (ne_of_gt ha)
  positivity

/-- A link with both towers and a resolved frequency that is neither `NaN` nor
`<= 0` is analysed. -/
theorem analyzeLink_isOk (l : LinkArg) (f t : Tower) (hf : l.fromTower = some f)
    (ht : l.toTower = some t) (hnan : (l.frequency.orElse f.frequency).isNaN = false)
    (hle : (l.frequency.orElse f.frequency).leZero = false) :
    ∃ res, analyzeLink (some l) = .ok res ∧
      res.distance = calculateDistance f t * 1000 := by
  rcases l with ⟨fo, tt, fr⟩
  simp only at hf ht hnan hle
  subst hf ht
  simp [analyzeLink, hnan, hle]

end FresnelCalculator

/-- Claim C20, as amended: `analyzeLink` throws when the link is missing, when one
of its two towers is missing, and, both towers present, exactly when the resolved
frequency (the frequency of the link, or of the from tower when that one is `NaN`
or `0`) is `NaN` or `<= 0`; in every other case, `Infinity` included, it returns
an analysis. -/
theorem analyzeLink_throws_iff :
    FresnelCalculator.analyzeLink none = .error .invalidLink ∧
    (∀ l : FresnelCalculator.LinkArg, l.fromTower = none ∨ l.toTower = none →
      FresnelCalculator.analyzeLink (some l) = .error .invalidLink) ∧
    (∀ (l : FresnelCalculator.LinkArg) (f t : RFLinkPlanner.Tower),
      l.fromTower = some f → l.toTower = some t →
      (((l.frequency.orElse f.frequency).isNaN = true ∨
          (l.frequency.orElse f.frequency).leZero = true) →
        FresnelCalculator.analyzeLink (some l) = .error .invalidFrequency) ∧
      (¬ ((l.frequency.orElse f.frequency).isNaN = true ∨
          (l.frequency.orElse f.frequency).leZero = true) →
        ∃ res, FresnelCalculator.analyzeLink (some l) = .ok res)) := by
  refine ⟨rfl, ?_, ?_⟩
  · rintro ⟨fo, tt, fr⟩ h
    simp only at h
    rcases h with h | h
    · subst h; rfl
    · subst h
      cases fo <;> rfl
  · rintro ⟨fo, tt, fr⟩ f t hf ht
    simp only at hf ht
    subst hf ht
    constructor
    · intro h
      simp only [FresnelCalculator.analyzeLink]
      rw [if_pos (by simpa using h)]
    · intro h
      simp only [not_or, Bool.not_eq_true] at h
      obtain ⟨res, hres, -⟩ :=
        FresnelCalculator.analyzeLink_isOk ⟨some f, some t, fr⟩ f t rfl rfl h.1 h.2
      exact ⟨res, hres⟩

/-- Claim C20 refuted as stated: the resolved frequency of `Sample.linkInfinity`
is `Infinity`, which is not a finite positive number, and `analyzeLink` returns an
analysis instead of throwing. -/
theorem analyzeLink_infinity_counterexample :
    (Sample.linkInfinity.frequency.orElse Sample.towerA.frequency).isFinitePositive = false ∧
      Sample.linkInfinity.fromTower = some Sample.towerA ∧
      ∃ res, FresnelCalculator.analyzeLink (some Sample.linkInfinity) = .ok res := by
  refine ⟨rfl, rfl, ?_⟩
  obtain ⟨res, hres, -⟩ :=
    FresnelCalculator.analyzeLink_isOk Sample.linkInfinity Sample.towerA Sample.towerB
      rfl rfl rfl rfl
  exact ⟨res, hres⟩

/-! ## The pending link: properties -/

namespace LinkManager

open RFLinkPlanner

/-- A failed validation makes `createLink` throw the reason and change nothing. -/
theorem createLink_invalid (s : State) (f t : Option Ref) (now : Nat) (reason : Reason)
    (h : TowerManager.validateTowerConnection s f t = .invalid reason) :
    createLink s f t now = (.error (.validation reason), s) := by
  simp only [createLink, h]

end LinkManager

/-- Claim C11, as amended: with a pending link from tower `A`, for a tower `B` of
defined frequency and another id for which the validation of `createLink(A, B)`
fails, `completeTempLink(B)` throws the validation error and changes nothing: no
link is added and the pending link still holds `A`. -/
theorem completeTempLink_validation_failure (s : RFLinkPlanner.State) (A B : RFLinkPlanner.Ref)
    (now : Nat) (reason : RFLinkPlanner.Reason)
    (hpending : s.tempLink = some A)
    (hfreq : (s.towerObj B).frequency.isNaN = false)
    (hid : (s.towerObj A).id ≠ (s.towerObj B).id)
    (hinvalid : TowerManager.validateTowerConnection s (some A) (some B) = .invalid reason) :
    LinkManager.completeTempLink s (some B) now = (.error (.validation reason), s) ∧
      (LinkManager.completeTempLink s (some B) now).2.links = s.links ∧
      (LinkManager.completeTempLink s (some B) now).2.tempLink = some A := by
  have h : LinkManager.completeTempLink s (some B) now = (.error (.validation reason), s) := by
    simp only [LinkManager.completeTempLink, hpending, hfreq, if_neg hid,
      LinkManager.createLink_invalid s _ _ now reason hinvalid]
    simp
  rw [h]
  exact ⟨rfl, rfl, hpending⟩

/-- Witness of claim C11: tower `A` at 5 GHz is pending and tower `C` is at 6 GHz. -/
theorem completeTempLink_validation_failure_witness :
    LinkManager.completeTempLink Sample.pendingA (some 2) 7000 =
        (.error (.validation (.frequencyMismatch (.fin 5) (.fin 6))), Sample.pendingA) ∧
      (LinkManager.completeTempLink Sample.pendingA (some 2) 7000).2.links =
        Sample.pendingA.links ∧
      (LinkManager.completeTempLink Sample.pendingA (some 2) 7000).2.tempLink = some 0 :=
  completeTempLink_validation_failure Sample.pendingA 0 2 7000
    (.frequencyMismatch (.fin 5) (.fin 6)) rfl rfl (by decide) (by rfl)

/-- Claim C11 refuted as stated: tower `A` is pending, `completeTempLink(C)` throws
the frequency mismatch, and afterwards the pending link is not empty. -/
theorem completeTempLink_keeps_pending_counterexample :
    Sample.pendingA.tempLink = some 0 ∧
      (LinkManager.completeTempLink Sample.pendingA (some 2) 7000).1 =
        .error (.validation (.frequencyMismatch (.fin 5) (.fin 6))) ∧
      (LinkManager.completeTempLink Sample.pendingA (some 2) 7000).2.tempLink ≠ none := by
  have h : LinkManager.completeTempLink Sample.pendingA (some 2) 7000 =
      (.error (.validation (.frequencyMismatch (.fin 5) (.fin 6))), Sample.pendingA) := by
    rfl
  rw [h]
  exact ⟨rfl, rfl, by simp [Sample.pendingA]⟩

/-- Claim C12, as amended: `startTempLink(from)` sets the pending link exactly when
`from` is a tower whose frequency is defined (not `NaN`), whatever its sign: the
pending link then holds `from` and the rest of the state is unchanged. For `null`
nothing changes. For a tower of undefined frequency the pending link is left as it
was and the call is `selectTower(from)`: the selected tower afterwards has the id
of `from`, and is `from` itself unless the tower selected before had that id. -/
theorem startTempLink_cases (s : RFLinkPlanner.State) :
    LinkManager.startTempLink s none = s ∧
    (∀ f : RFLinkPlanner.Ref, (s.towerObj f).frequency.isNaN = false →
      LinkManager.startTempLink s (some f) = s.withTempLink f) ∧
    (∀ f : RFLinkPlanner.Ref, (s.towerObj f).frequency.isNaN = true →
      LinkManager.startTempLink s (some f) = TowerManager.selectTower s (some f) ∧
      (LinkManager.startTempLink s (some f)).tempLink = s.tempLink ∧
      ∃ r, (LinkManager.startTempLink s (some f)).selectedTower = some r ∧
        (s.towerObj r).id = (s.towerObj f).id ∧ (r = f ∨ s.selectedTower = some r)) := by
  refine ⟨rfl, ?_, ?_⟩
  · intro f hf
    simp [LinkManager.startTempLink, hf, RFLinkPlanner.State.withTempLink]
  · intro f hf
    have h : LinkManager.startTempLink s (some f) = TowerManager.selectTower s (some f) := by
      simp [LinkManager.startTempLink, hf]
    rw [h]
    refine ⟨rfl, ?_, ?_⟩
    · simp only [TowerManager.selectTower, TowerManager.deselectTower]
      cases hsel : s.selectedTower with
      | none => rfl
      | some cur =>
        by_cases hid : (s.towerObj cur).id = (s.towerObj f).id
        · simp [hid]
        · simp [hid]
    · simp only [TowerManager.selectTower, TowerManager.deselectTower]
      cases hsel : s.selectedTower with
      | none => exact ⟨f, rfl, rfl, Or.inl rfl⟩
      | some cur =>
        by_cases hid : (s.towerObj cur).id = (s.towerObj f).id
        · exact ⟨cur, by simp [hid, hsel], hid, Or.inr rfl⟩
        · exact ⟨f, by simp [hid], rfl, Or.inl rfl⟩

/-- Witness of claim C12: in the sample session, `startTempLink` on tower `A`,
whose frequency is defined, sets the pending link. -/
theorem startTempLink_cases_witness :
    LinkManager.startTempLink Sample.session (some 0) = Sample.session.withTempLink 0 :=
  (startTempLink_cases Sample.session).2.1 0 rfl

/-- Claim C12 refuted as stated: the frequency of tower `D` is 0, not strictly
positive, and `startTempLink(D)` sets the pending link all the same. -/
theorem startTempLink_zero_frequency_counterexample :
    (Sample.session.towerObj 3).frequency = .fin 0 ∧
      (Sample.session.towerObj 3).frequency.isFinitePositive = false ∧
      Sample.session.tempLink = none ∧
      (LinkManager.startTempLink Sample.session (some 3)).tempLink = some 3 := by
  refine ⟨rfl, rfl, rfl, rfl⟩

/-! ## Import -/

/-- Claim C13, the code at the failing input: the sample blob holds two towers at
5 GHz, a link between them and a link naming an absent tower; imported at the
clock values 5000 and 5001, the towers are recreated under the ids of those
clock values, no link entry finds its towers, and the link list is empty. -/
theorem importProject_drops_every_link :
    TowerManager.towerIds (RFLinkPlanner.importProject RFLinkPlanner.State.init
        (Sample.blobTowers.zip [5000, 5001]) (Sample.blobLinks.zip [5002, 5003])) =
      [.tower 5000, .tower 5001] ∧
    (RFLinkPlanner.importProject RFLinkPlanner.State.init
        (Sample.blobTowers.zip [5000, 5001]) (Sample.blobLinks.zip [5002, 5003])).links = [] := by
  refine ⟨?_, ?_⟩ <;> rfl

/-! ## Tower identifiers -/

namespace TowerManager

open RFLinkPlanner

/-- The method `selectTower` leaves the tower list alone. -/
theorem selectTower_towers (s : State) (t : Option Ref) :
    (selectTower s t).towers = s.towers := by
  unfold selectTower deselectTower
  split
  · rfl
  · split
    · split <;> (try split) <;> rfl
    · rfl

/-- The method `selectTower` leaves the tower store alone. -/
theorem selectTower_towerObj (s : State) (t : Option Ref) :
    (selectTower s t).towerObj = s.towerObj := by
  unfold selectTower deselectTower
  split
  · rfl
  · split
    · split <;> (try split) <;> rfl
    · rfl

/-- The method `selectTower` leaves the next free reference alone. -/
theorem selectTower_nextTower (s : State) (t : Option Ref) :
    (selectTower s t).nextTower = s.nextTower := by
  unfold selectTower deselectTower
  split
  · rfl
  · split
    · split <;> (try split) <;> rfl
    · rfl

/-- The tower list after `createTower`. -/
theorem createTower_towers (s : State) (lat lng : ℝ) (name : Arg String)
    (frequency height : Arg JSNumber) (now : Nat) :
    (createTower s lat lng name frequency height now).2.towers = s.towers ++ [s.nextTower] := by
  simp [createTower, selectTower_towers]

/-- The next free reference after `createTower`. -/
theorem createTower_nextTower (s : State) (lat lng : ℝ) (name : Arg String)
    (frequency height : Arg JSNumber) (now : Nat) :
    (createTower s lat lng name frequency height now).2.nextTower = s.nextTower + 1 := by
  simp [createTower, selectTower_nextTower]

/-- The id of the object stored by `createTower`, and of the objects stored
before. -/
theorem createTower_id (s : State) (lat lng : ℝ) (name : Arg String)
    (frequency height : Arg JSNumber) (now : Nat) (r : Ref) :
    ((createTower s lat lng name frequency height now).2.towerObj r).id =
      if r = s.nextTower then .tower now else (s.towerObj r).id := by
  simp only [createTower, selectTower_towerObj, Function.update_apply]
  split <;> rfl

/-- The ids of the registry after a sequence of `createTower` calls on a state
whose listed towers were all allocated: the ids before, then one id per call,
built from the clock value of the call. -/
theorem towerIds_createTowers (calls : List CreateTowerCall) :
    ∀ s : State, (∀ r ∈ s.towers, r < s.nextTower) →
      towerIds (createTowers s calls) =
        towerIds s ++ calls.map (fun c => Ident.tower c.now) := by
  induction calls with
  | nil => intro s _; simp [createTowers]
  | cons c rest ih =>
    intro s hs
    have hstep : ∀ r ∈ (createTower s c.lat c.lng c.name c.frequency c.height c.now).2.towers,
        r < (createTower s c.lat c.lng c.name c.frequency c.height c.now).2.nextTower := by
      intro r hr
      rw [createTower_towers] at hr
      rw [createTower_nextTower]
      rcases List.mem_append.mp hr with h | h
      · exact Nat.lt_succ_of_lt (hs r h)
      · simp only [List.mem_singleton] at h
        rw [h]
        exact Nat.lt_succ_self _
    have hids : towerIds (createTower s c.lat c.lng c.name c.frequency c.height c.now).2 =
        towerIds s ++ [Ident.tower c.now] := by
      simp only [towerIds, createTower_towers, List.map_append, List.map_cons, List.map_nil,
        createTower_id, if_true]
      congr 1
      apply List.map_congr_left
      intro r hr
      rw [if_neg (ne_of_lt (hs r hr))]
    have := ih _ hstep
    simp only [createTowers, List.foldl_cons] at this ⊢
    rw [this, hids]
    simp

end TowerManager

/-- After a sequence of `createTower` calls on a fresh planner whose clock values
are pairwise distinct, the towers of the registry have pairwise distinct ids. -/
theorem createTowers_ids_nodup (calls : List TowerManager.CreateTowerCall)
    (hclock : (calls.map fun c => c.now).Nodup) :
    (TowerManager.towerIds (TowerManager.createTowers RFLinkPlanner.State.init calls)).Nodup := by
  rw [TowerManager.towerIds_createTowers calls RFLinkPlanner.State.init
    (by intro r hr; simp [RFLinkPlanner.State.init] at hr)]
  have hinj : Function.Injective RFLinkPlanner.Ident.tower := by
    intro a b h
    injection h
  have : (List.map (fun c : TowerManager.CreateTowerCall => RFLinkPlanner.Ident.tower c.now)
      calls) = List.map RFLinkPlanner.Ident.tower (calls.map fun c => c.now) := by
    simp [List.map_map, Function.comp]
  simp only [TowerManager.towerIds, RFLinkPlanner.State.init, List.map_nil, List.nil_append]
  rw [this]
  exact hclock.map hinj

/-- Claim C14, the code at the failing input: on a fresh planner, two
`createTower` calls that read the same clock value leave two towers with the same
id in the registry, and the first tower, not the newly created second one, is the
selected tower. -/
theorem createTowers_same_clock_duplicate_ids :
    (TowerManager.createTowers RFLinkPlanner.State.init Sample.sameMillisecond).towers =
        [0, 1] ∧
      TowerManager.towerIds
          (TowerManager.createTowers RFLinkPlanner.State.init Sample.sameMillisecond) =
        [.tower 1000, .tower 1000] ∧
      ¬ (TowerManager.towerIds
          (TowerManager.createTowers RFLinkPlanner.State.init Sample.sameMillisecond)).Nodup ∧
      (TowerManager.createTowers RFLinkPlanner.State.init
          Sample.sameMillisecond).selectedTower = some 0 := by
  have h : TowerManager.towerIds
      (TowerManager.createTowers RFLinkPlanner.State.init Sample.sameMillisecond) =
      [.tower 1000, .tower 1000] := rfl
  rw [h]
  exact ⟨rfl, rfl, by simp, rfl⟩

/-! ## Instances on the sample data -/

/-- Witness of claim C15: the distance from the sample tower `A` to itself. -/
theorem calculateDistance_coincident_witness :
    RFLinkPlanner.calculateDistance Sample.towerA Sample.towerA = 0 ∧
      FresnelCalculator.calculateDistance Sample.towerA Sample.towerA = 0 :=
  calculateDistance_coincident Sample.towerA Sample.towerA rfl rfl

/-- Witness of claim C17: a wavelength of 0.06 m over 1000 m. -/
theorem fresnelRadius_midpoint_eq_maxRadius_witness :
    FresnelCalculator.calculateFresnelRadius 0.06 (1000 / 2) (1000 / 2) =
        0.5 * Real.sqrt (0.06 * 1000) ∧
      ∀ link res, FresnelCalculator.analyzeLink link = .ok res →
        res.wavelength = 0.06 → res.distance = 1000 →
        res.maxRadius = FresnelCalculator.calculateFresnelRadius 0.06 (1000 / 2) (1000 / 2) :=
  fresnelRadius_midpoint_eq_maxRadius 0.06 1000 (by norm_num) (by norm_num)

/-- Witness of claim C19: the sample link from `A` to `B` spans a positive
distance, and its sample of index 5 is no larger than its sample of index 12. -/
theorem analyzeLink_profile_max_at_midpoint_witness :
    ∃ res, FresnelCalculator.analyzeLink (some Sample.linkAB) = .ok res ∧
      0 < res.distance ∧
      ∃ p12 pi, res.points[12]? = some p12 ∧ res.points[5]? = some pi ∧
        pi.radius ≤ p12.radius ∧ p12.radius = res.maxRadius := by
  obtain ⟨res, hres, hdist⟩ :=
    FresnelCalculator.analyzeLink_isOk Sample.linkAB Sample.towerA Sample.towerB
      rfl rfl rfl rfl
  have hpos : 0 < res.distance := by
    rw [hdist]
    have := FresnelCalculator.calculateDistance_pos_of_north Sample.towerA Sample.towerB rfl
      (by norm_num [Sample.towerA, Sample.towerB])
      (by norm_num [Sample.towerA, Sample.towerB])
    positivity
  exact ⟨res, hres, hpos,
    analyzeLink_profile_max_at_midpoint _ res hres hpos 5 (by norm_num)⟩

/-- Witness of claim C20: the sample link from `A` to `B` at 5 GHz is analysed. -/
theorem analyzeLink_throws_iff_witness :
    ∃ res, FresnelCalculator.analyzeLink (some Sample.linkAB) = .ok res :=
  (analyzeLink_throws_iff.2.2 Sample.linkAB Sample.towerA Sample.towerB rfl rfl).2
    (by decide)

/-! ## Validation and link creation -/

namespace LinkManager

open RFLinkPlanner

/-- The method `selectLink` changes the selected link only. -/
theorem selectLink_frame (s : State) (l : Option Ref) :
    (selectLink s l).towerObj = s.towerObj ∧ (selectLink s l).linkObj = s.linkObj ∧
      (selectLink s l).nextTower = s.nextTower ∧ (selectLink s l).nextLink = s.nextLink ∧
      (selectLink s l).towers = s.towers ∧ (selectLink s l).links = s.links ∧
      (selectLink s l).selectedTower = s.selectedTower ∧
      (selectLink s l).tempLink = s.tempLink := by
  unfold selectLink deselectLink
  split
  · simp
  · split
    · split <;> (try split) <;> simp
    · simp

/-- The lookup `findLink` reads the link list and the ids of the stored objects. -/
theorem findLink_congr (s s1 : State) (a b : Ref) (hl : s1.links = s.links)
    (ho : s1.linkObj = s.linkObj) (ht : s1.towerObj = s.towerObj) :
    findLink s1 a b = findLink s a b := by
  simp only [findLink, hl, ho, ht]

end LinkManager

namespace TowerManager

open RFLinkPlanner

/-- The method `selectTower` changes the selected tower only. -/
theorem selectTower_frame (s : State) (t : Option Ref) :
    (selectTower s t).towerObj = s.towerObj ∧ (selectTower s t).linkObj = s.linkObj ∧
      (selectTower s t).nextTower = s.nextTower ∧ (selectTower s t).nextLink = s.nextLink ∧
      (selectTower s t).towers = s.towers ∧ (selectTower s t).links = s.links ∧
      (selectTower s t).selectedLink = s.selectedLink ∧
      (selectTower s t).tempLink = s.tempLink := by
  unfold selectTower deselectTower
  split
  · simp
  · split
    · split <;> (try split) <;> simp
    · simp

/-- The validation reads the link list and the stored objects only. -/
theorem validateTowerConnection_congr (s s1 : State) (a b : Option Ref)
    (hl : s1.links = s.links) (ho : s1.linkObj = s.linkObj) (ht : s1.towerObj = s.towerObj) :
    validateTowerConnection s1 a b = validateTowerConnection s a b := by
  cases a <;> cases b <;>
    simp only [validateTowerConnection, ht, LinkManager.findLink_congr s s1 _ _ hl ho ht]

/-- What a successful validation of two tower objects has checked. -/
theorem validateTowerConnection_valid_inv (s : State) (a b : Ref)
    (h : validateTowerConnection s (some a) (some b) = .valid) :
    (s.towerObj a).id ≠ (s.towerObj b).id ∧
      (s.towerObj a).frequency.isNaN = false ∧ (s.towerObj b).frequency.isNaN = false ∧
      (s.towerObj a).frequency = (s.towerObj b).frequency ∧
      LinkManager.findLink s a b = none := by
  simp only [validateTowerConnection] at h
  split at h
  · simp at h
  · split at h
    · simp at h
    · split at h
      · simp at h
      · split at h
        · simp at h
        · split at h
          · simp at h
          · rename_i hid hna hnb heq hfind
            simp only [JSNumber.strictEq, Bool.not_eq_true, Bool.not_eq_false, Bool.and_eq_true,
              Bool.not_eq_eq_eq_not, Bool.not_true, decide_eq_true_eq, Bool.not_not] at heq
            simp only [Bool.not_eq_true] at hna hnb
            refine ⟨hid, hna, hnb, ?_, ?_⟩
            · simpa [JSNumber.strictEq, hna, hnb] using heq
            · simpa using hfind

/-- Only a pair of tower objects passes the validation. -/
theorem validateTowerConnection_valid_some (s : State) (a b : Option Ref)
    (h : validateTowerConnection s a b = .valid) : ∃ x y, a = some x ∧ b = some y := by
  cases a <;> cases b <;> simp [validateTowerConnection] at h ⊢

/-- The conditions under which the validation of two tower objects succeeds. -/
theorem validateTowerConnection_valid_of (s : State) (a b : Ref)
    (hid : (s.towerObj a).id ≠ (s.towerObj b).id)
    (hna : (s.towerObj a).frequency.isNaN = false)
    (heq : (s.towerObj a).frequency = (s.towerObj b).frequency)
    (hfind : LinkManager.findLink s a b = none) :
    validateTowerConnection s (some a) (some b) = .valid := by
  have hnb : (s.towerObj b).frequency.isNaN = false := heq ▸ hna
  simp [validateTowerConnection, hid, hna, hnb, hfind, JSNumber.strictEq, heq]

end TowerManager

namespace LinkManager

open RFLinkPlanner

/-- A successful validation makes `createLink` store, push and select the link. -/
theorem createLink_valid (s : State) (f t : Ref) (now : Nat)
    (h : TowerManager.validateTowerConnection s (some f) (some t) = .valid) :
    createLink s (some f) (some t) now =
      (.ok s.nextLink, selectLink (pushLink s f t now) (some s.nextLink)) := by
  simp only [createLink, h]

/-- Every successful `createLink` passed the validation. -/
theorem createLink_ok_inv (s s1 : State) (f t : Option Ref) (now : Nat) (r : Ref)
    (h : createLink s f t now = (.ok r, s1)) :
    ∃ a b, f = some a ∧ t = some b ∧
      TowerManager.validateTowerConnection s (some a) (some b) = .valid ∧
      r = s.nextLink ∧ s1 = selectLink (pushLink s a b now) (some s.nextLink) := by
  cases hv : TowerManager.validateTowerConnection s f t with
  | invalid reason =>
    rw [createLink_invalid s f t now reason hv] at h
    simp at h
  | valid =>
    obtain ⟨a, b, rfl, rfl⟩ := TowerManager.validateTowerConnection_valid_some s f t hv
    rw [createLink_valid s a b now hv] at h
    simp only [Prod.mk.injEq, Except.ok.injEq] at h
    exact ⟨a, b, rfl, rfl, hv, h.1.symm, h.2.symm⟩

/-- The lookup finds a link as soon as one link of the list joins the two ids. -/
theorem findLink_isSome_of_mem (s : State) (a b l : Ref) (hl : l ∈ s.links)
    (h : ((s.towerObj (s.linkObj l).fromTower).id = (s.towerObj a).id ∧
          (s.towerObj (s.linkObj l).toTower).id = (s.towerObj b).id) ∨
        ((s.towerObj (s.linkObj l).fromTower).id = (s.towerObj b).id ∧
          (s.towerObj (s.linkObj l).toTower).id = (s.towerObj a).id)) :
    (findLink s a b).isSome = true := by
  simp only [findLink, List.find?_isSome]
  exact ⟨l, hl, by simpa using h⟩

end LinkManager

/-- Claim C1: two tower objects with different ids whose frequencies are defined,
equal and positive, and between which `findLink` finds no link, pass
`validateTowerConnection`. -/
theorem validateTowerConnection_accepts (s : RFLinkPlanner.State) (t1 t2 : RFLinkPlanner.Ref)
    (hid : (s.towerObj t1).id ≠ (s.towerObj t2).id)
    (hdef1 : (s.towerObj t1).frequency.isNaN = false)
    (hdef2 : (s.towerObj t2).frequency.isNaN = false)
    (heq : (s.towerObj t1).frequency = (s.towerObj t2).frequency)
    (hpos : (s.towerObj t1).frequency.leZero = false)
    (hfind : LinkManager.findLink s t1 t2 = none) :
    TowerManager.validateTowerConnection s (some t1) (some t2) = .valid := by
  have _ := hdef2
  have _ := hpos
  exact TowerManager.validateTowerConnection_valid_of s t1 t2 hid hdef1 heq hfind

/-- Witness of claim C1: the sample towers `A` and `B`, both at 5 GHz. -/
theorem validateTowerConnection_accepts_witness :
    TowerManager.validateTowerConnection Sample.session (some 0) (some 1) = .valid :=
  validateTowerConnection_accepts Sample.session 0 1 (by decide) rfl rfl rfl rfl rfl

/-- Claim C2: once `createLink(t1, t2)` has succeeded, `createLink(t1, t2)` and
`createLink(t2, t1)` both throw the reason "Link already exists between these
towers" and leave the state, the link list included, as it was. -/
theorem createLink_twice_fails (s s1 : RFLinkPlanner.State) (t1 t2 : RFLinkPlanner.Ref)
    (now now2 : Nat) (r : RFLinkPlanner.Ref)
    (h : LinkManager.createLink s (some t1) (some t2) now = (.ok r, s1)) :
    LinkManager.createLink s1 (some t1) (some t2) now2 =
        (.error (.validation .alreadyExists), s1) ∧
      LinkManager.createLink s1 (some t2) (some t1) now2 =
        (.error (.validation .alreadyExists), s1) ∧
      s1.links = s.links ++ [r] := by
  obtain ⟨a, b, ha, hb, hv, hr, hs1⟩ := LinkManager.createLink_ok_inv s s1 _ _ now r h
  simp only [Option.some.injEq] at ha hb
  subst ha hb
  obtain ⟨hid, hna, hnb, heq, -⟩ := TowerManager.validateTowerConnection_valid_inv s t1 t2 hv
  obtain ⟨hto, hlo, -, -, -, hli, -, -⟩ :=
    LinkManager.selectLink_frame (LinkManager.pushLink s t1 t2 now) (some s.nextLink)
  have hto1 : s1.towerObj = s.towerObj := by rw [hs1, hto]; rfl
  have hlo1 : s1.linkObj =
      Function.update s.linkObj s.nextLink (LinkManager.newLink s t1 t2 now) := by
    rw [hs1, hlo]; rfl
  have hli1 : s1.links = s.links ++ [s.nextLink] := by rw [hs1, hli]; rfl
  have hmem : s.nextLink ∈ s1.links := by rw [hli1]; simp
  have hobj : s1.linkObj s.nextLink = LinkManager.newLink s t1 t2 now := by
    rw [hlo1]; simp
  have hfind1 : (LinkManager.findLink s1 t1 t2).isSome = true :=
    LinkManager.findLink_isSome_of_mem s1 t1 t2 s.nextLink hmem
      (Or.inl (by rw [hobj]; exact ⟨rfl, rfl⟩))
  have hfind2 : (LinkManager.findLink s1 t2 t1).isSome = true :=
    LinkManager.findLink_isSome_of_mem s1 t2 t1 s.nextLink hmem
      (Or.inr (by rw [hobj]; exact ⟨rfl, rfl⟩))
  have hv1 : TowerManager.validateTowerConnection s1 (some t1) (some t2) =
      .invalid .alreadyExists := by
    simp [TowerManager.validateTowerConnection, hto1, hid, hna, hnb, heq,
      RFLinkPlanner.JSNumber.strictEq, hfind1]
  have hv2 : TowerManager.validateTowerConnection s1 (some t2) (some t1) =
      .invalid .alreadyExists := by
    simp [TowerManager.validateTowerConnection, hto1, Ne.symm hid, hna, hnb, heq,
      RFLinkPlanner.JSNumber.strictEq, hfind2]
  exact ⟨LinkManager.createLink_invalid s1 _ _ now2 _ hv1,
    LinkManager.createLink_invalid s1 _ _ now2 _ hv2, by rw [hli1, hr]⟩

/-- Witness of claim C2: in the sample session the link from `A` to `B` is
created at the clock value 7000, then asked for again in both directions. -/
theorem createLink_twice_fails_witness :
    LinkManager.createLink (LinkManager.createLink Sample.session (some 0) (some 1) 7000).2
        (some 0) (some 1) 7001 =
        (.error (.validation .alreadyExists),
          (LinkManager.createLink Sample.session (some 0) (some 1) 7000).2) ∧
      LinkManager.createLink (LinkManager.createLink Sample.session (some 0) (some 1) 7000).2
        (some 1) (some 0) 7001 =
        (.error (.validation .alreadyExists),
          (LinkManager.createLink Sample.session (some 0) (some 1) 7000).2) ∧
      (LinkManager.createLink Sample.session (some 0) (some 1) 7000).2.links =
        Sample.session.links ++ [0] :=
  createLink_twice_fails Sample.session _ 0 1 7000 7001 0 rfl

/-- Claim C4, as amended: whenever `createLink(from, to)` returns a link, both
towers are objects with different ids, and the frequency of each is defined and
equal to the other's; the sign of the frequency is not examined. -/
theorem createLink_success_inv (s s1 : RFLinkPlanner.State)
    (fromTower toTower : Option RFLinkPlanner.Ref) (now : Nat) (r : RFLinkPlanner.Ref)
    (h : LinkManager.createLink s fromTower toTower now = (.ok r, s1)) :
    ∃ a b, fromTower = some a ∧ toTower = some b ∧
      (s.towerObj a).id ≠ (s.towerObj b).id ∧
      (s.towerObj a).frequency.isNaN = false ∧ (s.towerObj b).frequency.isNaN = false ∧
      (s.towerObj a).frequency = (s.towerObj b).frequency := by
  obtain ⟨a, b, ha, hb, hv, -, -⟩ := LinkManager.createLink_ok_inv s s1 _ _ now r h
  obtain ⟨hid, hna, hnb, heq, -⟩ := TowerManager.validateTowerConnection_valid_inv s a b hv
  exact ⟨a, b, ha, hb, hid, hna, hnb, heq⟩

/-- Witness of claim C4: the link from `A` to `B` in the sample session. -/
theorem createLink_success_inv_witness :
    ∃ a b, some 0 = some a ∧ some 1 = some b ∧
      (Sample.session.towerObj a).id ≠ (Sample.session.towerObj b).id ∧
      (Sample.session.towerObj a).frequency.isNaN = false ∧
      (Sample.session.towerObj b).frequency.isNaN = false ∧
      (Sample.session.towerObj a).frequency = (Sample.session.towerObj b).frequency :=
  createLink_success_inv Sample.session _ (some 0) (some 1) 7000 0 rfl

/-- Claim C4 refuted as stated: the sample towers `D` and `E` both have the
frequency 0, and `createLink(D, E)` returns a link. -/
theorem createLink_zero_frequency_counterexample :
    (Sample.session.towerObj 3).frequency = .fin 0 ∧
      (Sample.session.towerObj 4).frequency = .fin 0 ∧
      (LinkManager.createLink Sample.session (some 3) (some 4) 7000).1 = .ok 0 ∧
      (LinkManager.createLink Sample.session (some 3) (some 4) 7000).2.links = [0] := by
  refine ⟨rfl, rfl, rfl, rfl⟩

/-! ## The two-step link creation -/

namespace LinkManager

open RFLinkPlanner

/-- With a pending link from `A`, a tower `B` of defined frequency and another id
that passes the validation is linked: the link is stored, pushed and selected,
and the pending link is cleared. -/
theorem completeTempLink_valid (s : State) (A B : Ref) (now : Nat)
    (hpending : s.tempLink = some A)
    (hv : TowerManager.validateTowerConnection s (some A) (some B) = .valid) :
    completeTempLink s (some B) now =
      (.ok (some s.nextLink),
        cancelTempLink (selectLink (pushLink s A B now) (some s.nextLink))) := by
  obtain ⟨hid, -, hnb, -, -⟩ := TowerManager.validateTowerConnection_valid_inv s A B hv
  simp only [completeTempLink, hpending, hnb, if_neg hid, createLink_valid s A B now hv]
  simp

end LinkManager

/-- Claim C9: for two towers `A` and `B` with different ids, the same defined
positive frequency and no link between them, `startTempLink(A)` followed by
`completeTempLink(B)` returns a new link, appends exactly that link to the list,
with the frequency of `A`, the towers `A` and `B` and the distance
`calculateDistance(A, B)`, and leaves the pending link empty; a further
`completeTempLink(B)` throws "No temp link active" and changes nothing. -/
theorem startTempLink_completeTempLink (s : RFLinkPlanner.State) (A B : RFLinkPlanner.Ref)
    (now now2 : Nat)
    (hid : (s.towerObj A).id ≠ (s.towerObj B).id)
    (hdef : (s.towerObj A).frequency.isNaN = false)
    (heq : (s.towerObj A).frequency = (s.towerObj B).frequency)
    (hpos : (s.towerObj A).frequency.leZero = false)
    (hfind : LinkManager.findLink s A B = none) :
    (LinkManager.completeTempLink (LinkManager.startTempLink s (some A)) (some B) now).1 =
        .ok (some s.nextLink) ∧
      (LinkManager.completeTempLink (LinkManager.startTempLink s (some A)) (some B) now).2.links =
        s.links ++ [s.nextLink] ∧
      (LinkManager.completeTempLink (LinkManager.startTempLink s (some A)) (some B)
          now).2.linkObj s.nextLink =
        ⟨.link now, A, B, (s.towerObj A).frequency,
          RFLinkPlanner.calculateDistance (s.towerObj A) (s.towerObj B)⟩ ∧
      (LinkManager.completeTempLink (LinkManager.startTempLink s (some A)) (some B)
          now).2.tempLink = none ∧
      LinkManager.completeTempLink
          (LinkManager.completeTempLink (LinkManager.startTempLink s (some A)) (some B) now).2
          (some B) now2 =
        (.error .noTempLinkActive,
          (LinkManager.completeTempLink (LinkManager.startTempLink s (some A)) (some B) now).2)
      := by
  have _ := hpos
  have hstart : LinkManager.startTempLink s (some A) = s.withTempLink A := by
    simp [LinkManager.startTempLink, hdef, RFLinkPlanner.State.withTempLink]
  have hv : TowerManager.validateTowerConnection (s.withTempLink A) (some A) (some B) =
      .valid := by
    rw [TowerManager.validateTowerConnection_congr s (s.withTempLink A) _ _ rfl rfl rfl]
    exact TowerManager.validateTowerConnection_valid_of s A B hid hdef heq hfind
  rw [hstart, LinkManager.completeTempLink_valid (s.withTempLink A) A B now rfl hv]
  obtain ⟨-, hlo, -, -, -, hli, -, -⟩ :=
    LinkManager.selectLink_frame (LinkManager.pushLink (s.withTempLink A) A B now)
      (some (s.withTempLink A).nextLink)
  refine ⟨rfl, ?_, ?_, rfl, ?_⟩
  · simp only [LinkManager.cancelTempLink, hli]
    rfl
  · simp only [LinkManager.cancelTempLink, hlo]
    simp [LinkManager.pushLink, LinkManager.newLink, RFLinkPlanner.State.withTempLink]
  · simp [LinkManager.completeTempLink, LinkManager.cancelTempLink]

/-- Witness of claim C9: the sample towers `A` and `B`. -/
theorem startTempLink_completeTempLink_witness :
    (LinkManager.completeTempLink (LinkManager.startTempLink Sample.session (some 0))
        (some 1) 7000).1 = .ok (some 0) ∧
      (LinkManager.completeTempLink (LinkManager.startTempLink Sample.session (some 0))
        (some 1) 7000).2.links = [0] :=
  have h := startTempLink_completeTempLink Sample.session 0 1 7000 7001 (by decide) rfl rfl
    rfl rfl
  ⟨h.1, h.2.1⟩

/-- With a pending link from tower `A`, `completeTempLink` on a tower without
frequency returns nothing and does what `selectTower` on that tower does, and on a
tower of defined frequency with the id of `A` it returns nothing and changes
nothing; either way no link is created, the pending link still holds `A`, and a
following `completeTempLink(B)` with a tower `B` that passes the validation
against `A` returns a new link and appends it to the list. -/
theorem completeTempLink_abort (s : RFLinkPlanner.State) (A t : RFLinkPlanner.Ref)
    (now : Nat) (hpending : s.tempLink = some A)
    (ht : (s.towerObj t).frequency.isNaN = true ∨ (s.towerObj A).id = (s.towerObj t).id) :
    (LinkManager.completeTempLink s (some t) now).1 = .ok none ∧
      ((s.towerObj t).frequency.isNaN = true →
        (LinkManager.completeTempLink s (some t) now).2 =
          TowerManager.selectTower s (some t)) ∧
      ((s.towerObj t).frequency.isNaN = false →
        (LinkManager.completeTempLink s (some t) now).2 = s) ∧
      (LinkManager.completeTempLink s (some t) now).2.links = s.links ∧
      (LinkManager.completeTempLink s (some t) now).2.tempLink = some A ∧
      (∀ B now2, TowerManager.validateTowerConnection s (some A) (some B) = .valid →
        (LinkManager.completeTempLink (LinkManager.completeTempLink s (some t) now).2
            (some B) now2).1 = .ok (some s.nextLink) ∧
          (LinkManager.completeTempLink (LinkManager.completeTempLink s (some t) now).2
            (some B) now2).2.links = s.links ++ [s.nextLink]) := by
  obtain ⟨hto, hlo, hnt, hnl, htw, hli, hsl, htl⟩ := TowerManager.selectTower_frame s (some t)
  have key : LinkManager.completeTempLink s (some t) now = (.ok none, s) ∨
      LinkManager.completeTempLink s (some t) now =
        (.ok none, TowerManager.selectTower s (some t)) := by
    by_cases hnan : (s.towerObj t).frequency.isNaN = true
    · right; simp [LinkManager.completeTempLink, hpending, hnan]
    · left
      have hidt := ht.resolve_left hnan
      simp [LinkManager.completeTempLink, hpending, hnan, hidt]
  have hnext : ∀ s1 : RFLinkPlanner.State, s1.towerObj = s.towerObj → s1.linkObj = s.linkObj →
      s1.links = s.links → s1.nextLink = s.nextLink → s1.tempLink = some A →
      ∀ B now2, TowerManager.validateTowerConnection s (some A) (some B) = .valid →
        (LinkManager.completeTempLink s1 (some B) now2).1 = .ok (some s.nextLink) ∧
          (LinkManager.completeTempLink s1 (some B) now2).2.links = s.links ++ [s.nextLink] := by
    intro s1 h1 h2 h3 h4 h5 B now2 hv
    have hv1 : TowerManager.validateTowerConnection s1 (some A) (some B) = .valid := by
      rw [TowerManager.validateTowerConnection_congr s s1 _ _ h3 h2 h1]; exact hv
    rw [LinkManager.completeTempLink_valid s1 A B now2 h5 hv1]
    obtain ⟨-, -, -, -, -, hli1, -, -⟩ :=
      LinkManager.selectLink_frame (LinkManager.pushLink s1 A B now2) (some s1.nextLink)
    refine ⟨by rw [h4], ?_⟩
    simp only [LinkManager.cancelTempLink, hli1]
    simp [LinkManager.pushLink, h3, h4]
  refine ⟨?_, ?_, ?_, ?_, ?_, ?_⟩
  · rcases key with h | h <;> rw [h]
  · intro hnan
    simp [LinkManager.completeTempLink, hpending, hnan]
  · intro hnan
    simp [LinkManager.completeTempLink, hpending, hnan, ht.resolve_left (by simp [hnan])]
  · rcases key with h | h <;> rw [h]
    exact hli
  · rcases key with h | h <;> rw [h]
    · exact hpending
    · exact htl.trans hpending
  · rcases key with h | h <;> rw [h]
    · exact hnext s rfl rfl rfl rfl hpending
    · exact hnext _ hto hlo hli hnl (htl.trans hpending)

/-- Claim C10, the code at the failing input: in `Sample.twinSession` the tower
`A` is pending, the towers `U` and `V` were created in the same millisecond and
carry the same id, `U` is selected and `V` has no frequency. `completeTempLink(V)`
returns nothing and keeps `A` pending, and the selected tower afterwards is still
`U`, not `V`. -/
theorem completeTempLink_twin_selection :
    Sample.twinSession.tempLink = some 0 ∧
      (Sample.twinSession.towerObj 1).id = (Sample.twinSession.towerObj 2).id ∧
      Sample.twinSession.selectedTower = some 1 ∧
      (Sample.twinSession.towerObj 2).frequency = .nan ∧
      (LinkManager.completeTempLink Sample.twinSession (some 2) 9000).1 = .ok none ∧
      (LinkManager.completeTempLink Sample.twinSession (some 2) 9000).2.tempLink = some 0 ∧
      (LinkManager.completeTempLink Sample.twinSession (some 2) 9000).2.selectedTower =
        some 1 ∧
      (LinkManager.completeTempLink Sample.twinSession (some 2) 9000).2.selectedTower ≠
        some 2 := by
  have h : (LinkManager.completeTempLink Sample.twinSession (some 2) 9000).2.selectedTower =
      some 1 := rfl
  rw [h]
  exact ⟨rfl, rfl, rfl, rfl, rfl, rfl, rfl, by decide⟩

/-! ## Resynchronising the links of a tower -/

namespace LinkManager

open RFLinkPlanner

/-- The loop of `updateLinksForTower` over any list of links: only link objects
change, and each link of the list ends up synchronised once. -/
theorem syncStep_foldl (tower : Ref) (L : List Ref) :
    ∀ st : State,
      (L.foldl (syncStep tower) st).towerObj = st.towerObj ∧
        (L.foldl (syncStep tower) st).nextTower = st.nextTower ∧
        (L.foldl (syncStep tower) st).nextLink = st.nextLink ∧
        (L.foldl (syncStep tower) st).towers = st.towers ∧
        (L.foldl (syncStep tower) st).links = st.links ∧
        (L.foldl (syncStep tower) st).selectedTower = st.selectedTower ∧
        (L.foldl (syncStep tower) st).selectedLink = st.selectedLink ∧
        (L.foldl (syncStep tower) st).tempLink = st.tempLink ∧
        ∀ l, (L.foldl (syncStep tower) st).linkObj l =
          if l ∈ L then syncLink st tower (st.linkObj l) else st.linkObj l := by
  induction L with
  | nil => intro st; simp
  | cons x xs ih =>
    intro st
    simp only [List.foldl_cons]
    obtain ⟨h1, h2, h3, h4, h5, h6, h7, h8, h9⟩ := ih (syncStep tower st x)
    refine ⟨h1, h2, h3, h4, h5, h6, h7, h8, ?_⟩
    intro l
    rw [h9 l]
    by_cases hx : l = x
    · subst hx
      by_cases hm : l ∈ xs <;> simp [hm, syncStep, syncLink]
    · by_cases hm : l ∈ xs <;> simp [hm, hx, syncStep, syncLink, Function.update_noteq hx]

/-- The state after `updateLinksForTower`. -/
theorem updateLinksForTower_spec (s : State) (tower : Ref) :
    (updateLinksForTower s tower).towerObj = s.towerObj ∧
      (updateLinksForTower s tower).nextTower = s.nextTower ∧
      (updateLinksForTower s tower).nextLink = s.nextLink ∧
      (updateLinksForTower s tower).towers = s.towers ∧
      (updateLinksForTower s tower).links = s.links ∧
      (updateLinksForTower s tower).selectedTower = s.selectedTower ∧
      (updateLinksForTower s tower).selectedLink = s.selectedLink ∧
      (updateLinksForTower s tower).tempLink = s.tempLink ∧
      ∀ l, (updateLinksForTower s tower).linkObj l =
        if l ∈ getLinksForTower s tower then syncLink s tower (s.linkObj l)
        else s.linkObj l :=
  syncStep_foldl tower (getLinksForTower s tower) s

/-- The links collected by `getLinksForTower` are the listed links touching the
id of the tower. -/
theorem mem_getLinksForTower (s : State) (tower l : Ref) :
    l ∈ getLinksForTower s tower ↔ l ∈ s.links ∧ touches s (s.towerObj tower).id l := by
  simp [getLinksForTower, touches]

end LinkManager

namespace TowerManager

open RFLinkPlanner

/-- The first tower of the list with a given id, when some listed tower has it. -/
theorem find?_tower_of_mem (s : State) (t : Ref) (ht : t ∈ s.towers) :
    ∃ r, s.towers.find? (fun u => (s.towerObj u).id = (s.towerObj t).id) = some r ∧
      r ∈ s.towers ∧ (s.towerObj r).id = (s.towerObj t).id := by
  cases h : s.towers.find? (fun u => (s.towerObj u).id = (s.towerObj t).id) with
  | none =>
    have := List.find?_eq_none.mp h t ht
    simp at this
  | some r =>
    have hr := List.find?_some h
    exact ⟨r, rfl, List.mem_of_find?_eq_some h, by simpa using hr⟩

/-- The fields `updateTower` assigns never include the id. -/
theorem storeTower_assign_id (s : State) (r : Ref) (updates : Updates) (x : Ref) :
    ((storeTower s r (assign (s.towerObj r) updates)).towerObj x).id = (s.towerObj x).id := by
  by_cases hx : x = r
  · subst hx; simp [storeTower, assign]
  · simp [storeTower, Function.update_noteq hx]

end TowerManager

/-- For a tower `t` of the registry and a number `g`,
`updateTower(t.id, {frequency: g})` returns the first listed tower with the id of
`t`, whose frequency is then `g` (it is `t` itself when the ids of the registry
are pairwise distinct); every listed link touching that id has the frequency `g`
and the distance `calculateDistance` of its two towers, every other listed link
object is unchanged, and the link list and the selected tower are as before. -/
theorem updateTower_frequency_resyncs (s : RFLinkPlanner.State) (t : RFLinkPlanner.Ref)
    (g : RFLinkPlanner.JSNumber) (ht : t ∈ s.towers) :
    ∃ r, (TowerManager.updateTower s (s.towerObj t).id (.frequencyOnly g)).1 = some r ∧
      (s.towerObj r).id = (s.towerObj t).id ∧
      ((TowerManager.towerIds s).Nodup → r = t) ∧
      ((TowerManager.updateTower s (s.towerObj t).id (.frequencyOnly g)).2.towerObj r).frequency
        = g ∧
      (TowerManager.updateTower s (s.towerObj t).id (.frequencyOnly g)).2.links = s.links ∧
      (TowerManager.updateTower s (s.towerObj t).id (.frequencyOnly g)).2.selectedTower =
        s.selectedTower ∧
      (∀ l ∈ s.links, LinkManager.touches s (s.towerObj t).id l →
        ((TowerManager.updateTower s (s.towerObj t).id (.frequencyOnly g)).2.linkObj l).frequency
          = g ∧
        ((TowerManager.updateTower s (s.towerObj t).id (.frequencyOnly g)).2.linkObj l).distance
          = RFLinkPlanner.calculateDistance
            ((TowerManager.updateTower s (s.towerObj t).id (.frequencyOnly g)).2.towerObj
              ((TowerManager.updateTower s (s.towerObj t).id
                (.frequencyOnly g)).2.linkObj l).fromTower)
            ((TowerManager.updateTower s (s.towerObj t).id (.frequencyOnly g)).2.towerObj
              ((TowerManager.updateTower s (s.towerObj t).id
                (.frequencyOnly g)).2.linkObj l).toTower)) ∧
      (∀ l ∈ s.links, ¬ LinkManager.touches s (s.towerObj t).id l →
        (TowerManager.updateTower s (s.towerObj t).id (.frequencyOnly g)).2.linkObj l =
          s.linkObj l) := by
  obtain ⟨r, hfind, hrmem, hrid⟩ := TowerManager.find?_tower_of_mem s t ht
  have hupd : TowerManager.updateTower s (s.towerObj t).id (.frequencyOnly g) =
      (some r, LinkManager.updateLinksForTower
        (TowerManager.storeTower s r (TowerManager.assign (s.towerObj r) (.frequencyOnly g)))
        r) := by
    simp [TowerManager.updateTower, hfind, TowerManager.Updates.frequencyOnly,
      TowerManager.updateFrequency]
  rw [hupd]
  generalize hs1 : TowerManager.storeTower s r
    (TowerManager.assign (s.towerObj r) (.frequencyOnly g)) = s1
  obtain ⟨h1, -, -, -, h5, h6, -, -, h9⟩ := LinkManager.updateLinksForTower_spec s1 r
  have hids : ∀ x, (s1.towerObj x).id = (s.towerObj x).id := by
    intro x
    rw [← hs1]
    exact TowerManager.storeTower_assign_id s r _ x
  have hlinks : s1.links = s.links := by rw [← hs1]; rfl
  have hobj : s1.linkObj = s.linkObj := by rw [← hs1]; rfl
  have hsel : s1.selectedTower = s.selectedTower := by rw [← hs1]; rfl
  have hfreq : (s1.towerObj r).frequency = g := by
    rw [← hs1]
    simp [TowerManager.storeTower, TowerManager.assign, TowerManager.Updates.frequencyOnly,
      TowerManager.updateFrequency]
  have htouch : ∀ l, LinkManager.touches s1 (s.towerObj t).id l ↔
      LinkManager.touches s (s.towerObj t).id l := by
    intro l
    simp only [LinkManager.touches, hids, hobj]
  have hmem : ∀ l, l ∈ LinkManager.getLinksForTower s1 r
      ↔ l ∈ s.links ∧ LinkManager.touches s (s.towerObj t).id l := by
    intro l
    rw [LinkManager.mem_getLinksForTower, hids, hrid, htouch, hlinks]
  refine ⟨r, rfl, hrid, ?_, ?_, h5.trans hlinks, h6.trans hsel, ?_, ?_⟩
  · intro hnd
    exact List.inj_on_of_nodup_map hnd hrmem ht hrid
  · simp only [h1]
    exact hfreq
  · intro l hl htl
    simp only [h9 l, if_pos ((hmem l).mpr ⟨hl, htl⟩), h1]
    simp [LinkManager.syncLink, hfreq]
  · intro l hl htl
    simp only [h9 l]
    rw [if_neg (fun h => htl ((hmem l).mp h).2), hobj]

/-- Claim C6, the code at the failing input: in `Sample.twinLinked` the towers
`T0` and `T1` were created in the same millisecond and carry the same id, and the
one link of the registry joins `T1` and a third tower, all at 5 GHz.
`updateTower(T1.id, {frequency: 6})` updates and returns `T0`; the link, which
touches `T1`, takes the frequency 6, while the frequency of `T1` is still 5. -/
theorem updateTower_twin_link_mismatch :
    1 ∈ Sample.twinLinked.towers ∧
      (Sample.twinLinked.towerObj 0).id = (Sample.twinLinked.towerObj 1).id ∧
      Sample.twinLinked.links = [0] ∧
      (Sample.twinLinked.linkObj 0).fromTower = 1 ∧
      (TowerManager.updateTower Sample.twinLinked (Sample.twinLinked.towerObj 1).id
        (.frequencyOnly (.fin 6))).1 = some 0 ∧
      ((TowerManager.updateTower Sample.twinLinked (Sample.twinLinked.towerObj 1).id
        (.frequencyOnly (.fin 6))).2.linkObj 0).frequency = .fin 6 ∧
      ((TowerManager.updateTower Sample.twinLinked (Sample.twinLinked.towerObj 1).id
        (.frequencyOnly (.fin 6))).2.towerObj 1).frequency = .fin 5 := by
  exact ⟨by decide, rfl, rfl, rfl, rfl, rfl, rfl⟩

namespace RFLinkPlanner

/-- The two copies of `calculateDistance`, in `app.js` and in `fresnel.js`, are
the same function. -/
theorem calculateDistance_eq_fresnel (a b : Tower) :
    calculateDistance a b = FresnelCalculator.calculateDistance a b := rfl

end RFLinkPlanner

/-- Claim C7, as amended: the stored distance of a link is recomputed whenever
`updateTower` is given a frequency. For a tower `t` of the registry and updates
that carry a frequency, every listed link touching the id of `t` has afterwards
the distance `calculateDistance` of its two towers at their current positions,
also when the updates move the tower; updates that carry no frequency leave every
link object, its stored distance included, as it was. -/
theorem updateTower_resyncs_distance (s : RFLinkPlanner.State) (t : RFLinkPlanner.Ref)
    (updates : TowerManager.Updates) (ht : t ∈ s.towers) :
    (updates.frequency ≠ .undefined →
      ∀ l ∈ s.links, LinkManager.touches s (s.towerObj t).id l →
        ((TowerManager.updateTower s (s.towerObj t).id updates).2.linkObj l).distance =
          RFLinkPlanner.calculateDistance
            ((TowerManager.updateTower s (s.towerObj t).id updates).2.towerObj
              ((TowerManager.updateTower s (s.towerObj t).id updates).2.linkObj l).fromTower)
            ((TowerManager.updateTower s (s.towerObj t).id updates).2.towerObj
              ((TowerManager.updateTower s (s.towerObj t).id updates).2.linkObj l).toTower)) ∧
      (updates.frequency = .undefined →
        (TowerManager.updateTower s (s.towerObj t).id updates).2.linkObj = s.linkObj) := by
  obtain ⟨r, hfind, -, hrid⟩ := TowerManager.find?_tower_of_mem s t ht
  constructor
  · intro hgiven l hl htl
    have hsome : (TowerManager.updateFrequency updates.frequency).isSome = true := by
      cases hf : updates.frequency with
      | undefined => exact absurd hf hgiven
      | null => rfl
      | value x => rfl
    have hupd : TowerManager.updateTower s (s.towerObj t).id updates =
        (some r, LinkManager.updateLinksForTower
          (TowerManager.storeTower s r (TowerManager.assign (s.towerObj r) updates)) r) := by
      simp only [TowerManager.updateTower, hfind, hsome, if_true]
    rw [hupd]
    generalize hs1 : TowerManager.storeTower s r
      (TowerManager.assign (s.towerObj r) updates) = s1
    obtain ⟨h1, -, -, -, -, -, -, -, h9⟩ := LinkManager.updateLinksForTower_spec s1 r
    have hids : ∀ x, (s1.towerObj x).id = (s.towerObj x).id := by
      intro x
      rw [← hs1]
      exact TowerManager.storeTower_assign_id s r _ x
    have hlinks : s1.links = s.links := by rw [← hs1]; rfl
    have hobj : s1.linkObj = s.linkObj := by rw [← hs1]; rfl
    have htouch : LinkManager.touches s1 (s.towerObj t).id l ↔
        LinkManager.touches s (s.towerObj t).id l := by
      simp only [LinkManager.touches, hids, hobj]
    have hmem : l ∈ LinkManager.getLinksForTower s1 r := by
      rw [LinkManager.mem_getLinksForTower, hids, hrid, htouch, hlinks]
      exact ⟨hl, htl⟩
    simp only [h9 l, if_pos hmem, h1]
    simp [LinkManager.syncLink]
  · intro hnone
    simp [TowerManager.updateTower, hfind, hnone, TowerManager.updateFrequency,
      TowerManager.storeTower]

/-- Witness of claim C7: in the sample session with the link from `A` to `B`, the
tower `A` is saved with its frequency and moved onto the position of `B`. -/
theorem updateTower_resyncs_distance_witness :
    ((TowerManager.updateTower Sample.linkedAB (Sample.linkedAB.towerObj 0).id
        Sample.moveAndSave).2.linkObj 0).distance =
      RFLinkPlanner.calculateDistance
        ((TowerManager.updateTower Sample.linkedAB (Sample.linkedAB.towerObj 0).id
          Sample.moveAndSave).2.towerObj
          ((TowerManager.updateTower Sample.linkedAB (Sample.linkedAB.towerObj 0).id
            Sample.moveAndSave).2.linkObj 0).fromTower)
        ((TowerManager.updateTower Sample.linkedAB (Sample.linkedAB.towerObj 0).id
          Sample.moveAndSave).2.towerObj
          ((TowerManager.updateTower Sample.linkedAB (Sample.linkedAB.towerObj 0).id
            Sample.moveAndSave).2.linkObj 0).toTower) :=
  (updateTower_resyncs_distance Sample.linkedAB 0 Sample.moveAndSave (by decide)).1
    (fun h => by simp [Sample.moveAndSave] at h) 0 (by decide) (Or.inl rfl)

/-- Claim C7 refuted as stated: in the sample session with the link from `A` to
`B`, `updateTower(A.id, {lat, lng})` changes only the position and moves `A` onto
the position of `B`; the link keeps the distance stored at its creation, which is
positive, while the distance between its two towers at their current positions
is 0. -/
theorem updateTower_position_only_counterexample :
    ((TowerManager.updateTower Sample.linkedAB (.tower 1000)
        (.positionOnly 12.98 77.59)).2.linkObj 0).distance =
      RFLinkPlanner.calculateDistance Sample.towerA Sample.towerB ∧
    0 < RFLinkPlanner.calculateDistance Sample.towerA Sample.towerB ∧
    RFLinkPlanner.calculateDistance
      ((TowerManager.updateTower Sample.linkedAB (.tower 1000)
        (.positionOnly 12.98 77.59)).2.towerObj
        ((TowerManager.updateTower Sample.linkedAB (.tower 1000)
          (.positionOnly 12.98 77.59)).2.linkObj 0).fromTower)
      ((TowerManager.updateTower Sample.linkedAB (.tower 1000)
        (.positionOnly 12.98 77.59)).2.towerObj
        ((TowerManager.updateTower Sample.linkedAB (.tower 1000)
          (.positionOnly 12.98 77.59)).2.linkObj 0).toTower) = 0 := by
  refine ⟨rfl, ?_, ?_⟩
  · rw [RFLinkPlanner.calculateDistance_eq_fresnel]
    exact FresnelCalculator.calculateDistance_pos_of_north Sample.towerA Sample.towerB rfl
      (by norm_num [Sample.towerA, Sample.towerB])
      (by norm_num [Sample.towerA, Sample.towerB])
  · exact RFLinkPlanner.calculateDistance_of_eq _ _ rfl rfl

/-! ## Deleting links and towers -/

namespace LinkManager

open RFLinkPlanner

/-- Splicing out the element at the first index satisfying `p` removes the first
element satisfying `p`. -/
theorem eraseIdx_of_findIdx? {α : Type} (p : α → Bool) :
    ∀ (l : List α) (i : Nat), l.findIdx? p = some i → l.eraseIdx i = l.eraseP p := by
  intro l
  induction l with
  | nil => intro i h; simp at h
  | cons a as ih =>
    intro i h
    by_cases hp : p a = true
    · simp [List.findIdx?_cons, hp] at h
      subst h
      simp [hp]
    · simp only [Bool.not_eq_true] at hp
      rw [List.findIdx?_cons, if_neg (by simp [hp]), List.findIdx?_succ] at h
      cases hi : as.findIdx? p with
      | none => rw [hi] at h; simp at h
      | some j =>
        rw [hi] at h
        simp only [Option.map_some', Option.some.injEq] at h
        subst h
        simp [List.eraseP_cons, hp, ih j hi]

/-- The method `deleteLink` removes the first listed link with the given id and
may drop the selection; nothing else changes. -/
theorem deleteLink_eq (s : State) (linkId : Ident) :
    ∃ sel, (deleteLink s linkId).2 =
      { s with links := s.links.eraseP (fun l => (s.linkObj l).id = linkId),
               selectedLink := sel } := by
  cases h : s.links.findIdx? (fun l => decide ((s.linkObj l).id = linkId)) with
  | none =>
    have he : s.links.eraseP (fun l => decide ((s.linkObj l).id = linkId)) = s.links := by
      rw [List.findIdx?_eq_none_iff] at h
      exact List.eraseP_of_forall_not (fun a ha => by simpa using h a ha)
    refine ⟨s.selectedLink, ?_⟩
    rw [he]
    simp only [deleteLink, h]
  | some idx =>
    have he := eraseIdx_of_findIdx? _ _ _ h
    cases hsel : s.selectedLink with
    | none =>
      refine ⟨none, ?_⟩
      simp only [deleteLink, h, hsel, he]
    | some cur =>
      by_cases hid : (s.linkObj cur).id = linkId
      · refine ⟨none, ?_⟩
        simp only [deleteLink, h, hsel, he, hid, deselectLink, if_true]
      · refine ⟨some cur, ?_⟩
        simp only [deleteLink, h, hsel, he, hid, if_false]

/-- The method `deleteLink` changes the link list and the selected link only, and
removes the first listed link with the given id. -/
theorem deleteLink_spec (s : State) (linkId : Ident) :
    (deleteLink s linkId).2.towerObj = s.towerObj ∧
      (deleteLink s linkId).2.linkObj = s.linkObj ∧
      (deleteLink s linkId).2.nextTower = s.nextTower ∧
      (deleteLink s linkId).2.nextLink = s.nextLink ∧
      (deleteLink s linkId).2.towers = s.towers ∧
      (deleteLink s linkId).2.selectedTower = s.selectedTower ∧
      (deleteLink s linkId).2.tempLink = s.tempLink ∧
      (deleteLink s linkId).2.links =
        s.links.eraseP (fun l => (s.linkObj l).id = linkId) := by
  obtain ⟨sel, h⟩ := deleteLink_eq s linkId
  rw [h]
  exact ⟨rfl, rfl, rfl, rfl, rfl, rfl, rfl, rfl⟩

/-- When the ids of a list are pairwise distinct, removing the first element with
an id leaves no element with that id. -/
theorem eraseP_id_nodup {α β : Type} [DecidableEq β] (f : α → β) (i : β) :
    ∀ l : List α, (l.map f).Nodup → ∀ x ∈ l.eraseP (fun a => decide (f a = i)), f x ≠ i := by
  intro l
  induction l with
  | nil => intro _ x hx; simp at hx
  | cons a as ih =>
    intro hnd x hx
    simp only [List.map_cons, List.nodup_cons] at hnd
    by_cases ha : f a = i
    · rw [List.eraseP_cons_of_pos (by simpa using ha)] at hx
      intro hxi
      exact hnd.1 (List.mem_map.mpr ⟨x, hx, hxi.trans ha.symm⟩)
    · rw [List.eraseP_cons_of_neg (by simpa using ha)] at hx
      rcases List.mem_cons.mp hx with h | h
      · rw [h]; exact ha
      · exact ih hnd.2 x h

/-- The loop of `removeLinksForTower` over any list of links of a list with
pairwise distinct ids: the stores stay, the link list shrinks, and no link with
the id of a processed link is left. -/
theorem deleteLink_foldl (R : List Ref) :
    ∀ st : State, (st.links.map fun l => (st.linkObj l).id).Nodup →
      (R.foldl (fun st l => (deleteLink st (st.linkObj l).id).2) st).towerObj = st.towerObj ∧
      (R.foldl (fun st l => (deleteLink st (st.linkObj l).id).2) st).linkObj = st.linkObj ∧
      (R.foldl (fun st l => (deleteLink st (st.linkObj l).id).2) st).towers = st.towers ∧
      (R.foldl (fun st l => (deleteLink st (st.linkObj l).id).2) st).selectedTower =
        st.selectedTower ∧
      (R.foldl (fun st l => (deleteLink st (st.linkObj l).id).2) st).links.Sublist st.links ∧
      ∀ l ∈ R, ∀ x ∈ (R.foldl (fun st l => (deleteLink st (st.linkObj l).id).2) st).links,
        (st.linkObj x).id ≠ (st.linkObj l).id := by
  induction R with
  | nil => intro st _; simp
  | cons a as ih =>
    intro st hnd
    simp only [List.foldl_cons]
    obtain ⟨d1, d2, -, -, d5, d6, -, d8⟩ := deleteLink_spec st (st.linkObj a).id
    have hsub : (deleteLink st (st.linkObj a).id).2.links.Sublist st.links := by
      rw [d8]; exact List.eraseP_sublist _
    have hnd1 : ((deleteLink st (st.linkObj a).id).2.links.map
        fun l => ((deleteLink st (st.linkObj a).id).2.linkObj l).id).Nodup := by
      rw [d2]
      exact hnd.sublist (hsub.map _)
    obtain ⟨i1, i2, i3, i4, i5, i6⟩ := ih _ hnd1
    refine ⟨i1.trans d1, i2.trans d2, i3.trans d5, i4.trans d6, i5.trans hsub, ?_⟩
    intro l hl x hx
    rcases List.mem_cons.mp hl with h | h
    · subst h
      have hx1 := i5.subset hx
      rw [d8] at hx1
      exact eraseP_id_nodup (fun y => (st.linkObj y).id) _ st.links hnd x hx1
    · have := i6 l h x hx
      rwa [d2] at this

end LinkManager

namespace TowerManager

open RFLinkPlanner

/-- The method `deleteTower` on the id of a listed tower: the links of the first
tower with that id are removed, the tower is spliced out and the selection may be
dropped; nothing else changes. -/
theorem deleteTower_eq (s : State) (t : Ref) (ht : t ∈ s.towers) :
    ∃ idx r sel, (s.towerObj r).id = (s.towerObj t).id ∧
      deleteTower s (s.towerObj t).id =
        (true, { LinkManager.removeLinksForTower s r with
                  towers := (LinkManager.removeLinksForTower s r).towers.eraseIdx idx,
                  selectedTower := sel }) := by
  obtain ⟨r, hfind, -, hrid⟩ := find?_tower_of_mem s t ht
  cases hidx : s.towers.findIdx? (fun u => decide ((s.towerObj u).id = (s.towerObj t).id)) with
  | none =>
    rw [List.findIdx?_eq_none_iff] at hidx
    have := hidx t ht
    simp at this
  | some idx =>
    cases hsel : (LinkManager.removeLinksForTower s r).selectedTower with
    | none =>
      refine ⟨idx, r, none, hrid, ?_⟩
      simp only [deleteTower, hidx, hfind, hsel]
    | some cur =>
      by_cases hid : ((LinkManager.removeLinksForTower s r).towerObj cur).id = (s.towerObj t).id
      · refine ⟨idx, r, none, hrid, ?_⟩
        simp only [deleteTower, hidx, hfind, hsel, hid, deselectTower, if_true]
      · refine ⟨idx, r, some cur, hrid, ?_⟩
        simp only [deleteTower, hidx, hfind, hsel, hid, if_false]

end TowerManager

/-- Claim C5: in a state whose listed links have pairwise distinct ids, for a
tower `t` of the registry, `deleteTower(t.id)` returns `true` and leaves no listed
link with a tower of that id: `getLinksForTower(t)` is empty and `findLink(t, u)`
finds nothing for every tower `u`. -/
theorem deleteTower_removes_links (s : RFLinkPlanner.State) (t : RFLinkPlanner.Ref)
    (ht : t ∈ s.towers) (hids : (s.links.map fun l => (s.linkObj l).id).Nodup) :
    (TowerManager.deleteTower s (s.towerObj t).id).1 = true ∧
      (∀ l ∈ (TowerManager.deleteTower s (s.towerObj t).id).2.links,
        ¬ LinkManager.touches (TowerManager.deleteTower s (s.towerObj t).id).2
          (s.towerObj t).id l) ∧
      LinkManager.getLinksForTower (TowerManager.deleteTower s (s.towerObj t).id).2 t = [] ∧
      ∀ u, LinkManager.findLink (TowerManager.deleteTower s (s.towerObj t).id).2 t u = none := by
  obtain ⟨idx, r, sel, hrid, heq⟩ := TowerManager.deleteTower_eq s t ht
  rw [heq]
  obtain ⟨f1, f2, -, -, f5, f6⟩ :=
    LinkManager.deleteLink_foldl (LinkManager.getLinksForTower s r) s hids
  have hto : (LinkManager.removeLinksForTower s r).towerObj = s.towerObj := f1
  have hlo : (LinkManager.removeLinksForTower s r).linkObj = s.linkObj := f2
  have hsub : (LinkManager.removeLinksForTower s r).links.Sublist s.links := f5
  have hno : ∀ l ∈ (LinkManager.removeLinksForTower s r).links,
      ¬ LinkManager.touches s (s.towerObj t).id l := by
    intro l hl htouch
    have hmem : l ∈ LinkManager.getLinksForTower s r :=
      (LinkManager.mem_getLinksForTower s r l).mpr ⟨hsub.subset hl, hrid ▸ htouch⟩
    exact f6 l hmem l hl rfl
  refine ⟨rfl, ?_, ?_, ?_⟩
  · intro l hl
    simp only [LinkManager.touches, hto, hlo]
    exact hno l hl
  · simp only [LinkManager.getLinksForTower, hto, hlo, List.filter_eq_nil_iff]
    intro l hl
    have := hno l hl
    simpa [LinkManager.touches] using this
  · intro u
    simp only [LinkManager.findLink, hto, hlo, List.find?_eq_none]
    intro l hl
    have := hno l hl
    simp only [LinkManager.touches, not_or] at this
    simp [this.1, this.2]

/-- Witness of claim C5: tower `A` of the linked sample session is deleted. -/
theorem deleteTower_removes_links_witness :
    (TowerManager.deleteTower Sample.linkedAB (Sample.linkedAB.towerObj 0).id).1 = true ∧
      LinkManager.getLinksForTower
        (TowerManager.deleteTower Sample.linkedAB (Sample.linkedAB.towerObj 0).id).2 0 = [] :=
  have h := deleteTower_removes_links Sample.linkedAB 0 (by decide) (by decide)
  ⟨h.1, h.2.2.1⟩

/-! ## Sessions: what one operation keeps -/

namespace RFLinkPlanner

/-- A step that changes no store is a frame. -/
theorem SameStores.frame {s s1 : State} (h : SameStores s s1) : Frame s s1 := by
  obtain ⟨h1, h2, h3, h4⟩ := h
  refine ⟨by rw [h3], by rw [h4], ?_, ?_⟩
  · intro r _; rw [h1]
  · intro l _; rw [h2]; exact ⟨rfl, rfl⟩

/-- A step that changes no store keeps every frequency. -/
theorem SameStores.frameFrequency {s s1 : State} (h : SameStores s s1) :
    FrameFrequency s s1 := by
  intro r _; rw [h.1]

/-- Nothing changes in no step. -/
theorem SameStores.refl (s : State) : SameStores s s := ⟨rfl, rfl, rfl, rfl⟩

/-- Steps that change no store compose. -/
theorem SameStores.trans {s s1 s2 : State} (h : SameStores s s1) (h1 : SameStores s1 s2) :
    SameStores s s2 :=
  ⟨h1.1.trans h.1, h1.2.1.trans h.2.1, h1.2.2.1.trans h.2.2.1, h1.2.2.2.trans h.2.2.2⟩

end RFLinkPlanner

namespace LinkManager

open RFLinkPlanner

/-- The method `selectLink` changes no store. -/
theorem selectLink_sameStores (s : State) (l : Option Ref) :
    SameStores s (selectLink s l) := by
  obtain ⟨h1, h2, h3, h4, -⟩ := selectLink_frame s l
  exact ⟨h1, h2, h3, h4⟩

/-- The method `deleteLink` changes no store. -/
theorem deleteLink_sameStores (s : State) (linkId : Ident) :
    SameStores s (deleteLink s linkId).2 := by
  obtain ⟨h1, h2, h3, h4, -⟩ := deleteLink_spec s linkId
  exact ⟨h1, h2, h3, h4⟩

/-- The loop of `removeLinksForTower` changes no store, shrinks the link list and
keeps the tower list, the selected tower and the pending link. -/
theorem deleteLink_foldl_frame (R : List Ref) :
    ∀ st : State,
      SameStores st (R.foldl (fun st l => (deleteLink st (st.linkObj l).id).2) st) ∧
      (R.foldl (fun st l => (deleteLink st (st.linkObj l).id).2) st).links.Sublist st.links ∧
      (R.foldl (fun st l => (deleteLink st (st.linkObj l).id).2) st).tempLink = st.tempLink ∧
      (R.foldl (fun st l => (deleteLink st (st.linkObj l).id).2) st).towers = st.towers ∧
      (R.foldl (fun st l => (deleteLink st (st.linkObj l).id).2) st).selectedTower =
        st.selectedTower := by
  induction R with
  | nil => intro st; exact ⟨SameStores.refl st, List.Sublist.refl _, rfl, rfl, rfl⟩
  | cons a as ih =>
    intro st
    simp only [List.foldl_cons]
    obtain ⟨-, -, -, -, d5, d6, d7, d8⟩ := deleteLink_spec st (st.linkObj a).id
    obtain ⟨i1, i2, i3, i4, i5⟩ := ih (deleteLink st (st.linkObj a).id).2
    refine ⟨(deleteLink_sameStores st _).trans i1, i2.trans ?_, i3.trans d7, i4.trans d5,
      i5.trans d6⟩
    rw [d8]
    exact List.eraseP_sublist _

/-- The method `removeLinksForTower` changes no store, shrinks the link list and
keeps the pending link. -/
theorem removeLinksForTower_frame (s : State) (tower : Ref) :
    SameStores s (removeLinksForTower s tower) ∧
      (removeLinksForTower s tower).links.Sublist s.links ∧
      (removeLinksForTower s tower).tempLink = s.tempLink := by
  obtain ⟨h1, h2, h3, -, -⟩ := deleteLink_foldl_frame (getLinksForTower s tower) s
  exact ⟨h1, h2, h3⟩

end LinkManager

namespace TowerManager

open RFLinkPlanner

/-- The method `selectTower` changes no store. -/
theorem selectTower_sameStores (s : State) (t : Option Ref) :
    SameStores s (selectTower s t) := by
  obtain ⟨h1, h2, h3, h4, -⟩ := selectTower_frame s t
  exact ⟨h1, h2, h3, h4⟩

/-- The method `deleteTower` changes no store, shrinks the link list and keeps
the pending link. -/
theorem deleteTower_frame (s : State) (towerId : Ident) :
    SameStores s (deleteTower s towerId).2 ∧
      (deleteTower s towerId).2.links.Sublist s.links ∧
      (deleteTower s towerId).2.tempLink = s.tempLink := by
  unfold deleteTower
  split
  · rename_i idx tower _ _
    obtain ⟨h1, h2, h3⟩ := LinkManager.removeLinksForTower_frame s tower
    cases hsel : (LinkManager.removeLinksForTower s tower).selectedTower with
    | none => simp only [hsel]; exact ⟨h1, h2, h3⟩
    | some cur =>
      simp only [hsel]
      split
      · simp only [deselectTower, hsel]; exact ⟨h1, h2, h3⟩
      · exact ⟨h1, h2, h3⟩
  · exact ⟨SameStores.refl s, List.Sublist.refl _, rfl⟩

/-- The method `createTower` stores one new tower: it is a frame that keeps the
link objects, the link list, the pending link and every frequency. -/
theorem createTower_frame (s : State) (lat lng : ℝ) (name : Arg String)
    (frequency height : Arg JSNumber) (now : Nat) :
    Frame s (createTower s lat lng name frequency height now).2 ∧
      FrameFrequency s (createTower s lat lng name frequency height now).2 ∧
      (createTower s lat lng name frequency height now).2.links = s.links ∧
      (createTower s lat lng name frequency height now).2.tempLink = s.tempLink := by
  obtain ⟨h1, h2, h3, h4, -, h6, -, h8⟩ := selectTower_frame
    { s with towerObj := Function.update s.towerObj s.nextTower
              ⟨.tower now, lat, lng, towerName s name, towerFrequency frequency,
                towerHeight height⟩,
             nextTower := s.nextTower + 1,
             towers := s.towers ++ [s.nextTower] } (some s.nextTower)
  simp only [createTower]
  refine ⟨⟨?_, ?_, ?_, ?_⟩, ?_, h6, h8⟩
  · rw [h3]; exact Nat.le_succ _
  · rw [h4]
  · intro r hr
    rw [h1]
    simp [Function.update_noteq (ne_of_lt hr)]
  · intro l _
    rw [h2]
    exact ⟨rfl, rfl⟩
  · intro r hr
    rw [h1]
    simp [Function.update_noteq (ne_of_lt hr)]

/-- The method `updateTower` is a frame that keeps the link list and the pending
link; it keeps every frequency when the updates give none. -/
theorem updateTower_frame (s : State) (towerId : Ident) (updates : Updates) :
    Frame s (updateTower s towerId updates).2 ∧
      (updateFrequency updates.frequency = none →
        FrameFrequency s (updateTower s towerId updates).2) ∧
      (updateTower s towerId updates).2.links = s.links ∧
      (updateTower s towerId updates).2.tempLink = s.tempLink := by
  unfold updateTower
  split
  · exact ⟨(SameStores.refl s).frame, fun _ => (SameStores.refl s).frameFrequency, rfl, rfl⟩
  · rename_i r _
    have hid := storeTower_assign_id s r updates
    obtain ⟨u1, u2, u3, -, u5, -, -, u8, u9⟩ :=
      LinkManager.updateLinksForTower_spec (storeTower s r (assign (s.towerObj r) updates)) r
    split
    · rename_i hsome
      refine ⟨⟨?_, ?_, ?_, ?_⟩, ?_, u5, u8⟩
      · rw [u2]; exact Nat.le_refl _
      · rw [u3]; exact Nat.le_refl _
      · intro x _
        simp only [u1]
        exact hid x
      · intro l _
        simp only [u9 l]
        split <;> exact ⟨rfl, rfl⟩
      · intro hnone
        rw [hnone] at hsome
        simp at hsome
    · refine ⟨⟨Nat.le_refl _, Nat.le_refl _, ?_, ?_⟩, ?_, rfl, rfl⟩
      · intro x _; exact hid x
      · intro l _; exact ⟨rfl, rfl⟩
      · intro hnone x _
        by_cases hx : x = r
        · subst hx
          simp [storeTower, assign, hnone]
        · simp [storeTower, Function.update_noteq hx]

end TowerManager

namespace LinkManager

open RFLinkPlanner

/-- The method `createLink` on existing towers changes nothing, or stores and
pushes one validated link; it keeps the tower store and the pending link. -/
theorem createLink_step (s : State) (f t : Option Ref) (now : Nat)
    (hf : towerArg s f) (ht : towerArg s t) :
    Frame s (createLink s f t now).2 ∧ FrameFrequency s (createLink s f t now).2 ∧
      (createLink s f t now).2.tempLink = s.tempLink ∧
      (Shrinks s (createLink s f t now).2 ∨ Pushes s (createLink s f t now).2) := by
  cases hv : TowerManager.validateTowerConnection s f t with
  | invalid reason =>
    rw [createLink_invalid s f t now reason hv]
    exact ⟨(SameStores.refl s).frame, (SameStores.refl s).frameFrequency, rfl,
      Or.inl (List.Sublist.refl _)⟩
  | valid =>
    obtain ⟨a, b, rfl, rfl⟩ := TowerManager.validateTowerConnection_valid_some s f t hv
    rw [createLink_valid s a b now hv]
    obtain ⟨h1, h2, h3, h4, -, h6, -, h8⟩ :=
      selectLink_frame (pushLink s a b now) (some s.nextLink)
    refine ⟨⟨?_, ?_, ?_, ?_⟩, ?_, ?_, Or.inr ⟨a, b, hf a rfl, ht b rfl, hv, ?_, ?_, ?_, ?_⟩⟩
    · rw [h3]; exact Nat.le_refl _
    · rw [h4]; exact Nat.le_succ _
    · intro r _; rw [h1]; rfl
    · intro l hl
      rw [h2]
      simp [pushLink, Function.update_noteq (ne_of_lt hl)]
    · intro r _; rw [h1]; rfl
    · rw [h8]; rfl
    · rw [h6]; rfl
    · rw [h4]; exact Nat.lt_succ_self _
    · rw [h2]; simp [pushLink, newLink]
    · rw [h2]; simp [pushLink, newLink]

end LinkManager

namespace RFLinkPlanner

/-- One link-editing operation on a well-formed state is a frame, keeps the
pending tower among the existing towers, and shrinks the link list or pushes one
validated link. -/
theorem run_step (s : State) (a : Action) (hwf : s.WellFormed) (ha : a.wellFormed s)
    (hallowed : a.isLinkEditing) :
    Frame s (run s a) ∧ PendingKept s (run s a) ∧
      (Shrinks s (run s a) ∨ Pushes s (run s a)) := by
  cases a with
  | createTower lat lng name frequency height now =>
    obtain ⟨h1, -, h3, h4⟩ := TowerManager.createTower_frame s lat lng name frequency height now
    refine ⟨h1, ?_, Or.inl ?_⟩
    · intro f hf; left; simp only [run] at hf; rw [h4] at hf; exact hf
    · simp only [run, Shrinks, h3]; exact List.Sublist.refl _
  | updateTower towerId updates =>
    obtain ⟨h1, -, h3, h4⟩ := TowerManager.updateTower_frame s towerId updates
    refine ⟨h1, ?_, Or.inl ?_⟩
    · intro f hf; left; simp only [run] at hf; rw [h4] at hf; exact hf
    · simp only [run, Shrinks, h3]; exact List.Sublist.refl _
  | deleteTower towerId =>
    obtain ⟨h1, h2, h3⟩ := TowerManager.deleteTower_frame s towerId
    refine ⟨h1.frame, ?_, Or.inl h2⟩
    intro f hf; left; simp only [run] at hf; rw [h3] at hf; exact hf
  | createLink fromTower toTower now =>
    obtain ⟨h1, -, h3, h4⟩ := LinkManager.createLink_step s fromTower toTower now ha.1 ha.2
    refine ⟨h1, ?_, h4⟩
    intro f hf; left; simp only [run] at hf; rw [h3] at hf; exact hf
  | deleteLink linkId =>
    obtain ⟨-, -, -, -, -, -, d7, d8⟩ := LinkManager.deleteLink_spec s linkId
    refine ⟨(LinkManager.deleteLink_sameStores s linkId).frame, ?_, Or.inl ?_⟩
    · intro f hf; left; simp only [run] at hf; rw [d7] at hf; exact hf
    · simp only [run, Shrinks, d8]; exact List.eraseP_sublist _
  | startTempLink fromTower =>
    simp only [run, LinkManager.startTempLink]
    cases fromTower with
    | none =>
      exact ⟨(SameStores.refl s).frame, fun f hf => Or.inl hf, Or.inl (List.Sublist.refl _)⟩
    | some f =>
      simp only
      split
      · obtain ⟨-, -, -, -, -, h6, -, h8⟩ := TowerManager.selectTower_frame s (some f)
        refine ⟨(TowerManager.selectTower_sameStores s _).frame, ?_, Or.inl ?_⟩
        · intro g hg; left; rw [h8] at hg; exact hg
        · simp only [Shrinks, h6]; exact List.Sublist.refl _
      · refine ⟨(SameStores.refl s).frame, ?_, Or.inl (List.Sublist.refl _)⟩
        intro g hg
        right
        simp only [Option.some.injEq] at hg
        rw [← hg]
        exact ha f rfl
  | completeTempLink toTower now =>
    simp only [run, LinkManager.completeTempLink]
    cases hp : s.tempLink with
    | none =>
      exact ⟨(SameStores.refl s).frame, fun f hf => Or.inl (hp ▸ hf),
        Or.inl (List.Sublist.refl _)⟩
    | some fromTower =>
      cases toTower with
      | none =>
        exact ⟨(SameStores.refl s).frame, fun f hf => Or.inl (hp ▸ hf),
          Or.inl (List.Sublist.refl _)⟩
      | some t =>
        simp only
        split
        · obtain ⟨-, -, -, -, -, h6, -, h8⟩ := TowerManager.selectTower_frame s (some t)
          refine ⟨(TowerManager.selectTower_sameStores s _).frame, ?_, Or.inl ?_⟩
          · intro g hg; left; rw [h8] at hg; exact hp ▸ hg
          · simp only [Shrinks, h6]; exact List.Sublist.refl _
        · split
          · exact ⟨(SameStores.refl s).frame, fun f hf => Or.inl (hp ▸ hf),
              Or.inl (List.Sublist.refl _)⟩
          · have hfrom : towerArg s (some fromTower) := by
              intro r hr
              simp only [Option.some.injEq] at hr
              rw [← hr]
              exact hwf.2 fromTower hp
            obtain ⟨h1, -, h3, h4⟩ :=
              LinkManager.createLink_step s (some fromTower) (some t) now hfrom ha
            cases hc : LinkManager.createLink s (some fromTower) (some t) now with
            | mk res s1 =>
              rw [hc] at h1 h3 h4
              simp only at h1 h3 h4
              cases res with
              | error err =>
                simp only
                exact ⟨h1, fun f hf => Or.inl (by rw [← h3]; exact hf), h4⟩
              | ok link =>
                simp only
                refine ⟨h1, ?_, ?_⟩
                · intro f hf
                  simp [LinkManager.cancelTempLink] at hf
                · exact h4
  | cancelTempLink =>
    refine ⟨(SameStores.refl s).frame, ?_, Or.inl (List.Sublist.refl _)⟩
    intro f hf
    simp [run, LinkManager.cancelTempLink] at hf
  | selectTower tower => exact absurd hallowed (by simp [Action.isLinkEditing])
  | selectLink link => exact absurd hallowed (by simp [Action.isLinkEditing])
  | importProject towers links => exact absurd hallowed (by simp [Action.isLinkEditing])
  | clearAll => exact absurd hallowed (by simp [Action.isLinkEditing])

end RFLinkPlanner

/-! ## Sessions: invariants -/

namespace RFLinkPlanner

/-- A frame keeps the pair of ids of every well-formed link. -/
theorem Frame.linkPair_eq {s s1 : State} (hf : Frame s s1) (hwf : s.WellFormed) (l : Ref)
    (hl : l ∈ s.links) : linkPair s1 l = linkPair s l := by
  obtain ⟨h1, h2, h3⟩ := hwf.1 l hl
  obtain ⟨-, -, hid, hends⟩ := hf
  obtain ⟨e1, e2⟩ := hends l h1
  simp only [linkPair, e1, e2, hid _ h2, hid _ h3]

/-- Well-formedness survives a frame that shrinks the list or pushes a link. -/
theorem wellFormed_step {s s1 : State} (hwf : s.WellFormed) (hf : Frame s s1)
    (hp : PendingKept s s1) (hl : Shrinks s s1 ∨ Pushes s s1) : s1.WellFormed := by
  obtain ⟨n1, n2, -, hends⟩ := hf
  have hold : ∀ l ∈ s.links, l < s1.nextLink ∧ (s1.linkObj l).fromTower < s1.nextTower ∧
      (s1.linkObj l).toTower < s1.nextTower := by
    intro l hmem
    obtain ⟨h1, h2, h3⟩ := hwf.1 l hmem
    obtain ⟨e1, e2⟩ := hends l h1
    exact ⟨lt_of_lt_of_le h1 n2, by rw [e1]; exact lt_of_lt_of_le h2 n1,
      by rw [e2]; exact lt_of_lt_of_le h3 n1⟩
  constructor
  · intro l hmem
    rcases hl with hs | ⟨a, b, ha, hb, -, hlinks, hnext, hfrom, hto⟩
    · exact hold l (hs.subset hmem)
    · rw [hlinks] at hmem
      rcases List.mem_append.mp hmem with h | h
      · exact hold l h
      · simp only [List.mem_singleton] at h
        subst h
        exact ⟨hnext, by rw [hfrom]; exact lt_of_lt_of_le ha n1,
          by rw [hto]; exact lt_of_lt_of_le hb n1⟩
  · intro f hf1
    rcases hp f hf1 with h | h
    · exact lt_of_lt_of_le (hwf.2 f h) n1
    · exact lt_of_lt_of_le h n1

/-- The invariant on link pairs survives a frame that shrinks the list or pushes
a validated link. -/
theorem noDuplicateLink_step {s s1 : State} (hwf : s.WellFormed) (hinv : NoDuplicateLink s)
    (hf : Frame s s1) (hl : Shrinks s s1 ∨ Pushes s s1) : NoDuplicateLink s1 := by
  have hpair := hf.linkPair_eq hwf
  have hold : s.links.Pairwise fun a b => ¬ samePair (linkPair s1 a) (linkPair s1 b) := by
    refine List.Pairwise.imp_of_mem ?_ hinv
    intro a b ha hb hab
    rw [hpair a ha, hpair b hb]
    exact hab
  rcases hl with hs | ⟨a, b, ha, hb, hv, hlinks, -, hfrom, hto⟩
  · exact hold.sublist hs
  · unfold NoDuplicateLink
    rw [hlinks, List.pairwise_append]
    refine ⟨hold, List.pairwise_singleton _ _, ?_⟩
    intro l hmem n hn
    simp only [List.mem_singleton] at hn
    subst hn
    obtain ⟨-, -, -, -, hfind⟩ := TowerManager.validateTowerConnection_valid_inv s a b hv
    have hnot := List.find?_eq_none.mp hfind l hmem
    rw [hpair l hmem]
    obtain ⟨-, -, hid, -⟩ := hf
    simp only [linkPair, hfrom, hto, hid a ha, hid b hb, samePair]
    simpa using hnot

/-- The common frequency of the two towers of every link survives a frame that
keeps the frequencies and shrinks the list or pushes a validated link. -/
theorem commonFrequency_step {s s1 : State} (hwf : s.WellFormed) (hinv : CommonFrequency s)
    (hf : Frame s s1) (hq : FrameFrequency s s1) (hl : Shrinks s s1 ∨ Pushes s s1) :
    CommonFrequency s1 := by
  obtain ⟨-, -, -, hends⟩ := hf
  have hold : ∀ l ∈ s.links, (s1.towerObj (s1.linkObj l).fromTower).frequency.strictEq
      (s1.towerObj (s1.linkObj l).toTower).frequency = true := by
    intro l hmem
    obtain ⟨h1, h2, h3⟩ := hwf.1 l hmem
    obtain ⟨e1, e2⟩ := hends l h1
    rw [e1, e2, hq _ h2, hq _ h3]
    exact hinv l hmem
  intro l hmem
  rcases hl with hs | ⟨a, b, ha, hb, hv, hlinks, -, hfrom, hto⟩
  · exact hold l (hs.subset hmem)
  · rw [hlinks] at hmem
    rcases List.mem_append.mp hmem with h | h
    · exact hold l h
    · simp only [List.mem_singleton] at h
      subst h
      obtain ⟨-, hna, hnb, heq, -⟩ := TowerManager.validateTowerConnection_valid_inv s a b hv
      rw [hfrom, hto, hq a ha, hq b hb]
      simp [JSNumber.strictEq, hna, hnb, heq]

/-- An operation that keeps the frequencies is a link-editing operation. -/
theorem Action.keepsFrequency.isLinkEditing {a : Action} (h : a.keepsFrequency) :
    a.isLinkEditing := by
  cases a <;> simp_all [Action.keepsFrequency, Action.isLinkEditing]

/-- An operation of `keepsFrequency` leaves the frequency of every existing tower
alone. -/
theorem run_frameFrequency (s : State) (a : Action) (ha : a.wellFormed s)
    (hk : a.keepsFrequency) : FrameFrequency s (run s a) := by
  cases a with
  | createTower lat lng name frequency height now =>
    exact (TowerManager.createTower_frame s lat lng name frequency height now).2.1
  | updateTower towerId updates =>
    exact (TowerManager.updateTower_frame s towerId updates).2.1 hk
  | deleteTower towerId => exact (TowerManager.deleteTower_frame s towerId).1.frameFrequency
  | createLink fromTower toTower now =>
    exact (LinkManager.createLink_step s fromTower toTower now ha.1 ha.2).2.1
  | deleteLink linkId => exact (LinkManager.deleteLink_sameStores s linkId).frameFrequency
  | startTempLink _ => exact absurd hk (by simp [Action.keepsFrequency])
  | completeTempLink _ _ => exact absurd hk (by simp [Action.keepsFrequency])
  | cancelTempLink => exact absurd hk (by simp [Action.keepsFrequency])
  | selectTower _ => exact absurd hk (by simp [Action.keepsFrequency])
  | selectLink _ => exact absurd hk (by simp [Action.keepsFrequency])
  | importProject _ _ => exact absurd hk (by simp [Action.keepsFrequency])
  | clearAll => exact absurd hk (by simp [Action.keepsFrequency])

/-- A fresh planner is well formed. -/
theorem wellFormed_init : State.init.WellFormed := by
  constructor
  · intro l hl; simp [State.init] at hl
  · intro f hf; simp [State.init] at hf

end RFLinkPlanner

/-- Claim C3: in every state reached from a fresh planner by `createTower`,
`updateTower` (of name, frequency, height or position), `deleteTower`,
`createLink`, `deleteLink`, `startTempLink`, `completeTempLink` and
`cancelTempLink`, no two links of the list join the same unordered pair of tower
ids. -/
theorem reachable_noDuplicateLink (s : RFLinkPlanner.State)
    (h : RFLinkPlanner.ReachableBy RFLinkPlanner.Action.isLinkEditing s) :
    RFLinkPlanner.NoDuplicateLink s := by
  have key : s.WellFormed ∧ RFLinkPlanner.NoDuplicateLink s := by
    induction h with
    | init =>
      exact ⟨RFLinkPlanner.wellFormed_init, by
        simp [RFLinkPlanner.NoDuplicateLink, RFLinkPlanner.State.init]⟩
    | step s a _ hallowed hwfa ih =>
      obtain ⟨hf, hp, hl⟩ := RFLinkPlanner.run_step s a ih.1 hwfa hallowed
      exact ⟨RFLinkPlanner.wellFormed_step ih.1 hf hp hl,
        RFLinkPlanner.noDuplicateLink_step ih.1 ih.2 hf hl⟩
  exact key.2

namespace Sample

open RFLinkPlanner

/-- The session `linkedSession` is reached by operations of any set that holds
`createTower` and `createLink`. -/
theorem linkedSession_reachable (allowed : Action → Prop) (h1 : allowed createA)
    (h2 : allowed createB) (h3 : allowed linkFirstTwo) :
    ReachableBy allowed linkedSession := by
  refine ReachableBy.step _ _ (ReachableBy.step _ _ (ReachableBy.step _ _ ReachableBy.init
    h1 trivial) h2 trivial) h3 ?_
  constructor <;>
  · intro r hr
    simp only [Option.some.injEq] at hr
    subst hr
    decide

end Sample

/-- Witness of claim C3: the session in which two towers are created and
linked. -/
theorem reachable_noDuplicateLink_witness :
    RFLinkPlanner.NoDuplicateLink Sample.linkedSession :=
  reachable_noDuplicateLink Sample.linkedSession
    (Sample.linkedSession_reachable _ trivial trivial trivial)

/-- Claim C8 refuted as stated: after two towers at 5 GHz are created and linked,
`updateTower` sets the first to 6 GHz; the state is reached by `createTower`,
`createLink` and `updateTower`, and its link joins a tower at 6 GHz and a tower at
5 GHz. -/
theorem updateTower_breaks_commonFrequency_counterexample :
    RFLinkPlanner.ReachableBy RFLinkPlanner.Action.isRegistryEditing Sample.retunedSession ∧
      Sample.retunedSession.links = [0] ∧
      (Sample.retunedSession.towerObj (Sample.retunedSession.linkObj 0).fromTower).frequency =
        .fin 6 ∧
      (Sample.retunedSession.towerObj (Sample.retunedSession.linkObj 0).toTower).frequency =
        .fin 5 ∧
      ¬ RFLinkPlanner.CommonFrequency Sample.retunedSession := by
  refine ⟨?_, rfl, rfl, rfl, ?_⟩
  · exact RFLinkPlanner.ReachableBy.step _ _
      (Sample.linkedSession_reachable _ trivial trivial trivial) trivial trivial
  · intro h
    have h0 := h 0 (by decide)
    have e1 : (Sample.retunedSession.towerObj
        (Sample.retunedSession.linkObj 0).fromTower).frequency = .fin 6 := rfl
    have e2 : (Sample.retunedSession.towerObj
        (Sample.retunedSession.linkObj 0).toTower).frequency = .fin 5 := rfl
    rw [e1, e2] at h0
    revert h0
    decide

/-! ## The analysis result -/

/-- Claim C21: for a link with both towers and a finite resolved frequency of
`x > 0` GHz, `analyzeLink` returns an analysis whose wavelength is
`3e8 / (x * 1e9)`, whose distance is 1000 times the distance of the two towers, as
computed by `calculateDistance` of `fresnel.js`, which agrees with the one of
`app.js`, whose `maxRadius` is 0 for a distance `<= 0` and
`0.5 * sqrt(wavelength * distance)` otherwise, and whose midpoint is the mean of
the two latitudes and of the two longitudes. -/
theorem analyzeLink_result (l : FresnelCalculator.LinkArg) (f t : RFLinkPlanner.Tower)
    (x : ℚ) (hf : l.fromTower = some f) (ht : l.toTower = some t)
    (hfreq : l.frequency.orElse f.frequency = .fin x) (hx : 0 < x) :
    ∃ res, FresnelCalculator.analyzeLink (some l) = .ok res ∧
      res.frequency = .fin x ∧
      res.wavelength = 3e8 / ((x : ℝ) * 1e9) ∧
      res.distance = 1000 * RFLinkPlanner.calculateDistance f t ∧
      FresnelCalculator.calculateDistance f t = RFLinkPlanner.calculateDistance f t ∧
      (res.distance ≤ 0 → res.maxRadius = 0) ∧
      (0 < res.distance → res.maxRadius = 0.5 * Real.sqrt (res.wavelength * res.distance)) ∧
      res.midpoint = ((f.lat + t.lat) / 2, (f.lng + t.lng) / 2) := by
  rcases l with ⟨fo, tt, fr⟩
  simp only at hf ht hfreq
  subst hf ht
  have hguard : ((RFLinkPlanner.JSNumber.fin x).isNaN ||
      (RFLinkPlanner.JSNumber.fin x).leZero) = false := by
    simp [RFLinkPlanner.JSNumber.isNaN, RFLinkPlanner.JSNumber.leZero, hx]
  simp only [FresnelCalculator.analyzeLink, hfreq, hguard]
  refine ⟨_, rfl, rfl, rfl, ?_, rfl, ?_, ?_, rfl⟩
  · simp only [RFLinkPlanner.calculateDistance_eq_fresnel]
    ring
  · intro h
    simp only at h ⊢
    rw [if_pos h]
  · intro h
    simp only at h ⊢
    rw [if_neg (not_le.mpr h)]

/-- Witness of claim C21: the sample link from `A` to `B` at 5 GHz. -/
theorem analyzeLink_result_witness :
    ∃ res, FresnelCalculator.analyzeLink (some Sample.linkAB) = .ok res ∧
      res.wavelength = 3e8 / (((5 : ℚ) : ℝ) * 1e9) ∧
      res.midpoint = ((Sample.towerA.lat + Sample.towerB.lat) / 2,
        (Sample.towerA.lng + Sample.towerB.lng) / 2) := by
  obtain ⟨res, h1, -, h3, -, -, -, -, h8⟩ :=
    analyzeLink_result Sample.linkAB Sample.towerA Sample.towerB 5 rfl rfl rfl (by norm_num)
  exact ⟨res, h1, h3, h8⟩

/-- Claim C22: the profile of every successful `analyzeLink` has exactly 25
samples, and the sample of index `i`, with `f = i / 24`, lies at the distance
`D * f` from the start, at the latitude and longitude interpolated linearly
between the two towers, and has the radius
`calculateFresnelRadius(wavelength, D * f, D * (1 - f))`, where `D` is the
distance of the analysis. -/
theorem analyzeLink_profile_samples (link : Option FresnelCalculator.LinkArg)
    (res : FresnelCalculator.Analysis) (h : FresnelCalculator.analyzeLink link = .ok res) :
    res.points.length = 25 ∧
      ∃ l f t, link = some l ∧ l.fromTower = some f ∧ l.toTower = some t ∧
        ∀ i : ℕ, i ≤ 24 → ∃ p, res.points[i]? = some p ∧
          p.distanceFromStart = res.distance * ((i : ℝ) / 24) ∧
          p.lat = f.lat + (t.lat - f.lat) * ((i : ℝ) / 24) ∧
          p.lng = f.lng + (t.lng - f.lng) * ((i : ℝ) / 24) ∧
          p.radius = FresnelCalculator.calculateFresnelRadius res.wavelength
            (res.distance * ((i : ℝ) / 24)) (res.distance * (1 - (i : ℝ) / 24)) := by
  obtain ⟨l, f, t, hl, hf, ht, -, -, -, -, -, -, hpts⟩ :=
    FresnelCalculator.analyzeLink_ok_inv h
  refine ⟨?_, l, f, t, hl, hf, ht, ?_⟩
  · rw [hpts]; simp [FresnelCalculator.calculateFresnelPoints]
  · intro i hi
    obtain ⟨p, hp, hr, hd, hlat, hlng⟩ :=
      FresnelCalculator.calculateFresnelPoints_getElem? f t res.wavelength res.distance i hi
    exact ⟨p, hpts ▸ hp, hd, hlat, hlng, hr⟩

/-- Witness of claim C22: the sample of index 6 of the sample link from `A` to
`B`. -/
theorem analyzeLink_profile_samples_witness :
    ∃ res, FresnelCalculator.analyzeLink (some Sample.linkAB) = .ok res ∧
      res.points.length = 25 ∧
      ∃ p, res.points[6]? = some p ∧
        p.distanceFromStart = res.distance * (((6 : ℕ) : ℝ) / 24) := by
  obtain ⟨res, hres, -⟩ :=
    FresnelCalculator.analyzeLink_isOk Sample.linkAB Sample.towerA Sample.towerB
      rfl rfl rfl rfl
  obtain ⟨hlen, l, f, t, -, -, -, hall⟩ := analyzeLink_profile_samples _ res hres
  obtain ⟨p, hp, hd, -⟩ := hall 6 (by norm_num)
  exact ⟨res, hres, hlen, p, hp, hd⟩

/-! ## Selection -/

/-- Claim C23: for a tower object `t`, `selectTower(t)` leaves a selected tower
with the id of `t`, changes nothing at all when the selected tower already has
that id, and never changes the selected link, the tower list or the link list;
for a link object `l`, `selectLink(l)` leaves a selected link with the id of `l`,
changes nothing at all when the selected link already has that id, and never
changes the selected tower. -/
theorem select_single_selection (s : RFLinkPlanner.State) (t l : RFLinkPlanner.Ref) :
    (∃ r, (TowerManager.selectTower s (some t)).selectedTower = some r ∧
        (s.towerObj r).id = (s.towerObj t).id) ∧
      (∀ cur, s.selectedTower = some cur → (s.towerObj cur).id = (s.towerObj t).id →
        TowerManager.selectTower s (some t) = s) ∧
      (TowerManager.selectTower s (some t)).selectedLink = s.selectedLink ∧
      (TowerManager.selectTower s (some t)).towers = s.towers ∧
      (TowerManager.selectTower s (some t)).links = s.links ∧
      (∃ r, (LinkManager.selectLink s (some l)).selectedLink = some r ∧
        (s.linkObj r).id = (s.linkObj l).id) ∧
      (∀ cur, s.selectedLink = some cur → (s.linkObj cur).id = (s.linkObj l).id →
        LinkManager.selectLink s (some l) = s) ∧
      (LinkManager.selectLink s (some l)).selectedTower = s.selectedTower := by
  obtain ⟨-, -, -, -, t5, t6, t7, -⟩ := TowerManager.selectTower_frame s (some t)
  obtain ⟨-, -, -, -, -, -, l7, -⟩ := LinkManager.selectLink_frame s (some l)
  refine ⟨?_, ?_, t7, t5, t6, ?_, ?_, l7⟩
  · simp only [TowerManager.selectTower, TowerManager.deselectTower]
    cases hsel : s.selectedTower with
    | none => exact ⟨t, rfl, rfl⟩
    | some cur =>
      by_cases hid : (s.towerObj cur).id = (s.towerObj t).id
      · exact ⟨cur, by simp [hid, hsel], hid⟩
      · exact ⟨t, by simp [hid], rfl⟩
  · intro cur hsel hid
    simp [TowerManager.selectTower, hsel, hid]
  · simp only [LinkManager.selectLink, LinkManager.deselectLink]
    cases hsel : s.selectedLink with
    | none => exact ⟨l, rfl, rfl⟩
    | some cur =>
      by_cases hid : (s.linkObj cur).id = (s.linkObj l).id
      · exact ⟨cur, by simp [hid, hsel], hid⟩
      · exact ⟨l, by simp [hid], rfl⟩
  · intro cur hsel hid
    simp [LinkManager.selectLink, hsel, hid]

/-- Witness of claim C23: in the sample session, where tower `E` is selected,
`selectTower(E)` changes nothing. -/
theorem select_single_selection_witness :
    TowerManager.selectTower Sample.session (some 4) = Sample.session :=
  (select_single_selection Sample.session 4 0).2.1 4 rfl rfl

/-! ## Updating and creating a tower -/

namespace TowerManager

open RFLinkPlanner

/-- The method `updateTower` on a found tower returns it and leaves it with the
assigned fields. -/
theorem updateTower_found (s : State) (towerId : Ident) (updates : Updates) (r : Ref)
    (h : s.towers.find? (fun t => decide ((s.towerObj t).id = towerId)) = some r) :
    (updateTower s towerId updates).1 = some r ∧
      (updateTower s towerId updates).2.towerObj r = assign (s.towerObj r) updates ∧
      ∀ x, x ≠ r → (updateTower s towerId updates).2.towerObj x = s.towerObj x := by
  obtain ⟨u1, -⟩ :=
    LinkManager.updateLinksForTower_spec (storeTower s r (assign (s.towerObj r) updates)) r
  simp only [updateTower, h]
  split
  · refine ⟨rfl, ?_, ?_⟩
    · simp only [u1]; simp [storeTower]
    · intro x hx; simp only [u1]; simp [storeTower, Function.update_noteq hx]
  · refine ⟨rfl, ?_, ?_⟩
    · simp [storeTower]
    · intro x hx; simp [storeTower, Function.update_noteq hx]

/-- The method `updateTower` on an id that no listed tower has returns `null` and
changes nothing. -/
theorem updateTower_unknown (s : State) (towerId : Ident) (updates : Updates)
    (h : ∀ t ∈ s.towers, (s.towerObj t).id ≠ towerId) :
    updateTower s towerId updates = (none, s) := by
  have hfind : s.towers.find? (fun t => decide ((s.towerObj t).id = towerId)) = none := by
    rw [List.find?_eq_none]
    intro t ht
    simpa using h t ht
  simp only [updateTower, hfind]

/-- The method `deleteTower` on an id that no listed tower has returns `false`
and changes nothing. -/
theorem deleteTower_unknown (s : State) (towerId : Ident)
    (h : ∀ t ∈ s.towers, (s.towerObj t).id ≠ towerId) :
    deleteTower s towerId = (false, s) := by
  have hfind : s.towers.find? (fun t => decide ((s.towerObj t).id = towerId)) = none := by
    rw [List.find?_eq_none]
    intro t ht
    simpa using h t ht
  have hidx : s.towers.findIdx? (fun t => decide ((s.towerObj t).id = towerId)) = none := by
    rw [List.findIdx?_eq_none_iff]
    intro t ht
    simpa using h t ht
  simp only [deleteTower, hfind, hidx]

end TowerManager

namespace LinkManager

open RFLinkPlanner

/-- The method `deleteLink` on an id that no listed link has returns `false` and
changes nothing. -/
theorem deleteLink_unknown (s : State) (linkId : Ident)
    (h : ∀ l ∈ s.links, (s.linkObj l).id ≠ linkId) :
    deleteLink s linkId = (false, s) := by
  have hfind : s.links.findIdx? (fun l => decide ((s.linkObj l).id = linkId)) = none := by
    rw [List.findIdx?_eq_none_iff]
    intro l hl
    simpa using h l hl
  simp only [deleteLink, hfind]

/-- A throwing `createLink` changes nothing. -/
theorem createLink_error_state (s s1 : State) (f t : Option Ref) (now : Nat)
    (err : LinkError) (h : createLink s f t now = (.error err, s1)) : s1 = s := by
  cases hv : TowerManager.validateTowerConnection s f t with
  | invalid reason =>
    rw [createLink_invalid s f t now reason hv] at h
    simp only [Prod.mk.injEq] at h
    exact h.2.symm
  | valid =>
    obtain ⟨a, b, rfl, rfl⟩ := TowerManager.validateTowerConnection_valid_some s f t hv
    rw [createLink_valid s a b now hv] at h
    simp at h

end LinkManager

/-- For a tower `t` of the registry, `updateTower(t.id, updates)` updates and
returns the first listed tower with the id of `t`, which is `t` itself when the
ids of the registry are pairwise distinct. On that tower, a blank frequency
(empty string or `null`) gives `NaN`, a blank height leaves the height as it was,
a given frequency is assigned, a given height is assigned after `parseInt`, and
the id and every field left out of the updates are unchanged; every other tower
object is unchanged. -/
theorem updateTower_normalizes (s : RFLinkPlanner.State) (t : RFLinkPlanner.Ref)
    (updates : TowerManager.Updates) (ht : t ∈ s.towers) :
    ∃ r, s.towers.find? (fun u => decide ((s.towerObj u).id = (s.towerObj t).id)) = some r ∧
      (TowerManager.updateTower s (s.towerObj t).id updates).1 = some r ∧
      ((TowerManager.towerIds s).Nodup → r = t) ∧
      ((TowerManager.updateTower s (s.towerObj t).id updates).2.towerObj r).id =
        (s.towerObj t).id ∧
      (updates.frequency = .null →
        ((TowerManager.updateTower s (s.towerObj t).id updates).2.towerObj r).frequency =
          .nan) ∧
      (updates.height = .null →
        ((TowerManager.updateTower s (s.towerObj t).id updates).2.towerObj r).height =
          (s.towerObj r).height) ∧
      (∀ x, updates.frequency = .value x →
        ((TowerManager.updateTower s (s.towerObj t).id updates).2.towerObj r).frequency = x) ∧
      (∀ x, updates.height = .value x →
        ((TowerManager.updateTower s (s.towerObj t).id updates).2.towerObj r).height =
          x.parseInt) ∧
      (updates.frequency = .undefined →
        ((TowerManager.updateTower s (s.towerObj t).id updates).2.towerObj r).frequency =
          (s.towerObj r).frequency) ∧
      (updates.height = .undefined →
        ((TowerManager.updateTower s (s.towerObj t).id updates).2.towerObj r).height =
          (s.towerObj r).height) ∧
      (updates.name = none →
        ((TowerManager.updateTower s (s.towerObj t).id updates).2.towerObj r).name =
          (s.towerObj r).name) ∧
      (updates.lat = none →
        ((TowerManager.updateTower s (s.towerObj t).id updates).2.towerObj r).lat =
          (s.towerObj r).lat) ∧
      (updates.lng = none →
        ((TowerManager.updateTower s (s.towerObj t).id updates).2.towerObj r).lng =
          (s.towerObj r).lng) ∧
      (∀ x, x ≠ r →
        (TowerManager.updateTower s (s.towerObj t).id updates).2.towerObj x =
          s.towerObj x) := by
  obtain ⟨r, hfind, hrmem, hrid⟩ := TowerManager.find?_tower_of_mem s t ht
  obtain ⟨h1, h2, h3⟩ := TowerManager.updateTower_found s (s.towerObj t).id updates r hfind
  refine ⟨r, hfind, h1, ?_, ?_, ?_, ?_, ?_, ?_, ?_, ?_, ?_, ?_, ?_, h3⟩
  · intro hnd
    exact List.inj_on_of_nodup_map hnd hrmem ht hrid
  · rw [h2]; simpa [TowerManager.assign] using hrid
  · intro h; rw [h2]; simp [TowerManager.assign, TowerManager.updateFrequency, h]
  · intro h; rw [h2]; simp [TowerManager.assign, TowerManager.updateHeight, h]
  · intro x h; rw [h2]; simp [TowerManager.assign, TowerManager.updateFrequency, h]
  · intro x h; rw [h2]; simp [TowerManager.assign, TowerManager.updateHeight, h]
  · intro h; rw [h2]; simp [TowerManager.assign, TowerManager.updateFrequency, h]
  · intro h; rw [h2]; simp [TowerManager.assign, TowerManager.updateHeight, h]
  · intro h; rw [h2]; simp [TowerManager.assign, h]
  · intro h; rw [h2]; simp [TowerManager.assign, h]
  · intro h; rw [h2]; simp [TowerManager.assign, h]

/-- Claim C24, the code at the failing input: the two towers of
`Sample.twinTuned` were created in the same millisecond and carry the same id.
`updateTower` with that id and a blank frequency updates and returns the first
one; the second one, a tower of the registry with that id, keeps the frequency 5
instead of taking `NaN`. -/
theorem updateTower_twin_untouched :
    1 ∈ Sample.twinTuned.towers ∧
      (Sample.twinTuned.towerObj 1).id = .tower 1000 ∧
      (TowerManager.updateTower Sample.twinTuned (Sample.twinTuned.towerObj 1).id
        .blankFrequency).1 = some 0 ∧
      ((TowerManager.updateTower Sample.twinTuned (Sample.twinTuned.towerObj 1).id
        .blankFrequency).2.towerObj 0).frequency = .nan ∧
      ((TowerManager.updateTower Sample.twinTuned (Sample.twinTuned.towerObj 1).id
        .blankFrequency).2.towerObj 1).frequency = .fin 5 ∧
      ((TowerManager.updateTower Sample.twinTuned (Sample.twinTuned.towerObj 1).id
        .blankFrequency).2.towerObj 1).frequency ≠ .nan := by
  have h : ((TowerManager.updateTower Sample.twinTuned (Sample.twinTuned.towerObj 1).id
      .blankFrequency).2.towerObj 1).frequency = .fin 5 := rfl
  rw [h]
  exact ⟨by decide, rfl, rfl, rfl, rfl, by decide⟩

/-- Claim C25, as amended: `createTower(lat, lng)` with name, frequency and height
left out returns a new tower, appended to the list, at `(lat, lng)`, whose id is
built from the clock value, whose name is "Tower k" with `k` one more than the
number of towers already listed, whose height is 30, and whose frequency is the
default 5.0 of the parameter, not the unset sentinel. -/
theorem createTower_defaults (s : RFLinkPlanner.State) (lat lng : ℝ) (now : Nat) :
    (TowerManager.createTower s lat lng .undefined .undefined .undefined now).1 =
        s.nextTower ∧
      (TowerManager.createTower s lat lng .undefined .undefined .undefined now).2.towers =
        s.towers ++ [s.nextTower] ∧
      (TowerManager.createTower s lat lng .undefined .undefined .undefined now).2.towerObj
          s.nextTower =
        ⟨.tower now, lat, lng, "Tower " ++ toString (s.towers.length + 1), .fin 5, .fin 30⟩ := by
  refine ⟨rfl, TowerManager.createTower_towers s lat lng _ _ _ now, ?_⟩
  simp only [TowerManager.createTower, TowerManager.selectTower_towerObj]
  simp [TowerManager.towerName, TowerManager.towerFrequency, TowerManager.towerHeight]

/-- Claim C25 refuted as stated: the first tower of a fresh planner, created with
name, frequency and height left out, has the frequency 5, which is not the unset
sentinel `NaN`. -/
theorem createTower_default_frequency_counterexample :
    ((TowerManager.createTower RFLinkPlanner.State.init 12.97 77.59 .undefined .undefined
        .undefined 1000).2.towerObj 0).frequency = .fin 5 ∧
      ((TowerManager.createTower RFLinkPlanner.State.init 12.97 77.59 .undefined .undefined
        .undefined 1000).2.towerObj 0).frequency.isNaN = false := by
  exact ⟨rfl, rfl⟩

/-- Claim C26: a `createLink` that throws leaves the state as it was, and
`updateTower`, `deleteTower` and `deleteLink` on an id that no listed tower or
link has return `null`, `false` and `false` without throwing and leave the state
as it was: tower list, link list, both selections and the pending link. -/
theorem failing_mutation_changes_nothing (s : RFLinkPlanner.State) :
    (∀ f t now err s1, LinkManager.createLink s f t now = (.error err, s1) → s1 = s) ∧
      (∀ f t now reason, TowerManager.validateTowerConnection s f t = .invalid reason →
        LinkManager.createLink s f t now = (.error (.validation reason), s)) ∧
      (∀ towerId updates, (∀ t ∈ s.towers, (s.towerObj t).id ≠ towerId) →
        TowerManager.updateTower s towerId updates = (none, s)) ∧
      (∀ towerId, (∀ t ∈ s.towers, (s.towerObj t).id ≠ towerId) →
        TowerManager.deleteTower s towerId = (false, s)) ∧
      (∀ linkId, (∀ l ∈ s.links, (s.linkObj l).id ≠ linkId) →
        LinkManager.deleteLink s linkId = (false, s)) :=
  ⟨fun f t now err s1 h => LinkManager.createLink_error_state s s1 f t now err h,
    fun f t now reason h => LinkManager.createLink_invalid s f t now reason h,
    fun towerId updates h => TowerManager.updateTower_unknown s towerId updates h,
    fun towerId h => TowerManager.deleteTower_unknown s towerId h,
    fun linkId h => LinkManager.deleteLink_unknown s linkId h⟩

/-- Witness of claim C26: in the sample session no tower has the id built from
the clock value 9999, and `deleteTower` on that id changes nothing. -/
theorem failing_mutation_changes_nothing_witness :
    TowerManager.deleteTower Sample.session (.tower 9999) = (false, Sample.session) :=
  (failing_mutation_changes_nothing Sample.session).2.2.2.1 (.tower 9999) (by decide)

/-! ## Selections without an import -/

namespace LinkManager

open RFLinkPlanner

/-- The method `deleteLink` keeps a listed selected link listed, or drops the
selection. -/
theorem deleteLink_selectedLink_listed (s : State) (linkId : Ident)
    (h : ∀ l, s.selectedLink = some l → l ∈ s.links) :
    ∀ l, (deleteLink s linkId).2.selectedLink = some l → l ∈ (deleteLink s linkId).2.links := by
  cases hidx : s.links.findIdx? (fun l => decide ((s.linkObj l).id = linkId)) with
  | none =>
    simp only [deleteLink, hidx]
    exact h
  | some idx =>
    have he := eraseIdx_of_findIdx? _ _ _ hidx
    cases hsel : s.selectedLink with
    | none =>
      simp only [deleteLink, hidx, hsel]
      intro l hl
      simp at hl
    | some cur =>
      by_cases hid : (s.linkObj cur).id = linkId
      · simp only [deleteLink, hidx, hsel, hid, if_true, deselectLink]
        intro l hl
        simp at hl
      · simp only [deleteLink, hidx, hsel, hid, if_false, he]
        intro l hl
        simp only [Option.some.injEq] at hl
        subst hl
        exact (List.mem_eraseP_of_neg (by simpa using hid)).mpr (h cur hsel)

/-- The loop of `removeLinksForTower` keeps a listed selected link listed, or
drops the selection. -/
theorem deleteLink_foldl_selectedLink_listed (R : List Ref) :
    ∀ st : State, (∀ l, st.selectedLink = some l → l ∈ st.links) →
      ∀ l, (R.foldl (fun st l => (deleteLink st (st.linkObj l).id).2) st).selectedLink = some l →
        l ∈ (R.foldl (fun st l => (deleteLink st (st.linkObj l).id).2) st).links := by
  induction R with
  | nil => intro st h; exact h
  | cons a as ih =>
    intro st h
    simp only [List.foldl_cons]
    exact ih _ (deleteLink_selectedLink_listed st _ h)

end LinkManager

namespace TowerManager

open RFLinkPlanner

/-- The tower selected after `selectTower(t)` is `t` or the tower selected
before. -/
theorem selectTower_selected (s : State) (t : Ref) :
    (selectTower s (some t)).selectedTower = some t ∨
      (selectTower s (some t)).selectedTower = s.selectedTower := by
  simp only [selectTower, deselectTower]
  cases hsel : s.selectedTower with
  | none => left; rfl
  | some cur =>
    by_cases hid : (s.towerObj cur).id = (s.towerObj t).id
    · right; simp [hid, hsel]
    · left; simp [hid]

end TowerManager

namespace LinkManager

open RFLinkPlanner

/-- The link selected after `selectLink(l)` is `l` or the link selected before. -/
theorem selectLink_selected (s : State) (l : Ref) :
    (selectLink s (some l)).selectedLink = some l ∨
      (selectLink s (some l)).selectedLink = s.selectedLink := by
  simp only [selectLink, deselectLink]
  cases hsel : s.selectedLink with
  | none => left; rfl
  | some cur =>
    by_cases hid : (s.linkObj cur).id = (s.linkObj l).id
    · right; simp [hid, hsel]
    · left; simp [hid]

end LinkManager

namespace TowerManager

open RFLinkPlanner

/-- The method `createTower` keeps the selections listed. -/
theorem createTower_selectionsListed (s : State) (lat lng : ℝ) (name : Arg String)
    (frequency height : Arg JSNumber) (now : Nat) (h : SelectionsListed s) :
    SelectionsListed (createTower s lat lng name frequency height now).2 := by
  have htw := createTower_towers s lat lng name frequency height now
  simp only [createTower] at htw ⊢
  generalize hs1 : ({ s with
      towerObj := Function.update s.towerObj s.nextTower
        ⟨.tower now, lat, lng, towerName s name, towerFrequency frequency, towerHeight height⟩,
      nextTower := s.nextTower + 1,
      towers := s.towers ++ [s.nextTower] } : State) = s1 at htw ⊢
  have e1 : s1.selectedTower = s.selectedTower := by rw [← hs1]
  have e2 : s1.selectedLink = s.selectedLink := by rw [← hs1]
  have e3 : s1.links = s.links := by rw [← hs1]
  obtain ⟨-, -, -, -, -, f6, f7, -⟩ := selectTower_frame s1 (some s.nextTower)
  constructor
  · intro r hr
    rw [htw]
    rcases selectTower_selected s1 s.nextTower with hsel | hsel
    · rw [hsel] at hr
      simp only [Option.some.injEq] at hr
      subst hr
      simp
    · rw [hsel, e1] at hr
      exact List.mem_append_left _ (h.1 r hr)
  · intro l hl
    rw [f7, e2] at hl
    rw [f6, e3]
    exact h.2 l hl

/-- The method `updateTower` keeps the selections listed. -/
theorem updateTower_selectionsListed (s : State) (towerId : Ident) (updates : Updates)
    (h : SelectionsListed s) : SelectionsListed (updateTower s towerId updates).2 := by
  unfold updateTower
  split
  · exact h
  · rename_i r _
    obtain ⟨-, -, -, u4, u5, u6, u7, -, -⟩ :=
      LinkManager.updateLinksForTower_spec (storeTower s r (assign (s.towerObj r) updates)) r
    split
    · constructor
      · intro x hx
        simp only [u6] at hx
        simp only [u4]
        exact h.1 x hx
      · intro l hl
        simp only [u7] at hl
        simp only [u5]
        exact h.2 l hl
    · exact h

/-- The method `deleteTower` keeps the selections listed. -/
theorem deleteTower_selectionsListed (s : State) (towerId : Ident)
    (h : SelectionsListed s) : SelectionsListed (deleteTower s towerId).2 := by
  cases hidx : s.towers.findIdx? (fun t => decide ((s.towerObj t).id = towerId)) with
  | none => simp only [deleteTower, hidx]; exact h
  | some idx =>
    cases hfind : s.towers.find? (fun t => decide ((s.towerObj t).id = towerId)) with
    | none => simp only [deleteTower, hidx, hfind]; exact h
    | some tower =>
      obtain ⟨hstores, -, -, htw, hsel⟩ :=
        LinkManager.deleteLink_foldl_frame (LinkManager.getLinksForTower s tower) s
      have hlinks := LinkManager.deleteLink_foldl_selectedLink_listed
        (LinkManager.getLinksForTower s tower) s h.2
      have hto : (LinkManager.removeLinksForTower s tower).towerObj = s.towerObj := hstores.1
      have htw1 : (LinkManager.removeLinksForTower s tower).towers = s.towers := htw
      have hsel1 : (LinkManager.removeLinksForTower s tower).selectedTower =
          s.selectedTower := hsel
      have hlinks1 : ∀ l, (LinkManager.removeLinksForTower s tower).selectedLink = some l →
          l ∈ (LinkManager.removeLinksForTower s tower).links := hlinks
      have he : s.towers.eraseIdx idx =
          s.towers.eraseP (fun t => decide ((s.towerObj t).id = towerId)) :=
        LinkManager.eraseIdx_of_findIdx? _ _ _ hidx
      cases hcur : s.selectedTower with
      | none =>
        simp only [deleteTower, hidx, hfind, hsel1, hcur]
        exact ⟨fun r hr => by simp [hsel1, hcur] at hr, hlinks1⟩
      | some cur =>
        by_cases hid : (s.towerObj cur).id = towerId
        · simp only [deleteTower, hidx, hfind, hsel1, hcur, hto, hid, if_true, deselectTower]
          exact ⟨fun r hr => by simp at hr, hlinks1⟩
        · simp only [deleteTower, hidx, hfind, hsel1, hcur, hto, hid, if_false]
          refine ⟨?_, hlinks1⟩
          intro r hr
          simp only [hsel1, hcur, Option.some.injEq] at hr
          subst hr
          simp only [htw1, he]
          exact (List.mem_eraseP_of_neg (by simpa using hid)).mpr (h.1 cur hcur)

end TowerManager

namespace LinkManager

open RFLinkPlanner

/-- The method `createLink` keeps the selections listed. -/
theorem createLink_selectionsListed (s : State) (f t : Option Ref) (now : Nat)
    (h : SelectionsListed s) : SelectionsListed (createLink s f t now).2 := by
  cases hv : TowerManager.validateTowerConnection s f t with
  | invalid reason =>
    rw [createLink_invalid s f t now reason hv]
    exact h
  | valid =>
    obtain ⟨a, b, rfl, rfl⟩ := TowerManager.validateTowerConnection_valid_some s f t hv
    rw [createLink_valid s a b now hv]
    obtain ⟨-, -, -, -, f5, f6, f7, -⟩ := selectLink_frame (pushLink s a b now) (some s.nextLink)
    constructor
    · intro r hr
      simp only [f7] at hr
      simp only [f5]
      exact h.1 r hr
    · intro l hl
      simp only [f6]
      rcases selectLink_selected (pushLink s a b now) s.nextLink with hsel | hsel
      · rw [hsel] at hl
        simp only [Option.some.injEq] at hl
        subst hl
        simp [pushLink]
      · rw [hsel] at hl
        exact List.mem_append_left _ (h.2 l hl)

/-- The method `deleteLink` keeps the selections listed. -/
theorem deleteLink_selectionsListed (s : State) (linkId : Ident)
    (h : SelectionsListed s) : SelectionsListed (deleteLink s linkId).2 := by
  obtain ⟨-, -, -, -, d5, d6, -, -⟩ := deleteLink_spec s linkId
  refine ⟨?_, deleteLink_selectedLink_listed s linkId h.2⟩
  intro r hr
  rw [d6] at hr
  rw [d5]
  exact h.1 r hr

end LinkManager

namespace RFLinkPlanner

/-- Every operation other than the import keeps the selections listed. -/
theorem run_selectionsListed (s : State) (a : Action) (ha : a.isLocalOperation)
    (h : SelectionsListed s) : SelectionsListed (run s a) := by
  cases a with
  | createTower lat lng name frequency height now =>
    exact TowerManager.createTower_selectionsListed s lat lng name frequency height now h
  | updateTower towerId updates =>
    exact TowerManager.updateTower_selectionsListed s towerId updates h
  | deleteTower towerId => exact TowerManager.deleteTower_selectionsListed s towerId h
  | createLink fromTower toTower now =>
    exact LinkManager.createLink_selectionsListed s fromTower toTower now h
  | deleteLink linkId => exact LinkManager.deleteLink_selectionsListed s linkId h
  | clearAll =>
    constructor
    · intro r hr
      simp [run, clearAll, LinkManager.cancelTempLink, LinkManager.clearAllLinks,
        TowerManager.clearAllTowers] at hr
    · intro l hl
      simp [run, clearAll, LinkManager.cancelTempLink, LinkManager.clearAllLinks,
        TowerManager.clearAllTowers] at hl
  | startTempLink _ => exact absurd ha (by simp [Action.isLocalOperation])
  | completeTempLink _ _ => exact absurd ha (by simp [Action.isLocalOperation])
  | cancelTempLink => exact absurd ha (by simp [Action.isLocalOperation])
  | selectTower _ => exact absurd ha (by simp [Action.isLocalOperation])
  | selectLink _ => exact absurd ha (by simp [Action.isLocalOperation])
  | importProject _ _ => exact absurd ha (by simp [Action.isLocalOperation])

/-- In every state reached from a fresh planner by `createTower`, `updateTower`,
`deleteTower`, `createLink`, `deleteLink` and `clearAll`, without an import, the
selected tower is none or a listed tower and the selected link is none or a
listed link. -/
theorem reachable_selectionsListed_of_local (s : State)
    (h : ReachableBy Action.isLocalOperation s) : SelectionsListed s := by
  induction h with
  | init =>
    constructor
    · intro r hr; simp [State.init] at hr
    · intro l hl; simp [State.init] at hl
  | step s a _ hallowed _ ih => exact run_selectionsListed s a hallowed ih

end RFLinkPlanner

/-! ## Selections after an import -/

/-- Claim C27, the code at the failing input: two towers are created and linked,
so that the second tower and the link are selected, and a project is imported.
With a blob of two towers and no link, the link list ends empty and the selected
link is still the old link; with an empty blob, the tower list ends empty as well
and the selected tower is still the old tower. Both states are reached by
`createTower`, `createLink` and the import alone. -/
theorem importProject_leaves_selection_dangling :
    RFLinkPlanner.ReachableBy RFLinkPlanner.Action.isSessionOperation
        (RFLinkPlanner.run Sample.linkedSession Sample.importTowersOnly) ∧
      (RFLinkPlanner.run Sample.linkedSession Sample.importTowersOnly).selectedLink =
        some 0 ∧
      (RFLinkPlanner.run Sample.linkedSession Sample.importTowersOnly).links = [] ∧
      ¬ RFLinkPlanner.SelectionsListed
        (RFLinkPlanner.run Sample.linkedSession Sample.importTowersOnly) ∧
      RFLinkPlanner.ReachableBy RFLinkPlanner.Action.isSessionOperation
        (RFLinkPlanner.run Sample.linkedSession Sample.importEmpty) ∧
      (RFLinkPlanner.run Sample.linkedSession Sample.importEmpty).selectedTower = some 1 ∧
      (RFLinkPlanner.run Sample.linkedSession Sample.importEmpty).towers = [] ∧
      ¬ RFLinkPlanner.SelectionsListed
        (RFLinkPlanner.run Sample.linkedSession Sample.importEmpty) := by
  have hreach := Sample.linkedSession_reachable RFLinkPlanner.Action.isSessionOperation
    trivial trivial trivial
  have h1 : (RFLinkPlanner.run Sample.linkedSession Sample.importTowersOnly).selectedLink =
      some 0 := rfl
  have h2 : (RFLinkPlanner.run Sample.linkedSession Sample.importTowersOnly).links = [] := rfl
  have h3 : (RFLinkPlanner.run Sample.linkedSession Sample.importEmpty).selectedTower =
      some 1 := rfl
  have h4 : (RFLinkPlanner.run Sample.linkedSession Sample.importEmpty).towers = [] := rfl
  refine ⟨RFLinkPlanner.ReachableBy.step _ _ hreach trivial trivial, h1, h2, ?_,
    RFLinkPlanner.ReachableBy.step _ _ hreach trivial trivial, h3, h4, ?_⟩
  · intro h
    have := h.2 0 h1
    rw [h2] at this
    simp at this
  · intro h
    have := h.1 1 h3
    rw [h4] at this
    simp at this

/-! ## The common frequency of linked towers -/

namespace RFLinkPlanner

/-- An operation admitted by `keepsLinkedFrequency` is a link-editing operation. -/
theorem Action.keepsLinkedFrequency_isLinkEditing {s : State} {a : Action}
    (h : a.keepsLinkedFrequency s) : a.isLinkEditing := by
  cases a <;> simp_all [Action.keepsLinkedFrequency, Action.isLinkEditing]

/-- An `updateTower` that leaves the frequency of the tower it finds as it is, or
finds a tower of no listed link, keeps the common frequency of every link. -/
theorem updateTower_commonFrequency (s : State) (towerId : Ident)
    (updates : TowerManager.Updates) (hwf : s.WellFormed) (hinv : CommonFrequency s)
    (hk : (Action.updateTower towerId updates).keepsLinkedFrequency s) :
    CommonFrequency (TowerManager.updateTower s towerId updates).2 := by
  cases hfind : s.towers.find? (fun t => decide ((s.towerObj t).id = towerId)) with
  | none =>
    simp only [TowerManager.updateTower, hfind]
    exact hinv
  | some r =>
    obtain ⟨-, hr, hothers⟩ := TowerManager.updateTower_found s towerId updates r hfind
    obtain ⟨hframe, -, hlinks, -⟩ := TowerManager.updateTower_frame s towerId updates
    have hfreq : ∀ l ∈ s.links, ∀ x, (x = (s.linkObj l).fromTower ∨ x = (s.linkObj l).toTower) →
        ((TowerManager.updateTower s towerId updates).2.towerObj x).frequency =
          (s.towerObj x).frequency := by
      intro l hl x hx
      by_cases hxr : x = r
      · rw [hxr, hr]
        rcases hk r hfind with h | h
        · exact h
        · exfalso
          rcases hx with hx | hx
          · exact (h l hl).1 (hx ▸ hxr)
          · exact (h l hl).2 (hx ▸ hxr)
      · rw [hothers x hxr]
    intro l hl
    rw [hlinks] at hl
    obtain ⟨hl1, -, -⟩ := hwf.1 l hl
    obtain ⟨e1, e2⟩ := hframe.2.2.2 l hl1
    rw [e1, e2, hfreq l hl _ (Or.inl rfl), hfreq l hl _ (Or.inr rfl)]
    exact hinv l hl

/-- One operation admitted by `keepsLinkedFrequency` keeps the common frequency
of every link. -/
theorem run_commonFrequency (s : State) (a : Action) (hwf : s.WellFormed)
    (hinv : CommonFrequency s) (ha : a.wellFormed s) (hk : a.keepsLinkedFrequency s) :
    CommonFrequency (run s a) := by
  have hstep := run_step s a hwf ha (Action.keepsLinkedFrequency_isLinkEditing hk)
  cases a with
  | updateTower towerId updates =>
    exact updateTower_commonFrequency s towerId updates hwf hinv hk
  | createTower lat lng name frequency height now =>
    exact commonFrequency_step hwf hinv hstep.1 (run_frameFrequency s _ ha trivial) hstep.2.2
  | deleteTower towerId =>
    exact commonFrequency_step hwf hinv hstep.1 (run_frameFrequency s _ ha trivial) hstep.2.2
  | createLink fromTower toTower now =>
    exact commonFrequency_step hwf hinv hstep.1 (run_frameFrequency s _ ha trivial) hstep.2.2
  | deleteLink linkId =>
    exact commonFrequency_step hwf hinv hstep.1 (run_frameFrequency s _ ha trivial) hstep.2.2
  | startTempLink _ => exact absurd hk (by simp [Action.keepsLinkedFrequency])
  | completeTempLink _ _ => exact absurd hk (by simp [Action.keepsLinkedFrequency])
  | cancelTempLink => exact absurd hk (by simp [Action.keepsLinkedFrequency])
  | selectTower _ => exact absurd hk (by simp [Action.keepsLinkedFrequency])
  | selectLink _ => exact absurd hk (by simp [Action.keepsLinkedFrequency])
  | importProject _ _ => exact absurd hk (by simp [Action.keepsLinkedFrequency])
  | clearAll => exact absurd hk (by simp [Action.keepsLinkedFrequency])

end RFLinkPlanner

/-- Claim C8, as amended: in every state reached from a fresh planner by
`createTower`, `deleteTower`, `createLink`, `deleteLink` and those `updateTower`
calls that find no tower, leave the frequency of the tower they update as it is,
or update a tower that is not one of the two towers of any listed link, every
link of the list joins two towers with strictly equal frequencies. -/
theorem reachable_commonFrequency (s : RFLinkPlanner.State)
    (h : RFLinkPlanner.ReachableWhen RFLinkPlanner.Action.keepsLinkedFrequency s) :
    RFLinkPlanner.CommonFrequency s := by
  have key : s.WellFormed ∧ RFLinkPlanner.CommonFrequency s := by
    induction h with
    | init =>
      exact ⟨RFLinkPlanner.wellFormed_init, by
        intro l hl; simp [RFLinkPlanner.State.init] at hl⟩
    | step s a _ hallowed hwfa ih =>
      obtain ⟨hf, hp, hl⟩ := RFLinkPlanner.run_step s a ih.1 hwfa
        (RFLinkPlanner.Action.keepsLinkedFrequency_isLinkEditing hallowed)
      exact ⟨RFLinkPlanner.wellFormed_step ih.1 hf hp hl,
        RFLinkPlanner.run_commonFrequency s a ih.1 ih.2 hwfa hallowed⟩
  exact key.2

namespace Sample

open RFLinkPlanner

/-- The session `savedSession` is reached by two `createTower` calls, a
`createLink` and an `updateTower` that keeps the frequency of the tower it
updates. -/
theorem savedSession_reachable :
    ReachableWhen Action.keepsLinkedFrequency savedSession := by
  refine ReachableWhen.step _ _ (ReachableWhen.step _ _ (ReachableWhen.step _ _
    (ReachableWhen.step _ _ ReachableWhen.init trivial trivial) trivial trivial) trivial ?_)
    ?_ trivial
  · constructor <;>
    · intro r hr
      simp only [Option.some.injEq] at hr
      subst hr
      decide
  · intro r hr
    have h0 : linkedSession.towers.find?
        (fun t => decide ((linkedSession.towerObj t).id = Ident.tower 1000)) = some 0 := rfl
    rw [h0] at hr
    simp only [Option.some.injEq] at hr
    subst hr
    left
    rfl

end Sample

/-- Witness of claim C8: two towers at 5 GHz are created and linked, and the first
is then saved from the tower form with its frequency unchanged. -/
theorem reachable_commonFrequency_witness :
    RFLinkPlanner.CommonFrequency Sample.savedSession :=
  reachable_commonFrequency Sample.savedSession Sample.savedSession_reachable


/-! ## The profile ends under overflow -/

namespace FresnelCalculator.Double

open RFLinkPlanner (Tower JSNumber)

/-- The constant `Number.MAX_VALUE` is positive. -/
theorem MAX_VALUE_pos : 0 < MAX_VALUE := by
  unfold MAX_VALUE
  norm_num

/-- A result within the range of the finite doubles is kept. -/
theorem ofReal_of_le (x : ℝ) (h1 : -MAX_VALUE ≤ x) (h2 : x ≤ MAX_VALUE) :
    ofReal x = .fin x := by
  unfold ofReal
  rw [if_neg (not_lt.mpr h2), if_neg (not_lt.mpr h1)]

/-- The result 0 is kept. -/
theorem ofReal_zero : ofReal 0 = .fin 0 :=
  ofReal_of_le 0 (by linarith [MAX_VALUE_pos]) MAX_VALUE_pos.le

/-- A finite result is the exact one, and it lies within the range. -/
theorem ofReal_eq_fin {x y : ℝ} (h : ofReal x = .fin y) :
    y = x ∧ -MAX_VALUE ≤ x ∧ x ≤ MAX_VALUE := by
  unfold ofReal at h
  split at h
  · cases h
  · split at h
    · cases h
    · rename_i h2 h1
      injection h with h
      exact ⟨h.symm, not_lt.mp h1, not_lt.mp h2⟩

/-- The radius is `NaN` when the wavelength is infinite and the first distance
is 0 while the second is positive. -/
theorem calculateFresnelRadius_inf_zero (d : ℝ) (hd : 0 < d) (hmax : d ≤ MAX_VALUE) :
    calculateFresnelRadius (.inf false) (.fin 0) (.fin d) = .nan := by
  have hadd : add (.fin 0) (.fin d) = .fin d := by
    simp only [add, zero_add]
    exact ofReal_of_le d (by linarith [MAX_VALUE_pos]) hmax
  simp only [calculateFresnelRadius, hadd, isZero, if_neg (ne_of_gt hd)]
  simp [mul, div, sqrt]

/-- The radius is `NaN` when the wavelength is infinite and the second distance
is 0 while the first is positive. -/
theorem calculateFresnelRadius_inf_zero_right (d : ℝ) (hd : 0 < d) (hmax : d ≤ MAX_VALUE) :
    calculateFresnelRadius (.inf false) (.fin d) (.fin 0) = .nan := by
  have hadd : add (.fin d) (.fin 0) = .fin d := by
    simp only [add, add_zero]
    exact ofReal_of_le d (by linarith [MAX_VALUE_pos]) hmax
  simp only [calculateFresnelRadius, hadd, isZero, if_neg (ne_of_gt hd)]
  simp [mul, div, sqrt, not_lt.mpr hd.le, ne_of_gt hd]

/-- The radius is 0 when both distances are 0, whatever the wavelength. -/
theorem calculateFresnelRadius_zero_zero (w : Num) :
    calculateFresnelRadius w (.fin 0) (.fin 0) = .fin 0 := by
  have hadd : add (.fin 0) (.fin 0) = .fin 0 := by
    simp only [add, add_zero]
    exact ofReal_zero
  simp only [calculateFresnelRadius, hadd, isZero, if_true]

/-- The radius is 0 when the wavelength is finite and the first distance is 0. -/
theorem calculateFresnelRadius_fin_zero (w d : ℝ) (h1 : -MAX_VALUE ≤ d)
    (h2 : d ≤ MAX_VALUE) :
    calculateFresnelRadius (.fin w) (.fin 0) (.fin d) = .fin 0 := by
  have hadd : add (.fin 0) (.fin d) = .fin d := by
    simp only [add, zero_add]
    exact ofReal_of_le d h1 h2
  by_cases hd : d = 0
  · subst hd
    exact calculateFresnelRadius_zero_zero _
  · simp only [calculateFresnelRadius, hadd, isZero, if_neg hd]
    simp [mul, div, sqrt, ofReal_zero, hd]

/-- The radius is 0 when the second distance is 0 and the product of the
wavelength and the first distance is finite. -/
theorem calculateFresnelRadius_fin_zero_right (w d : ℝ) (h1 : -MAX_VALUE ≤ d)
    (h2 : d ≤ MAX_VALUE) (x : ℝ) (hx : mul (.fin w) (.fin d) = .fin x) :
    calculateFresnelRadius (.fin w) (.fin d) (.fin 0) = .fin 0 := by
  have hadd : add (.fin d) (.fin 0) = .fin d := by
    simp only [add, add_zero]
    exact ofReal_of_le d h1 h2
  by_cases hd : d = 0
  · subst hd
    exact calculateFresnelRadius_zero_zero _
  · simp only [calculateFresnelRadius, hadd, isZero, if_neg hd, hx]
    simp [mul, div, sqrt, ofReal_zero, hd]

/-- The profile has 25 samples. -/
theorem calculateFresnelPoints_length (f t : Tower) (w D : Num) :
    (calculateFresnelPoints f t w D).length = 25 := by
  simp [calculateFresnelPoints]

/-- The sample of index `i` of the profile. -/
theorem calculateFresnelPoints_radius (f t : Tower) (w D : Num) (i : ℕ) (hi : i ≤ 24) :
    ∃ p, (calculateFresnelPoints f t w D)[i]? = some p ∧
      p.radius = calculateFresnelRadius w (mul D (.fin ((i : ℝ) / 24)))
        (mul D (.fin (1 - (i : ℝ) / 24))) := by
  have hlt : i < 25 := by omega
  refine ⟨{ lat := f.lat + (t.lat - f.lat) * ((i : ℝ) / 24),
             lng := f.lng + (t.lng - f.lng) * ((i : ℝ) / 24),
             radius := calculateFresnelRadius w (mul D (.fin ((i : ℝ) / 24)))
               (mul D (.fin (1 - (i : ℝ) / 24))),
             distanceFromStart := mul D (.fin ((i : ℝ) / 24)) }, ?_, rfl⟩
  unfold calculateFresnelPoints
  rw [List.getElem?_map, List.getElem?_range hlt]
  simp only [Option.map_some', Nat.cast_ofNat]

/-- The end samples of a profile over a finite distance `d`: their radii are
those of the distances `0, d` and `d, 0`. -/
theorem calculateFresnelPoints_ends (f t : Tower) (w : Num) (d : ℝ)
    (h1 : -MAX_VALUE ≤ d) (h2 : d ≤ MAX_VALUE) :
    ∃ p0 p24, (calculateFresnelPoints f t w (.fin d))[0]? = some p0 ∧
      (calculateFresnelPoints f t w (.fin d))[24]? = some p24 ∧
      p0.radius = calculateFresnelRadius w (.fin 0) (.fin d) ∧
      p24.radius = calculateFresnelRadius w (.fin d) (.fin 0) := by
  obtain ⟨p0, h0, r0⟩ := calculateFresnelPoints_radius f t w (.fin d) 0 (by norm_num)
  obtain ⟨p24, h24, r24⟩ := calculateFresnelPoints_radius f t w (.fin d) 24 (by norm_num)
  refine ⟨p0, p24, h0, h24, ?_, ?_⟩
  · rw [r0]
    simp only [mul, Nat.cast_zero, zero_div, mul_zero, sub_zero, mul_one, ofReal_zero,
      ofReal_of_le d h1 h2]
  · rw [r24]
    have e1 : ((24 : ℕ) : ℝ) / 24 = 1 := by norm_num
    simp only [mul, e1, sub_self, mul_zero, mul_one, ofReal_zero, ofReal_of_le d h1 h2]

/-- A link with both towers and a resolved frequency that is neither `NaN` nor
`<= 0` is analysed, with the wavelength and the profile of the source lines. -/
theorem analyzeLink_double_ok (l : LinkArg) (f t : Tower) (hf : l.fromTower = some f)
    (ht : l.toTower = some t) (hnan : (l.frequency.orElse f.frequency).isNaN = false)
    (hle : (l.frequency.orElse f.frequency).leZero = false) :
    ∃ res, analyzeLink (some l) = .ok res ∧
      res.wavelength = div (.fin SPEED_OF_LIGHT)
        (mul (ofJSNumber (l.frequency.orElse f.frequency)) (.fin 1e9)) ∧
      res.distance = mul (.fin (FresnelCalculator.calculateDistance f t)) (.fin 1000) ∧
      res.points = calculateFresnelPoints f t res.wavelength res.distance := by
  rcases l with ⟨fo, tt, fr⟩
  simp only at hf ht hnan hle
  subst hf ht
  simp [analyzeLink, hnan, hle]

/-- The shape of every successful `analyzeLink`. -/
theorem analyzeLink_double_inv {link : Option LinkArg} {res : Analysis}
    (h : analyzeLink link = .ok res) :
    ∃ l f t, link = some l ∧ l.fromTower = some f ∧ l.toTower = some t ∧
      res.wavelength = div (.fin SPEED_OF_LIGHT)
        (mul (ofJSNumber (l.frequency.orElse f.frequency)) (.fin 1e9)) ∧
      res.distance = mul (.fin (FresnelCalculator.calculateDistance f t)) (.fin 1000) ∧
      res.points = calculateFresnelPoints f t res.wavelength res.distance := by
  cases link with
  | none => simp [analyzeLink] at h
  | some l =>
    rcases l with ⟨fo, tt, fr⟩
    cases fo with
    | none => simp [analyzeLink] at h
    | some f =>
      cases tt with
      | none => simp [analyzeLink] at h
      | some t =>
        simp only [analyzeLink] at h
        split at h
        · simp at h
        · injection h with h
          subst h
          exact ⟨_, f, t, rfl, rfl, rfl, rfl, rfl, rfl⟩

/-- The haversine distance never exceeds `6371 * 8` km in magnitude. -/
theorem calculateDistance_abs_le (t1 t2 : Tower) :
    -(6371 * (2 * 4)) ≤ FresnelCalculator.calculateDistance t1 t2 ∧
      FresnelCalculator.calculateDistance t1 t2 ≤ 6371 * (2 * 4) := by
  simp only [FresnelCalculator.calculateDistance, RFLinkPlanner.atan2]
  have h1 := Complex.arg_le_pi
    ⟨Real.sqrt (1 - (Real.sin (deg2rad (t2.lat - t1.lat) / 2) *
          Real.sin (deg2rad (t2.lat - t1.lat) / 2) +
        Real.cos (deg2rad t1.lat) * Real.cos (deg2rad t2.lat) *
          Real.sin (deg2rad (t2.lng - t1.lng) / 2) *
          Real.sin (deg2rad (t2.lng - t1.lng) / 2))),
      Real.sqrt (Real.sin (deg2rad (t2.lat - t1.lat) / 2) *
          Real.sin (deg2rad (t2.lat - t1.lat) / 2) +
        Real.cos (deg2rad t1.lat) * Real.cos (deg2rad t2.lat) *
          Real.sin (deg2rad (t2.lng - t1.lng) / 2) *
          Real.sin (deg2rad (t2.lng - t1.lng) / 2))⟩
  have h0 := Complex.neg_pi_lt_arg
    ⟨Real.sqrt (1 - (Real.sin (deg2rad (t2.lat - t1.lat) / 2) *
          Real.sin (deg2rad (t2.lat - t1.lat) / 2) +
        Real.cos (deg2rad t1.lat) * Real.cos (deg2rad t2.lat) *
          Real.sin (deg2rad (t2.lng - t1.lng) / 2) *
          Real.sin (deg2rad (t2.lng - t1.lng) / 2))),
      Real.sqrt (Real.sin (deg2rad (t2.lat - t1.lat) / 2) *
          Real.sin (deg2rad (t2.lat - t1.lat) / 2) +
        Real.cos (deg2rad t1.lat) * Real.cos (deg2rad t2.lat) *
          Real.sin (deg2rad (t2.lng - t1.lng) / 2) *
          Real.sin (deg2rad (t2.lng - t1.lng) / 2))⟩
  have h2 := Real.pi_le_four
  constructor <;> nlinarith

/-- The distance in metres never overflows. -/
theorem distance_metres (t1 t2 : Tower) :
    mul (.fin (FresnelCalculator.calculateDistance t1 t2)) (.fin 1000) =
        .fin (FresnelCalculator.calculateDistance t1 t2 * 1000) ∧
      -MAX_VALUE ≤ FresnelCalculator.calculateDistance t1 t2 * 1000 ∧
      FresnelCalculator.calculateDistance t1 t2 * 1000 ≤ MAX_VALUE := by
  obtain ⟨h1, h2⟩ := calculateDistance_abs_le t1 t2
  have hM : (6371 * (2 * 4) * 1000 : ℝ) ≤ MAX_VALUE := by
    unfold MAX_VALUE
    norm_num
  have hlo : -MAX_VALUE ≤ FresnelCalculator.calculateDistance t1 t2 * 1000 := by linarith
  have hhi : FresnelCalculator.calculateDistance t1 t2 * 1000 ≤ MAX_VALUE := by linarith
  exact ⟨by simp only [mul]; exact ofReal_of_le _ hlo hhi, hlo, hhi⟩

/-- With a finite wavelength whose product with the distance overflows, the
radius at the far end is `NaN`: the product becomes `Infinity` before it is
multiplied by 0. -/
theorem calculateFresnelRadius_product_overflow :
    calculateFresnelRadius (.fin 1e308) (.fin 1000) (.fin 0) = .nan := by
  have hadd : add (.fin 1000) (.fin 0) = .fin 1000 := by
    simp only [add, add_zero]
    exact ofReal_of_le 1000 (by unfold MAX_VALUE; norm_num) (by unfold MAX_VALUE; norm_num)
  have hmul : mul (.fin 1e308) (.fin 1000) = .inf false := by
    simp only [mul, ofReal, MAX_VALUE]
    norm_num
  simp only [calculateFresnelRadius, hadd, isZero, hmul]
  simp [mul, div, sqrt]

end FresnelCalculator.Double

/-- Claim C18, as amended: in the profile of every successful `analyzeLink`
whose distance is 0, or whose product of wavelength and distance is a finite
number, the sample of index 0 and the sample of index 24 exist and have
radius 0; the arithmetic is that of doubles with overflow. -/
theorem analyzeLink_finite_profile_endpoints (link : Option FresnelCalculator.LinkArg)
    (res : FresnelCalculator.Double.Analysis)
    (h : FresnelCalculator.Double.analyzeLink link = .ok res)
    (hfin : FresnelCalculator.Double.isZero res.distance ∨
      ∃ x, FresnelCalculator.Double.mul res.wavelength res.distance =
        FresnelCalculator.Double.Num.fin x) :
    res.points.length = 25 ∧
      ∃ p0 p24, res.points[0]? = some p0 ∧ res.points[24]? = some p24 ∧
        p0.radius = FresnelCalculator.Double.Num.fin 0 ∧
        p24.radius = FresnelCalculator.Double.Num.fin 0 := by
  obtain ⟨l, f, t, -, -, -, -, hdist, hpts⟩ := FresnelCalculator.Double.analyzeLink_double_inv h
  obtain ⟨hD, hlo, hhi⟩ := FresnelCalculator.Double.distance_metres f t
  rw [hD] at hdist
  rw [hdist] at hpts hfin
  obtain ⟨p0, p24, h0, h24, r0, r24⟩ :=
    FresnelCalculator.Double.calculateFresnelPoints_ends f t res.wavelength _ hlo hhi
  refine ⟨by rw [hpts]; exact FresnelCalculator.Double.calculateFresnelPoints_length _ _ _ _,
    p0, p24, hpts ▸ h0, hpts ▸ h24, ?_, ?_⟩
  · rw [r0]
    rcases hfin with hz | ⟨x, hx⟩
    · simp only [FresnelCalculator.Double.isZero] at hz
      rw [hz]
      exact FresnelCalculator.Double.calculateFresnelRadius_zero_zero _
    · cases hw : res.wavelength with
      | nan => rw [hw] at hx; simp [FresnelCalculator.Double.mul] at hx
      | inf a =>
        by_cases hz : FresnelCalculator.calculateDistance f t * 1000 = 0
        · rw [hz]
          exact FresnelCalculator.Double.calculateFresnelRadius_zero_zero _
        · rw [hw] at hx
          simp [FresnelCalculator.Double.mul, hz] at hx
      | fin w => exact FresnelCalculator.Double.calculateFresnelRadius_fin_zero w _ hlo hhi
  · rw [r24]
    rcases hfin with hz | ⟨x, hx⟩
    · simp only [FresnelCalculator.Double.isZero] at hz
      rw [hz]
      exact FresnelCalculator.Double.calculateFresnelRadius_zero_zero _
    · cases hw : res.wavelength with
      | nan => rw [hw] at hx; simp [FresnelCalculator.Double.mul] at hx
      | inf a =>
        by_cases hz : FresnelCalculator.calculateDistance f t * 1000 = 0
        · rw [hz]
          exact FresnelCalculator.Double.calculateFresnelRadius_zero_zero _
        · rw [hw] at hx
          simp [FresnelCalculator.Double.mul, hz] at hx
      | fin w =>
        rw [hw] at hx
        exact FresnelCalculator.Double.calculateFresnelRadius_fin_zero_right w _ hlo hhi x hx

/-- Claim C18 refuted as stated: the analysis of the sample link at `1e-320` GHz
succeeds, its wavelength overflows to `Infinity`, and the samples of index 0
and 24 have the radius `NaN`. -/
theorem analyzeLink_overflow_counterexample :
    ∃ res, FresnelCalculator.Double.analyzeLink (some Sample.linkTiny) = .ok res ∧
      res.wavelength = FresnelCalculator.Double.Num.inf false ∧
      ∃ p0 p24, res.points[0]? = some p0 ∧ res.points[24]? = some p24 ∧
        p0.radius = FresnelCalculator.Double.Num.nan ∧
        p24.radius = FresnelCalculator.Double.Num.nan := by
  have hfr : (Sample.linkTiny.frequency.orElse Sample.towerA.frequency) =
      RFLinkPlanner.JSNumber.fin (1 / 10 ^ 320) := by
    simp only [Sample.linkTiny, RFLinkPlanner.JSNumber.orElse, RFLinkPlanner.JSNumber.truthy]
    norm_num
  obtain ⟨res, hres, hwl, hdist, hpts⟩ :=
    FresnelCalculator.Double.analyzeLink_double_ok Sample.linkTiny Sample.towerA Sample.towerB
      rfl rfl (by rw [hfr]; rfl)
      (by rw [hfr]; simp only [RFLinkPlanner.JSNumber.leZero]; norm_num)
  obtain ⟨hD, hlo, hhi⟩ := FresnelCalculator.Double.distance_metres Sample.towerA Sample.towerB
  have hpos : 0 < FresnelCalculator.calculateDistance Sample.towerA Sample.towerB * 1000 := by
    have := FresnelCalculator.calculateDistance_pos_of_north Sample.towerA Sample.towerB rfl
      (by simp only [Sample.towerA, Sample.towerB]; norm_num)
      (by simp only [Sample.towerA, Sample.towerB]; norm_num)
    linarith
  have hinf : res.wavelength = FresnelCalculator.Double.Num.inf false := by
    rw [hwl, hfr]
    simp only [FresnelCalculator.Double.ofJSNumber, FresnelCalculator.Double.mul,
      FresnelCalculator.Double.div, FresnelCalculator.Double.ofReal,
      FresnelCalculator.Double.MAX_VALUE, FresnelCalculator.SPEED_OF_LIGHT]
    norm_num
  rw [hD] at hdist
  rw [hdist, hinf] at hpts
  obtain ⟨p0, p24, h0, h24, r0, r24⟩ :=
    FresnelCalculator.Double.calculateFresnelPoints_ends Sample.towerA Sample.towerB
      (FresnelCalculator.Double.Num.inf false) _ hlo hhi
  refine ⟨res, hres, hinf, p0, p24, hpts ▸ h0, hpts ▸ h24, ?_, ?_⟩
  · rw [r0]
    exact FresnelCalculator.Double.calculateFresnelRadius_inf_zero _ hpos hhi
  · rw [r24]
    exact FresnelCalculator.Double.calculateFresnelRadius_inf_zero_right _ hpos hhi

/-- Witness of claim C18: the profile of the sample link from `A` to `B`, whose
wavelength is 0.06 m. -/
theorem analyzeLink_finite_profile_endpoints_witness :
    ∃ res, FresnelCalculator.Double.analyzeLink (some Sample.linkAB) = .ok res ∧
      (FresnelCalculator.Double.isZero res.distance ∨
        ∃ x, FresnelCalculator.Double.mul res.wavelength res.distance =
          FresnelCalculator.Double.Num.fin x) ∧
      res.points.length = 25 ∧
      ∃ p0 p24, res.points[0]? = some p0 ∧ res.points[24]? = some p24 ∧
        p0.radius = FresnelCalculator.Double.Num.fin 0 ∧
        p24.radius = FresnelCalculator.Double.Num.fin 0 := by
  obtain ⟨res, hres, hwl, hdist, -⟩ :=
    FresnelCalculator.Double.analyzeLink_double_ok Sample.linkAB Sample.towerA Sample.towerB
      rfl rfl rfl rfl
  obtain ⟨hD, hlo, hhi⟩ := FresnelCalculator.Double.distance_metres Sample.towerA Sample.towerB
  have hw : res.wavelength = FresnelCalculator.Double.Num.fin 0.06 := by
    rw [hwl]
    have hfr : (Sample.linkAB.frequency.orElse Sample.towerA.frequency) =
        RFLinkPlanner.JSNumber.fin 5 := rfl
    rw [hfr]
    simp only [FresnelCalculator.Double.ofJSNumber, FresnelCalculator.Double.mul,
      FresnelCalculator.Double.div, FresnelCalculator.Double.ofReal,
      FresnelCalculator.Double.MAX_VALUE, FresnelCalculator.SPEED_OF_LIGHT]
    norm_num
  have hfin : FresnelCalculator.Double.isZero res.distance ∨
      ∃ x, FresnelCalculator.Double.mul res.wavelength res.distance =
        FresnelCalculator.Double.Num.fin x := by
    refine Or.inr ⟨0.06 * (FresnelCalculator.calculateDistance Sample.towerA Sample.towerB * 1000),
      ?_⟩
    rw [hw, hdist, hD]
    simp only [FresnelCalculator.Double.mul]
    have hM := FresnelCalculator.Double.MAX_VALUE_pos
    exact FresnelCalculator.Double.ofReal_of_le _ (by nlinarith) (by nlinarith)
  exact ⟨res, hres, hfin, analyzeLink_finite_profile_endpoints _ res hres hfin⟩
